import Mathlib

/-!
# OPTIGA data-link layer (`drivers/crypto/optiga/ifx_i2c/optiga_data.c`)

A shallow embedding of the framing and stop-and-wait acknowledgement code of the
OPTIGA I2C driver, followed by theorems about it.

Conventions of the embedding

* A byte buffer is a `List Nat`; a C read `frame[i]` is `frame.getD i 0`, a C write
  `frame[i] = v` is `frame.set i (v % 256)` (the store converts to `uint8_t`).
* `uint16_t` results are reduced `% 65536` where the C conversion happens.
* `size_t` arithmetic that can wrap takes the width of `size_t` in bits as the
  parameter `sb` and is reduced `% 2 ^ sb`.
* The physical layer (`optiga_phy.c`) is an external collaborator: every call of one
  of its primitives takes the outcome of that call as an argument and is recorded
  in the ghost field `bus` of the device state.
-/

/-! ## Constants of `optiga_data.c` -/

abbrev OPTIGA_DATA_FCTR_LEN : Nat := 1
abbrev OPTIGA_DATA_LEN_LEN : Nat := 2
abbrev OPTIGA_DATA_FCS_LEN : Nat := 2

abbrev OPTIGA_DATA_FCTR_OFFSET : Nat := 0
abbrev OPTIGA_DATA_LEN_OFFSET : Nat := OPTIGA_DATA_FCTR_OFFSET + OPTIGA_DATA_FCTR_LEN
abbrev OPTIGA_DATA_PAYLOAD_OFFSET : Nat := OPTIGA_DATA_LEN_OFFSET + OPTIGA_DATA_LEN_LEN

abbrev OPTIGA_DATA_FCTR_FTYPE_MASK : Nat := 0x80
abbrev OPTIGA_DATA_FCTR_SEQCTR_MASK : Nat := 0x60
abbrev OPTIGA_DATA_FCTR_FRNR_MASK : Nat := 0x0C
abbrev OPTIGA_DATA_FCTR_ACKNR_MASK : Nat := 0x03

abbrev OPTIGA_DATA_FCTR_FTYPE_DATA : Nat := 0x00
abbrev OPTIGA_DATA_FCTR_FTYPE_CTRL : Nat := 0x80
abbrev OPTIGA_DATA_FCTR_SEQCTR_ACK : Nat := 0x00
abbrev OPTIGA_DATA_FCTR_SEQCTR_NAK : Nat := 0x20
abbrev OPTIGA_DATA_FCTR_SEQCTR_RST : Nat := 0x40

abbrev OPTIGA_DATA_CRTL_FRAME_LEN : Nat :=
  OPTIGA_DATA_FCTR_LEN + OPTIGA_DATA_LEN_LEN + OPTIGA_DATA_FCS_LEN

/-- Modelled from the spec: `optiga_data.h` is not part of the sources; the frame
header is the control byte and the two length bytes. -/
abbrev OPTIGA_DATA_HEADER_LEN : Nat := 3

/-- Modelled from the spec: `optiga_data.h` is not part of the sources; the frame
trailer is the two-byte frame check sequence. -/
abbrev OPTIGA_DATA_TRAILER_LEN : Nat := 2

abbrev DATA_LINK_OVERHEAD : Nat := OPTIGA_DATA_HEADER_LEN + OPTIGA_DATA_TRAILER_LEN

/-- Zephyr errno value `EIO` (5); the bare name is taken by the Lean core library. -/
abbrev EIO_ERRNO : Int := 5

/-- Zephyr errno value `EINVAL`. -/
abbrev EINVAL : Int := 22

/-! ## Byte order helpers (`sys/byteorder.h`) -/

/-- Zephyr `sys_get_be16(&src[off])`: `((uint16_t)src[0] << 8) | src[1]`. -/
def sys_get_be16 (src : List Nat) (off : Nat) : Nat :=
  (((src.getD off 0) <<< 8) ||| (src.getD (off + 1) 0)) % 65536

/-- Zephyr `sys_put_be16(val, &dst[off])`: `dst[0] = val >> 8; dst[1] = val;`. -/
def sys_put_be16 (val : Nat) (dst : List Nat) (off : Nat) : List Nat :=
  (dst.set off ((val >>> 8) % 256)).set (off + 1) (val % 256)

/-! ## Frame check sequence -/

/-- Inner function of the FCS. The locals `h1 .. h4` are `uint16_t` and never exceed
`0xFF`; the returned expression is converted to `uint16_t`. -/
def optiga_data_calc_fcs_core (seed c : Nat) : Nat :=
  let h1 := (seed ^^^ c) &&& 0xFF
  let h2 := h1 &&& 0x0F
  let h3 := (h2 <<< 4) ^^^ h1
  let h4 := h3 >>> 4
  ((((((h3 <<< 1) ^^^ h4) <<< 4) ^^^ h2) <<< 3) ^^^ h4 ^^^ (seed >>> 8)) % 65536

/-- The loop `for (i = 0; i < len; i++) fcs = core(fcs, frame_start[i])`, seed 0. -/
def optiga_data_frame_calc_fcs (frame_start : List Nat) (len : Nat) : Nat :=
  (List.range len).foldl
    (fun fcs i => optiga_data_calc_fcs_core fcs (frame_start.getD i 0)) 0

/-- Verify the FCS of a frame of `len` bytes including the FCS
(`__ASSERT(len > OPTIGA_DATA_FCS_LEN)` is the caller's obligation). -/
def optiga_data_frame_check_fcs (frame_start : List Nat) (len : Nat) : Bool :=
  let calc_fcs := optiga_data_frame_calc_fcs frame_start (len - 2)
  let recv_fcs := sys_get_be16 frame_start (len - 2)
  calc_fcs == recv_fcs

/-- Append the FCS of the first `len` bytes at offset `len`. -/
def optiga_data_frame_set_fcs (frame_start : List Nat) (len : Nat) : List Nat :=
  let fcs := optiga_data_frame_calc_fcs frame_start len
  sys_put_be16 fcs frame_start len

/-! ## Header fields -/

/-- Set the LEN field; the argument is converted to `uint16_t`. -/
def optiga_data_frame_set_len (frame_start : List Nat) (len_value : Nat) : List Nat :=
  sys_put_be16 (len_value % 65536) frame_start OPTIGA_DATA_LEN_OFFSET

def optiga_data_frame_get_len (frame_start : List Nat) : Nat :=
  sys_get_be16 frame_start OPTIGA_DATA_LEN_OFFSET

/-- Write the control byte `flags | frame_nr << 2 | frame_ack`
(the three `__ASSERT`s on the argument ranges are the caller's obligation). -/
def optiga_data_frame_set_fctr (frame_start : List Nat) (flags frame_nr frame_ack : Nat) :
    List Nat :=
  frame_start.set OPTIGA_DATA_FCTR_OFFSET ((flags ||| (frame_nr <<< 2) ||| frame_ack) % 256)

def optiga_data_is_ctrl_frame (frame_start : List Nat) : Bool :=
  (frame_start.getD OPTIGA_DATA_FCTR_OFFSET 0 &&& OPTIGA_DATA_FCTR_FTYPE_MASK)
    == OPTIGA_DATA_FCTR_FTYPE_CTRL

def optiga_data_get_seqctr (frame_start : List Nat) : Nat :=
  frame_start.getD OPTIGA_DATA_FCTR_OFFSET 0 &&& OPTIGA_DATA_FCTR_SEQCTR_MASK

def optiga_data_get_frame_nr (frame_start : List Nat) : Nat :=
  (frame_start.getD OPTIGA_DATA_FCTR_OFFSET 0 &&& OPTIGA_DATA_FCTR_FRNR_MASK) >>> 2

def optiga_data_get_ack_nr (frame_start : List Nat) : Nat :=
  frame_start.getD OPTIGA_DATA_FCTR_OFFSET 0 &&& OPTIGA_DATA_FCTR_ACKNR_MASK

/-! ## Device state and the physical layer -/

/-- Modelled from the spec: `struct data_link_layer` of the absent `optiga_data.h`,
the three `uint8_t` sequence counters (`tx_seq`, `tx_last_acked`, `rx_seq`). -/
structure data_link_layer where
  frame_tx_nr : Nat
  frame_tx_ack : Nat
  frame_rx_nr : Nat
  deriving DecidableEq, Repr

/-- One call of a physical-layer primitive, as seen on the bus. -/
inductive phy_op where
  | write_frame (bytes : List Nat)
  | read_frame
  | get_i2c_state
  deriving DecidableEq, Repr

/-- The part of `struct optiga_data` the data-link layer works on: the frame buffer
handed out by `optiga_phy_frame_buf` (its length is the negotiated `data_reg_len`),
the sequence counters, and the ghost log of physical-layer calls. -/
structure optiga_data where
  frame : List Nat
  data : data_link_layer
  bus : List phy_op
  deriving DecidableEq, Repr

/-- Outcome of one `optiga_phy_read_frame` call: return value, buffer content after
the call and the length stored through `len`. -/
structure phy_read where
  err : Int
  buf : List Nat
  len : Nat
  deriving DecidableEq, Repr

/-- Outcome of one `optiga_phy_get_i2c_state` call: return value and the `uint16_t`
stored through `read_len`. -/
structure phy_state where
  res : Int
  read_len : Nat
  deriving DecidableEq, Repr

/-- Modelled from the spec: `optiga_phy_frame_buf` of the absent `optiga_phy.c`,
the frame buffer and its length. -/
def optiga_phy_frame_buf (dev : optiga_data) : List Nat × Nat :=
  (dev.frame, dev.frame.length)

/-- Modelled from the spec: `optiga_phy_write_frame` of the absent `optiga_phy.c`,
puts the first `len` bytes of the frame buffer on the bus and returns `res`. -/
def optiga_phy_write_frame (dev : optiga_data) (len : Nat) (res : Int) : Int × optiga_data :=
  (res, { dev with bus := dev.bus ++ [phy_op.write_frame (dev.frame.take len)] })

/-- Modelled from the spec: `optiga_phy_read_frame` of the absent `optiga_phy.c`,
reads one frame into the frame buffer and reports its length. -/
def optiga_phy_read_frame (dev : optiga_data) (rd : phy_read) : Int × Nat × optiga_data :=
  (rd.err, rd.len, { dev with frame := rd.buf, bus := dev.bus ++ [phy_op.read_frame] })

/-- Modelled from the spec: `optiga_phy_get_i2c_state` of the absent `optiga_phy.c`,
polls the status register and reports the available read length. -/
def optiga_phy_get_i2c_state (dev : optiga_data) (st : phy_state) : Int × Nat × optiga_data :=
  (st.res, st.read_len, { dev with bus := dev.bus ++ [phy_op.get_i2c_state] })

/-! ## Data-link operations -/

/-- The `memcpy(dst, src, n)` of `optiga_send_ack_frame`. -/
def memcpy (dst src : List Nat) (n : Nat) : List Nat :=
  (List.range n).foldl (fun d i => d.set i (src.getD i 0)) dst

def optiga_send_ack_frame (dev : optiga_data) (wr : Int) : Int × optiga_data :=
  let frame := (optiga_phy_frame_buf dev).1
  let frame_bak := memcpy (List.replicate OPTIGA_DATA_CRTL_FRAME_LEN 0) frame
    OPTIGA_DATA_CRTL_FRAME_LEN
  let frame := optiga_data_frame_set_fctr frame
    (OPTIGA_DATA_FCTR_FTYPE_CTRL ||| OPTIGA_DATA_FCTR_SEQCTR_ACK) 0 dev.data.frame_rx_nr
  let frame := optiga_data_frame_set_len frame 0
  let frame := optiga_data_frame_set_fcs frame OPTIGA_DATA_PAYLOAD_OFFSET
  let (err, dev) := optiga_phy_write_frame { dev with frame := frame }
    OPTIGA_DATA_CRTL_FRAME_LEN wr
  (err, { dev with frame := memcpy dev.frame frame_bak OPTIGA_DATA_CRTL_FRAME_LEN })

def optiga_data_is_ctrl_frame_available (dev : optiga_data) (st : phy_state) :
    Int × optiga_data :=
  let (res, read_len, dev) := optiga_phy_get_i2c_state dev st
  if res ≠ 0 then (res, dev)
  else if read_len = OPTIGA_DATA_CRTL_FRAME_LEN then (1, dev)
  else (0, dev)

/-- Returns the error code, the received frame length and the new state; the
received frame is the frame buffer of the new state. -/
def optiga_data_recv_common (dev : optiga_data) (rd : phy_read) : Int × Nat × optiga_data :=
  let (err, recv_frame_len, dev) := optiga_phy_read_frame dev rd
  if err ≠ 0 then (err, recv_frame_len, dev)
  else if recv_frame_len < OPTIGA_DATA_CRTL_FRAME_LEN then (-EIO_ERRNO, recv_frame_len, dev)
  else
    let frame := (optiga_phy_frame_buf dev).1
    let fcs_good := optiga_data_frame_check_fcs frame recv_frame_len
    if !fcs_good then (-EIO_ERRNO, recv_frame_len, dev)
    else
      let seqctr := optiga_data_get_seqctr frame
      if seqctr ≠ OPTIGA_DATA_FCTR_SEQCTR_ACK then (-EIO_ERRNO, recv_frame_len, dev)
      else
        let ack_nr := optiga_data_get_ack_nr frame
        if dev.data.frame_tx_nr = ack_nr then
          (0, recv_frame_len,
            { dev with data := { dev.data with
                frame_tx_nr := (dev.data.frame_tx_nr + 1) % 4
                frame_tx_ack := ack_nr } })
        else if dev.data.frame_tx_ack = ack_nr then (0, recv_frame_len, dev)
        else (-EIO_ERRNO, recv_frame_len, dev)

def optiga_data_recv_ctrl_frame (dev : optiga_data) (rd : phy_read) : Int × optiga_data :=
  let (res, ctrl_frame_len, dev) := optiga_data_recv_common dev rd
  if res ≠ 0 then (res, dev)
  else if ctrl_frame_len ≠ OPTIGA_DATA_CRTL_FRAME_LEN then (-EIO_ERRNO, dev)
  else
    let ctrl_frame := optiga_data_is_ctrl_frame dev.frame
    let frame_len := optiga_data_frame_get_len dev.frame
    if !ctrl_frame || frame_len ≠ 0 then (-EIO_ERRNO, dev)
    else (0, dev)

/-- Send the packet of `len` bytes that lies at offset 3 of the frame buffer.
`sb` is the width of `size_t`; `wr`, `st`, `rd` are the outcomes of the bus write,
the status poll and the frame read (each is used only if the call is made). -/
def optiga_data_send_packet (sb : Nat) (dev : optiga_data) (len : Nat)
    (wr : Int) (st : phy_state) (rd : phy_read) : Int × optiga_data :=
  let (frame, max_frame_len) := optiga_phy_frame_buf dev
  if (len + DATA_LINK_OVERHEAD) % 2 ^ sb > max_frame_len then (-EINVAL, dev)
  else
    let frame_nr := dev.data.frame_tx_nr
    let frame_ack := dev.data.frame_rx_nr
    let frame := optiga_data_frame_set_fctr frame
      (OPTIGA_DATA_FCTR_FTYPE_DATA ||| OPTIGA_DATA_FCTR_SEQCTR_ACK) frame_nr frame_ack
    let frame := optiga_data_frame_set_len frame len
    let frame := optiga_data_frame_set_fcs frame ((OPTIGA_DATA_PAYLOAD_OFFSET + len) % 2 ^ sb)
    let (res, dev) := optiga_phy_write_frame { dev with frame := frame }
      ((len + DATA_LINK_OVERHEAD) % 2 ^ sb) wr
    if res ≠ 0 then (res, dev)
    else
      let (res, dev) := optiga_data_is_ctrl_frame_available dev st
      if res < 0 then (res, dev)
      else if res = 1 then optiga_data_recv_ctrl_frame dev rd
      else (0, dev)

/-- Returns the error code, the value stored through `data_len` (`none` when the
function returns before the store) and the new state. `frame_len + DATA_LINK_OVERHEAD`
is `int` arithmetic on a `uint16_t` and does not wrap. -/
def optiga_data_recv_packet (dev : optiga_data) (rd : phy_read) (wr : Int) :
    Int × Option Nat × optiga_data :=
  let (res, rx_data_len, dev) := optiga_data_recv_common dev rd
  if res ≠ 0 then (res, none, dev)
  else
    let ctrl_frame := optiga_data_is_ctrl_frame dev.frame
    if ctrl_frame then (-EIO_ERRNO, none, dev)
    else
      let frame_len := optiga_data_frame_get_len dev.frame
      if frame_len + DATA_LINK_OVERHEAD ≠ rx_data_len then (-EIO_ERRNO, none, dev)
      else
        let dev := { dev with data := { dev.data with
          frame_rx_nr := optiga_data_get_frame_nr dev.frame } }
        let (err, dev) := optiga_send_ack_frame dev wr
        (err, some frame_len, dev)

def optiga_data_init (dev : optiga_data) : Int × optiga_data :=
  (0, { dev with data := { frame_tx_nr := 0, frame_tx_ack := 0, frame_rx_nr := 0 } })

/-! ## Harness definitions used by the statements -/

/-- Store `bytes` into `frame` from offset `off` on (how a caller fills the packet
area returned by `optiga_data_packet_buf`). -/
def put_bytes : List Nat → Nat → List Nat → List Nat
  | frame, _, [] => frame
  | frame, off, b :: bs => put_bytes (frame.set off (b % 256)) (off + 1) bs

/-- Flip bit `k` of byte `i` of a frame. -/
def flip_bit (frame : List Nat) (i k : Nat) : List Nat :=
  frame.set i ((frame.getD i 0) ^^^ (1 <<< k))

/-- A received frame as the claims call well-formed: the bus read succeeded, at
least `OPTIGA_DATA_CRTL_FRAME_LEN` bytes, valid FCS, seqctl ACK. -/
def well_formed (rd : phy_read) : Prop :=
  rd.err = 0 ∧ OPTIGA_DATA_CRTL_FRAME_LEN ≤ rd.len ∧
    optiga_data_frame_check_fcs rd.buf rd.len = true ∧
    optiga_data_get_seqctr rd.buf = OPTIGA_DATA_FCTR_SEQCTR_ACK

instance (rd : phy_read) : Decidable (well_formed rd) := by
  unfold well_formed
  infer_instance

/-- Consecutive calls of `optiga_data_recv_common`, one per read outcome: the list
of return values and the final state. -/
def recv_all : optiga_data → List phy_read → List Int × optiga_data
  | dev, [] => ([], dev)
  | dev, rd :: rds =>
    let r := optiga_data_recv_common dev rd
    let rest := recv_all r.2.2 rds
    (r.1 :: rest.1, rest.2)

/-- Every frame of the sequence is well-formed and its ack-number equals the
`frame_tx_nr` current at its call. -/
def acks_match : optiga_data → List phy_read → Prop
  | _, [] => True
  | dev, rd :: rds =>
    well_formed rd ∧ optiga_data_get_ack_nr rd.buf = dev.data.frame_tx_nr ∧
      acks_match (optiga_data_recv_common dev rd).2.2 rds

/-- The frame `optiga_data_send_packet` assembles in the frame buffer. -/
def send_frame (dev : optiga_data) (len : Nat) : List Nat :=
  optiga_data_frame_set_fcs
    (optiga_data_frame_set_len
      (optiga_data_frame_set_fctr dev.frame
        (OPTIGA_DATA_FCTR_FTYPE_DATA ||| OPTIGA_DATA_FCTR_SEQCTR_ACK)
        dev.data.frame_tx_nr dev.data.frame_rx_nr)
      len)
    (OPTIGA_DATA_PAYLOAD_OFFSET + len)

/-- The part of `optiga_data_calc_fcs_core` that depends on `h1` only. -/
def fcs_mix (h1 : Nat) : Nat :=
  let h2 := h1 &&& 0x0F
  let h3 := (h2 <<< 4) ^^^ h1
  let h4 := h3 >>> 4
  (((((h3 <<< 1) ^^^ h4) <<< 4) ^^^ h2) <<< 3) ^^^ h4

/-- Recovers `h1` from the high byte of `fcs_mix h1`. -/
def fcs_unmix (top : Nat) : Nat :=
  let lo := (top &&& 0x0F) ^^^ (top >>> 5)
  let hi := (top >>> 4) ^^^ lo
  (hi <<< 4) ||| lo


/-- The range invariant of the three sequence counters (each is a 2-bit number). -/
def counters_in_range (d : data_link_layer) : Prop :=
  d.frame_tx_nr < 4 ∧ d.frame_tx_ack < 4 ∧ d.frame_rx_nr < 4


/-! # Driver level (`drivers/crypto/optiga/ifx_i2c/crypto_optiga.c`)

The transport below the driver (`optiga_nettran_*`, `optiga_pres_*`, `optiga_phy_init`),
the GPIO and the kernel queue are external collaborators: every call takes its outcome
as an argument and is recorded in the ghost field `trace` of the driver state. A call
into the transport may change the state `dl` of the layers below in any way; the
outcome of the call carries that state. -/

/-! ## Constants of `crypto_optiga.c` and `crypto_optiga.h` -/

abbrev OPTIGA_MAX_RESET : Int := 3
abbrev OPTIGA_CTX_HANDLE_LEN : Nat := 8

/-- Modelled from the spec: the shield states of the absent `optiga_pres.h`, numbered in
the order in which the spec lists them. -/
abbrev OPTIGA_PRES_DISABLED : Nat := 0
abbrev OPTIGA_PRES_LOADING_KEY : Nat := 1
abbrev OPTIGA_PRES_KEY_LOADED : Nat := 2
abbrev OPTIGA_PRES_HANDSHAKE : Nat := 3
abbrev OPTIGA_PRES_ENABLED : Nat := 4

abbrev OPTIGA_GET_ERROR_RESPONSE_LEN : Nat := 5
abbrev OPTIGA_APDU_STA_OFFSET : Nat := 0
abbrev OPTIGA_APDU_STA_SUCCESS : Nat := 0
abbrev OPTIGA_APDU_PARAM_OFFS : Nat := 1
abbrev OPTIGA_APDU_LEN_OFFS : Nat := 2
abbrev OPTIGA_APDU_OUT_DATA_OFFSET : Nat := 4

abbrev OPTIGA_OPEN_APPLICATION_RESPONSE_LEN : Nat := 4
abbrev OPTIGA_APP_ID_LEN : Nat := 16
abbrev OPTIGA_OPEN_APPLICATION_LEN : Nat := OPTIGA_APDU_OUT_DATA_OFFSET + OPTIGA_APP_ID_LEN
abbrev OPTIGA_RESTORE_APPLICATION_LEN : Nat :=
  OPTIGA_OPEN_APPLICATION_LEN + OPTIGA_CTX_HANDLE_LEN
abbrev OPTIGA_OPEN_APP_PARAM_RESTORE : Nat := 0x01
abbrev OPTIGA_OPEN_APP_LENGTH : Nat := OPTIGA_APP_ID_LEN + OPTIGA_CTX_HANDLE_LEN
abbrev OPTIGA_CLOSE_APPLICATION_LEN : Nat := 4
abbrev OPTIGA_CLOSE_APP_PARAM_HIBERNATE : Nat := 0x01

/-- Modelled from the spec: `OPTIGA_STATUS_CODE_SUCCESS` of the absent
`drivers/crypto/optiga_apdu.h`, the completion value of a successful APDU. -/
abbrev OPTIGA_STATUS_CODE_SUCCESS : Int := 0

/-- The command `optiga_open_application_apdu`. -/
def optiga_open_application_apdu : List Nat :=
  [0xF0, 0x00, 0x00, OPTIGA_APP_ID_LEN,
   0xD2, 0x76, 0x00, 0x00, 0x04, 0x47, 0x65, 0x6E, 0x41, 0x75, 0x74, 0x68, 0x41, 0x70, 0x70, 0x6C]

/-- The command `optiga_close_application_apdu`. -/
def optiga_close_application_apdu : List Nat := [0xF1, 0x00, 0x00, 0x00]

/-- The command `error_code_apdu` of `optiga_get_error_code`. -/
def error_code_apdu : List Nat :=
  [0x01, 0x00, 0x00, 0x06, 0xF1, 0xC2, 0x00, 0x00, 0x00, 0x01]

/-- Build-time configuration: `CONFIG_OPTIGA_SHIELDED_CONNECTION == 1`, and
`OPTIGA_WAKE_LOCK_IGNORED_SESSIONS` of the absent `drivers/crypto/optiga_apdu.h`. -/
structure optiga_kconfig where
  shielded_connection : Bool
  wake_lock_ignored_sessions : Nat
  deriving DecidableEq, Repr

/-! ## Zephyr helpers (`sys/util.h`, `sys/atomic.h`)

An `atomic_t` is one 32-bit word, given by its bit pattern as a natural number
below `2 ^ 32`. -/

abbrev ATOMIC_BITS : Nat := 32

/-- Bitwise complement of a 32-bit word. -/
def atomic_not (x : Nat) : Nat := (2 ^ ATOMIC_BITS - 1) ^^^ x

/-- Zephyr `BIT_MASK(n)`: `BIT(n) - 1`. -/
def BIT_MASK (n : Nat) : Nat := (1 <<< n) - 1

/-- Zephyr `ATOMIC_MASK(bit)`: `1 << (bit & (ATOMIC_BITS - 1))`. -/
def ATOMIC_MASK (bit : Nat) : Nat := 1 <<< (bit &&& (ATOMIC_BITS - 1))

/-- Modelled from the spec: Zephyr `atomic_test_and_set_bit` on a one-word target
(`bit < ATOMIC_BITS`, so that `ATOMIC_ELEM` is the word itself): returns whether the bit
was set and sets it. -/
def atomic_test_and_set_bit (target bit : Nat) : Bool × Nat :=
  let mask := ATOMIC_MASK bit
  let old := target
  ((old &&& mask) != 0, target ||| mask)

/-- Modelled from the spec: Zephyr `atomic_clear_bit` on a one-word target
(`bit < ATOMIC_BITS`): clears the bit. -/
def atomic_clear_bit (target bit : Nat) : Nat :=
  let mask := ATOMIC_MASK bit
  target &&& atomic_not mask

/-- Modelled from the spec: Zephyr `atomic_cas`: if the target holds `old_value` it is
set to `new_value` and the result is true. -/
def atomic_cas (target old_value new_value : Nat) : Bool × Nat :=
  if target = old_value then (true, new_value) else (false, target)

def OPTIGA_IGNORE_HIBERNATE_MASK (cfg : optiga_kconfig) : Nat :=
  BIT_MASK cfg.wake_lock_ignored_sessions

/-! ## Driver state -/

/-- Modelled from the spec: `struct optiga_apdu` of the absent
`drivers/crypto/optiga_apdu.h`; `id` stands for the address of the object, to which
its completion signal `finished` belongs. -/
structure optiga_apdu where
  id : Nat
  tx_buf : List Nat
  tx_len : Nat
  rx_buf : List Nat
  rx_len : Nat
  deriving DecidableEq, Repr

/-- One call of an external collaborator of the driver, or of a stack-init hook. -/
inductive drv_op where
  | phy_init
  | data_init
  | nettran_init
  | pres_init
  | send_apdu (bytes : List Nat)
  | recv_apdu
  | power (enable : Bool)
  | pres_save_ctx
  | pres_restore_ctx
  | presence_enable
  | pres_do_handshake
  | pres_set_shared_secret (key : List Nat) (key_len : Nat)
  | fifo_get (apdu : Option Nat)
  | signal (apdu : Nat) (result : Int)
  deriving DecidableEq, Repr

/-- The fields of `struct optiga_data` the driver works on. `dl` is the state of the
physical and data-link layers, `gpio` tells whether `data->gpio` is non-NULL,
`open_` is the field `open`, `apdu_queue` is the content of the kernel FIFO and
`trace` is the ghost log of external calls. -/
structure optiga_dev where
  dl : optiga_data
  gpio : Bool
  apdu_queue : List optiga_apdu
  reset_counter : Int
  session_reservations : Nat
  shield_state : Nat
  hibernate_handle : List Nat
  open_ : Bool
  trace : List drv_op
  deriving DecidableEq, Repr

/-- Outcome of an external call that returns an error code. -/
structure ext_call where
  err : Int
  dl : optiga_data
  deriving DecidableEq, Repr

/-- Outcome of one `optiga_recv_apdu` call: return value, content of the caller's
buffer after the call and the length stored through `len`. -/
structure apdu_recv where
  err : Int
  buf : List Nat
  len : Nat
  dl : optiga_data
  deriving DecidableEq, Repr

/-! ## Session reservations -/

def session_acquire (dev : optiga_dev) (session_idx : Nat) : Bool × optiga_dev :=
  let r := atomic_test_and_set_bit dev.session_reservations session_idx
  let acquired := !r.1
  (acquired, { dev with session_reservations := r.2 })

def session_release (dev : optiga_dev) (session_idx : Nat) : optiga_dev :=
  { dev with session_reservations := atomic_clear_bit dev.session_reservations session_idx }

/-! ## Transport and stack initialisation -/

/-- Modelled from the spec: `optiga_send_apdu`, which hands the bytes to the absent
`optiga_nettran_send_apdu` or `optiga_pres_send_apdu`. -/
def optiga_send_apdu (dev : optiga_dev) (apdu : List Nat) (o : ext_call) : Int × optiga_dev :=
  (o.err, { dev with dl := o.dl, trace := dev.trace ++ [drv_op.send_apdu apdu] })

/-- Modelled from the spec: `optiga_recv_apdu`, which receives through the absent
`optiga_nettran_recv_apdu` or `optiga_pres_recv_apdu`; returns the error code, the
buffer, the stored length and the new state. -/
def optiga_recv_apdu (dev : optiga_dev) (o : apdu_recv) :
    Int × List Nat × Nat × optiga_dev :=
  (o.err, o.buf, o.len, { dev with dl := o.dl, trace := dev.trace ++ [drv_op.recv_apdu] })

/-- A stack-init hook or presentation-layer call of an absent file, logged as `op`. -/
def ext_invoke (dev : optiga_dev) (op : drv_op) (o : ext_call) : Int × optiga_dev :=
  (o.err, { dev with dl := o.dl, trace := dev.trace ++ [op] })

/-- The call of `optiga_data_init` (of `optiga_data.c`) on the layers below. -/
def drv_data_init (dev : optiga_dev) : Int × optiga_dev :=
  let r := optiga_data_init dev.dl
  (r.1, { dev with dl := r.2, trace := dev.trace ++ [drv_op.data_init] })

def optiga_reset (cfg : optiga_kconfig) (dev : optiga_dev) (phy nettran pres : ext_call) :
    Int × optiga_dev :=
  let (err, dev) := ext_invoke dev drv_op.phy_init phy
  if err ≠ 0 then (err, dev)
  else
    let (err, dev) := drv_data_init dev
    if err ≠ 0 then (err, dev)
    else
      let (err, dev) := ext_invoke dev drv_op.nettran_init nettran
      if err ≠ 0 then (err, dev)
      else if cfg.shielded_connection then
        let (err, dev) := ext_invoke dev drv_op.pres_init pres
        if err ≠ 0 then (err, dev) else (err, dev)
      else (err, dev)

def optiga_apdu_is_error (apdu_start : List Nat) : Bool :=
  apdu_start.getD OPTIGA_APDU_STA_OFFSET 0 != OPTIGA_APDU_STA_SUCCESS

/-- The `memcpy(dst + doff, src + soff, n)` of the driver. -/
def memcpy_at (dst : List Nat) (doff : Nat) (src : List Nat) (soff n : Nat) : List Nat :=
  (List.range n).foldl (fun d i => d.set (doff + i) (src.getD (soff + i) 0)) dst

/-- The comparison `memcmp(a, b, n) != 0`. -/
def memcmp_ne (a b : List Nat) (n : Nat) : Bool :=
  (List.range n).any (fun i => a.getD i 0 != b.getD i 0)

/-- Returns the error code, the byte stored through `err_code` (`none` when the
function returns before the store) and the new state. -/
def optiga_get_error_code (dev : optiga_dev) (snd : ext_call) (rcv : apdu_recv) :
    Int × Option Nat × optiga_dev :=
  let (err, dev) := optiga_send_apdu dev error_code_apdu snd
  if err ≠ 0 then (err, none, dev)
  else
    let (err, tmp_buf, tmp_buf_len, dev) := optiga_recv_apdu dev rcv
    if err ≠ 0 then (err, none, dev)
    else if tmp_buf_len ≠ OPTIGA_GET_ERROR_RESPONSE_LEN then (-EIO_ERRNO, none, dev)
    else if optiga_apdu_is_error tmp_buf then (-EIO_ERRNO, none, dev)
    else if sys_get_be16 tmp_buf OPTIGA_APDU_LEN_OFFS ≠ 1 then (-EIO_ERRNO, none, dev)
    else (0, some (tmp_buf.getD 4 0), dev)

/-- `handle` tells whether the argument is `data->hibernate_handle` (true) or NULL. -/
def optiga_open_application (dev : optiga_dev) (handle : Bool) (snd : ext_call)
    (rcv : apdu_recv) : Int × optiga_dev :=
  let tmp_buf := List.replicate OPTIGA_RESTORE_APPLICATION_LEN 0
  let dev := { dev with open_ := false }
  let tmp_buf := memcpy_at tmp_buf 0 optiga_open_application_apdu 0 OPTIGA_OPEN_APPLICATION_LEN
  let (tmp_buf, tmp_buf_len) :=
    if !handle then (tmp_buf, OPTIGA_OPEN_APPLICATION_LEN)
    else
      let tmp_buf := tmp_buf.set OPTIGA_APDU_PARAM_OFFS OPTIGA_OPEN_APP_PARAM_RESTORE
      let tmp_buf := sys_put_be16 OPTIGA_OPEN_APP_LENGTH tmp_buf OPTIGA_APDU_LEN_OFFS
      let tmp_buf := memcpy_at tmp_buf OPTIGA_OPEN_APPLICATION_LEN dev.hibernate_handle 0
        OPTIGA_CTX_HANDLE_LEN
      (tmp_buf, OPTIGA_RESTORE_APPLICATION_LEN)
  let (err, dev) := optiga_send_apdu dev (tmp_buf.take tmp_buf_len) snd
  if err ≠ 0 then (err, dev)
  else
    let resp := List.replicate OPTIGA_OPEN_APPLICATION_RESPONSE_LEN 0
    let resp_len := OPTIGA_OPEN_APPLICATION_RESPONSE_LEN
    let (err, tmp_buf, tmp_buf_len, dev) := optiga_recv_apdu dev rcv
    if err ≠ 0 then (err, dev)
    else if resp_len ≠ tmp_buf_len || memcmp_ne tmp_buf resp resp_len then (-EIO_ERRNO, dev)
    else (0, { dev with open_ := true })

/-- `handle` tells whether the argument is `data->hibernate_handle` (true) or NULL. -/
def optiga_close_application (dev : optiga_dev) (handle : Bool) (snd : ext_call)
    (rcv : apdu_recv) : Int × optiga_dev :=
  let tmp_buf := List.replicate (OPTIGA_CTX_HANDLE_LEN + OPTIGA_APDU_OUT_DATA_OFFSET) 0
  let tmp_buf := memcpy_at tmp_buf 0 optiga_close_application_apdu 0 OPTIGA_CLOSE_APPLICATION_LEN
  let tmp_buf_len := OPTIGA_CLOSE_APPLICATION_LEN
  let tmp_buf :=
    if handle then tmp_buf.set OPTIGA_APDU_PARAM_OFFS OPTIGA_CLOSE_APP_PARAM_HIBERNATE
    else tmp_buf
  let (err, dev) := optiga_send_apdu dev (tmp_buf.take tmp_buf_len) snd
  if err ≠ 0 then (err, dev)
  else
    let (err, tmp_buf, tmp_buf_len, dev) := optiga_recv_apdu dev rcv
    if err ≠ 0 then (err, dev)
    else if handle then
      if tmp_buf_len = OPTIGA_APDU_OUT_DATA_OFFSET && optiga_apdu_is_error tmp_buf then
        (-EIO_ERRNO, dev)
      else if tmp_buf_len ≠ OPTIGA_CTX_HANDLE_LEN + OPTIGA_APDU_OUT_DATA_OFFSET then
        (-EIO_ERRNO, dev)
      else
        (0, { dev with
          hibernate_handle := memcpy_at dev.hibernate_handle 0 tmp_buf
            OPTIGA_APDU_OUT_DATA_OFFSET OPTIGA_CTX_HANDLE_LEN
          open_ := false })
    else if tmp_buf_len ≠ 4 || optiga_apdu_is_error tmp_buf then (-EIO_ERRNO, dev)
    else (0, { dev with open_ := false })

/-- `ret` is the result of `gpio_pin_set`. -/
def optiga_power (dev : optiga_dev) (enable : Bool) (ret : Int) : Int × optiga_dev :=
  let dev := { dev with trace := dev.trace ++ [drv_op.power enable] }
  if ret ≠ 0 then (ret, dev) else (0, dev)

/-- Returns the error code, the APDU with its response and the new state. -/
def optiga_transfer_apdu (dev : optiga_dev) (apdu : optiga_apdu) (snd : ext_call)
    (rcv : apdu_recv) : Int × optiga_apdu × optiga_dev :=
  let (err, dev) := optiga_send_apdu dev (apdu.tx_buf.take apdu.tx_len) snd
  if err ≠ 0 then (err, apdu, dev)
  else
    let (err, rx_buf, rx_len, dev) := optiga_recv_apdu dev rcv
    let apdu := { apdu with rx_buf := rx_buf, rx_len := rx_len }
    if err ≠ 0 then (err, apdu, dev) else (err, apdu, dev)

/-! ## Hibernate and wake -/

/-- Outcomes of the external calls of one `optiga_hibernate`. -/
structure hibernate_env where
  close_snd : ext_call
  close_rcv : apdu_recv
  save_ctx : ext_call
  power_ret : Int
  deriving DecidableEq, Repr

/-- Outcomes of the external calls of one `optiga_wakup`. -/
structure wakup_env where
  power_ret : Int
  phy : ext_call
  nettran : ext_call
  restore_ctx : ext_call
  open_snd : ext_call
  open_rcv : apdu_recv
  deriving DecidableEq, Repr

/-- The value `reservations & ~OPTIGA_IGNORE_HIBERNATE_MASK` (any wider complement gives
the same result on a 32-bit `reservations`). -/
def wake_locks (cfg : optiga_kconfig) (reservations : Nat) : Nat :=
  reservations &&& atomic_not (OPTIGA_IGNORE_HIBERNATE_MASK cfg)

def optiga_hibernate (cfg : optiga_kconfig) (dev : optiga_dev) (e : hibernate_env) :
    optiga_dev :=
  let reservations := dev.session_reservations
  if wake_locks cfg reservations ≠ 0 then dev
  else
    let save_ctx : Bool := (reservations &&& OPTIGA_IGNORE_HIBERNATE_MASK cfg) != 0
    let (res, dev) := optiga_close_application dev save_ctx e.close_snd e.close_rcv
    if res ≠ 0 then dev
    else
      let dev :=
        if cfg.shielded_connection && dev.shield_state == OPTIGA_PRES_ENABLED then
          let (res, dev) := ext_invoke dev drv_op.pres_save_ctx e.save_ctx
          if res ≠ 0 then { dev with shield_state := OPTIGA_PRES_KEY_LOADED } else dev
        else dev
      (optiga_power dev false e.power_ret).2

def optiga_wakup (cfg : optiga_kconfig) (dev : optiga_dev) (e : wakup_env) :
    Int × optiga_dev :=
  let dev := (optiga_power dev true e.power_ret).2
  let (err, dev) := ext_invoke dev drv_op.phy_init e.phy
  if err ≠ 0 then (err, dev)
  else
    let (err, dev) := drv_data_init dev
    if err ≠ 0 then (err, dev)
    else
      let (err, dev) := ext_invoke dev drv_op.nettran_init e.nettran
      if err ≠ 0 then (err, dev)
      else
        let dev :=
          if cfg.shielded_connection && dev.shield_state == OPTIGA_PRES_ENABLED then
            let dev := { dev with trace := dev.trace ++ [drv_op.presence_enable] }
            let (res, dev) := ext_invoke dev drv_op.pres_restore_ctx e.restore_ctx
            if res ≠ 0 then { dev with shield_state := OPTIGA_PRES_KEY_LOADED } else dev
          else dev
        let reservations := dev.session_reservations
        let restore_ctx : Bool := (reservations &&& OPTIGA_IGNORE_HIBERNATE_MASK cfg) != 0
        optiga_open_application dev restore_ctx e.open_snd e.open_rcv

/-! ## The worker -/

inductive WORKER_STATE where
  | WORKER_IDLE
  | WORKER_HIBERNATE
  | WORKER_PROCESS_APDU
  | WORKER_RESET
  | WORKER_RESET_LOCK
  deriving DecidableEq, Repr

inductive k_timeout where
  | K_NO_WAIT
  | K_MSEC
  | K_FOREVER
  deriving DecidableEq, Repr

/-- Modelled from the spec: the kernel call `k_fifo_get`. A non-empty queue gives its
head. On an empty queue `K_NO_WAIT` gives NULL, a finite timeout gives the APDU `timed`
that a caller enqueues during the wait, or NULL when there is none, and `K_FOREVER`
waits until a caller enqueues the APDU `forever`. -/
def k_fifo_get (dev : optiga_dev) (timeout : k_timeout) (timed : Option optiga_apdu)
    (forever : optiga_apdu) : Option optiga_apdu × optiga_dev :=
  let r : Option optiga_apdu × List optiga_apdu :=
    match dev.apdu_queue with
    | a :: q => (some a, q)
    | [] =>
      match timeout with
      | k_timeout.K_NO_WAIT => (none, [])
      | k_timeout.K_MSEC => (timed, [])
      | k_timeout.K_FOREVER => (some forever, [])
  (r.1, { dev with apdu_queue := r.2,
                   trace := dev.trace ++ [drv_op.fifo_get (r.1.map (fun a => a.id))] })

/-- Modelled from the spec: the kernel call `k_poll_signal_raise(&apdu->finished, result)`. -/
def k_poll_signal_raise (dev : optiga_dev) (apdu : optiga_apdu) (result : Int) : optiga_dev :=
  { dev with trace := dev.trace ++ [drv_op.signal apdu.id result] }

/-- Modelled from the spec: the kernel call `k_fifo_put` inside `enqueue_apdu` puts the
APDU at the tail of the queue; `enqueue_apdu` returns 0, as in the source. -/
def enqueue_apdu (dev : optiga_dev) (apdu : optiga_apdu) : Int × optiga_dev :=
  (0, { dev with apdu_queue := dev.apdu_queue ++ [apdu] })

/-- The loop `while ((apdu = k_fifo_get(&queue, K_NO_WAIT)) != NULL) raise(-EIO)` of
`WORKER_RESET`, by recursion on the queue it empties. -/
def drain_loop : List optiga_apdu → List drv_op → List drv_op
  | [], trace => trace ++ [drv_op.fifo_get none]
  | a :: q, trace =>
    drain_loop q (trace ++ [drv_op.fifo_get (some a.id), drv_op.signal a.id (-EIO_ERRNO)])

/-- The local variables of `optiga_worker` and the driver state. -/
structure worker where
  state : WORKER_STATE
  apdu : Option optiga_apdu
  err : Int
  dev : optiga_dev
  deriving DecidableEq, Repr

/-- Outcomes of the external calls of one iteration of the worker loop. While the
worker waits in `WORKER_HIBERNATE` for the next APDU, caller threads run: they leave
`asleep_reservations` in `session_reservations` and `asleep_shield` in `shield_state`. -/
structure worker_env where
  timed : Option optiga_apdu
  forever : optiga_apdu
  hib : hibernate_env
  asleep_reservations : Nat
  asleep_shield : Nat
  wake : wakup_env
  handshake : ext_call
  transfer_snd : ext_call
  transfer_rcv : apdu_recv
  presence : Bool
  need_rehandshake : Bool
  code_snd : ext_call
  code_rcv : apdu_recv
  code_presence : Bool
  code_need_rehandshake : Bool
  power_ret : Int
  reset_phy : ext_call
  reset_nettran : ext_call
  reset_pres : ext_call
  open_snd : ext_call
  open_rcv : apdu_recv
  deriving DecidableEq, Repr

/-- The shielded-connection check after a transfer: if the presence flag is set and a
re-handshake is needed, `atomic_cas(&shield_state, ENABLED, KEY_LOADED)`. -/
def rehandshake_check (cfg : optiga_kconfig) (dev : optiga_dev) (presence need : Bool) :
    optiga_dev :=
  if cfg.shielded_connection && (presence && need) then
    { dev with shield_state :=
        (atomic_cas dev.shield_state OPTIGA_PRES_ENABLED OPTIGA_PRES_KEY_LOADED).2 }
  else dev

/-- The part of `case WORKER_PROCESS_APDU` from the call of `optiga_transfer_apdu` on. -/
def worker_transfer (cfg : optiga_kconfig) (w : worker) (apdu : optiga_apdu)
    (e : worker_env) : worker :=
  let (err, apdu, dev) := optiga_transfer_apdu w.dev apdu e.transfer_snd e.transfer_rcv
  if err ≠ 0 then
    let dev := k_poll_signal_raise dev apdu err
    { state := WORKER_STATE.WORKER_RESET, apdu := none, err := err, dev := dev }
  else
    let dev := { dev with reset_counter := 0 }
    let dev := rehandshake_check cfg dev e.presence e.need_rehandshake
    if optiga_apdu_is_error apdu.rx_buf then
      let (err, code, dev) := optiga_get_error_code dev e.code_snd e.code_rcv
      let optiga_err_code := code.getD 0
      if err ≠ 0 then
        let dev := k_poll_signal_raise dev apdu err
        { state := WORKER_STATE.WORKER_RESET, apdu := none, err := err, dev := dev }
      else
        let dev := rehandshake_check cfg dev e.code_presence e.code_need_rehandshake
        let dev := k_poll_signal_raise dev apdu optiga_err_code
        { state := WORKER_STATE.WORKER_IDLE, apdu := none, err := err, dev := dev }
    else
      let dev := k_poll_signal_raise dev apdu OPTIGA_STATUS_CODE_SUCCESS
      { state := WORKER_STATE.WORKER_IDLE, apdu := none, err := err, dev := dev }

/-- One iteration of the `while (true) switch (state)` loop of `optiga_worker`.
`WORKER_PROCESS_APDU` without a current APDU (excluded by the `__ASSERT`) leaves
the worker as it is. -/
def optiga_worker_step (cfg : optiga_kconfig) (w : worker) (e : worker_env) : worker :=
  match w.state with
  | WORKER_STATE.WORKER_IDLE =>
    let (apdu, dev) := k_fifo_get w.dev
      (if w.dev.gpio then k_timeout.K_MSEC else k_timeout.K_FOREVER) e.timed e.forever
    match apdu with
    | none => { w with state := WORKER_STATE.WORKER_HIBERNATE, apdu := none, dev := dev }
    | some a => { w with state := WORKER_STATE.WORKER_PROCESS_APDU, apdu := some a, dev := dev }
  | WORKER_STATE.WORKER_HIBERNATE =>
    let dev := optiga_hibernate cfg w.dev e.hib
    if dev.open_ then { w with state := WORKER_STATE.WORKER_IDLE, dev := dev }
    else
      let (apdu, dev) := k_fifo_get dev k_timeout.K_FOREVER e.timed e.forever
      let dev := { dev with session_reservations := e.asleep_reservations,
                            shield_state := e.asleep_shield }
      let (err, dev) := optiga_wakup cfg dev e.wake
      if !dev.open_ || err ≠ 0 then
        let dev := match apdu with
          | some a => k_poll_signal_raise dev a err
          | none => dev
        { state := WORKER_STATE.WORKER_RESET, apdu := none, err := err, dev := dev }
      else
        let dev := { dev with reset_counter := 0 }
        { state := WORKER_STATE.WORKER_PROCESS_APDU, apdu := apdu, err := err, dev := dev }
  | WORKER_STATE.WORKER_PROCESS_APDU =>
    match w.apdu with
    | none => w
    | some apdu =>
      if cfg.shielded_connection then
        let cas := atomic_cas w.dev.shield_state OPTIGA_PRES_KEY_LOADED OPTIGA_PRES_HANDSHAKE
        let dev := { w.dev with shield_state := cas.2 }
        if cas.1 then
          let (err, dev) := ext_invoke dev drv_op.pres_do_handshake e.handshake
          if err = 0 then
            let dev := { dev with shield_state := OPTIGA_PRES_ENABLED }
            worker_transfer cfg { w with err := err, dev := dev } apdu e
          else
            let dev := { dev with shield_state := OPTIGA_PRES_KEY_LOADED }
            let dev := k_poll_signal_raise dev apdu (-EIO_ERRNO)
            { state := WORKER_STATE.WORKER_RESET, apdu := none, err := err, dev := dev }
        else worker_transfer cfg { w with dev := dev } apdu e
      else worker_transfer cfg w apdu e
  | WORKER_STATE.WORKER_RESET =>
    let dev := { w.dev with reset_counter := w.dev.reset_counter + 1 }
    if dev.reset_counter = OPTIGA_MAX_RESET then
      let dev := if dev.gpio then (optiga_power dev false e.power_ret).2 else dev
      { w with state := WORKER_STATE.WORKER_RESET_LOCK, dev := dev }
    else
      let (err, dev) := optiga_reset cfg dev e.reset_phy e.reset_nettran e.reset_pres
      if err ≠ 0 then { w with state := WORKER_STATE.WORKER_RESET, err := err, dev := dev }
      else
        let (err, dev) := optiga_open_application dev false e.open_snd e.open_rcv
        if err ≠ 0 then { w with state := WORKER_STATE.WORKER_RESET, err := err, dev := dev }
        else
          let dev := { dev with apdu_queue := [], trace := drain_loop dev.apdu_queue dev.trace }
          let dev :=
            if cfg.shielded_connection then
              { dev with shield_state :=
                  (atomic_cas dev.shield_state OPTIGA_PRES_ENABLED OPTIGA_PRES_KEY_LOADED).2 }
            else dev
          { state := WORKER_STATE.WORKER_IDLE, apdu := none, err := err, dev := dev }
  | WORKER_STATE.WORKER_RESET_LOCK =>
    let (apdu, dev) := k_fifo_get w.dev k_timeout.K_FOREVER e.timed e.forever
    let dev := match apdu with
      | some a => k_poll_signal_raise dev a (-EIO_ERRNO)
      | none => dev
    { w with apdu := apdu, dev := dev }

/-- What happens between two iterations of the worker, or one iteration. -/
inductive sched_item where
  | iteration (e : worker_env)
  | enqueue (apdu : optiga_apdu)
  | acquire (session_idx : Nat)
  | release (session_idx : Nat)
  | callers (shield_state : Nat)
  deriving DecidableEq, Repr

/-- One item of a schedule: an iteration of the worker, or a caller thread that
enqueues an APDU, acquires or releases a session, or leaves a new shield state. -/
def sched_step (cfg : optiga_kconfig) (w : worker) : sched_item → worker
  | sched_item.iteration e => optiga_worker_step cfg w e
  | sched_item.enqueue apdu => { w with dev := (enqueue_apdu w.dev apdu).2 }
  | sched_item.acquire idx => { w with dev := (session_acquire w.dev idx).2 }
  | sched_item.release idx => { w with dev := session_release w.dev idx }
  | sched_item.callers s => { w with dev := { w.dev with shield_state := s } }

/-- An execution: the worker and caller threads interleaved as the schedule says. -/
def worker_run (cfg : optiga_kconfig) (w : worker) (s : List sched_item) : worker :=
  s.foldl (sched_step cfg) w

/-- Consecutive iterations of the worker, one per environment. -/
def worker_iterate (cfg : optiga_kconfig) (w : worker) (es : List worker_env) : worker :=
  es.foldl (optiga_worker_step cfg) w

/-- The completion discipline checked over a trace: `some none` when every APDU taken
from the queue has been signalled exactly once before the next one was taken,
`some (some id)` when in addition the APDU `id` taken last is not yet signalled, and
`none` when a signal was raised twice, raised for an APDU not held, or an APDU was
taken while the previous one was unsignalled. -/
def completion_step (p : Option (Option Nat)) (op : drv_op) : Option (Option Nat) :=
  match p, op with
  | none, _ => none
  | some none, drv_op.fifo_get (some a) => some (some a)
  | some (some _), drv_op.fifo_get (some _) => none
  | some (some b), drv_op.signal a _ => if a = b then some none else none
  | some none, drv_op.signal _ _ => none
  | some q, _ => some q

def completion (trace : List drv_op) : Option (Option Nat) :=
  trace.foldl completion_step (some none)

/-- The APDUs handed to `optiga_send_apdu`, in order, as recorded in a trace. -/
def sent_apdus (trace : List drv_op) : List (List Nat) :=
  trace.filterMap (fun op => match op with
    | drv_op.send_apdu bytes => some bytes
    | _ => none)

/-- The CloseApplication command with the given param byte. -/
def close_command (param : Nat) : List Nat := [0xF1, param, 0x00, 0x00]

/-- The eight bytes at offset `OPTIGA_APDU_OUT_DATA_OFFSET` of an APDU buffer. -/
def ctx_handle_of (buf : List Nat) : List Nat :=
  (List.range OPTIGA_CTX_HANDLE_LEN).map (fun i => buf.getD (OPTIGA_APDU_OUT_DATA_OFFSET + i) 0)

/-- The OpenApplication command that restores the context `handle`: param byte 1,
length field 24, the application identifier, then the eight handle bytes. -/
def restore_command (handle : List Nat) : List Nat :=
  [0xF0, OPTIGA_OPEN_APP_PARAM_RESTORE, 0x00, OPTIGA_OPEN_APP_LENGTH]
    ++ optiga_open_application_apdu.drop OPTIGA_APDU_OUT_DATA_OFFSET
    ++ (List.range OPTIGA_CTX_HANDLE_LEN).map (fun i => handle.getD i 0)

/-! ## Sample values used to instantiate the statements -/

/-- A state of the layers below the driver. -/
def sample_dl : optiga_data := ⟨[], ⟨0, 0, 0⟩, []⟩

/-- An external call that succeeds. -/
def call_ok : ext_call := ⟨0, sample_dl⟩

/-- An external call that fails with `-EIO`. -/
def call_failed : ext_call := ⟨-EIO_ERRNO, sample_dl⟩

/-- A received APDU with the given bytes. -/
def recv_ok (bytes : List Nat) : apdu_recv := ⟨0, bytes, bytes.length, sample_dl⟩

/-- A driver state with the application open and the given reservation mask. -/
def sample_dev (reservations : Nat) : optiga_dev :=
  { dl := sample_dl, gpio := true, apdu_queue := [], reset_counter := 0,
    session_reservations := reservations, shield_state := OPTIGA_PRES_DISABLED,
    hibernate_handle := [0, 0, 0, 0, 0, 0, 0, 0], open_ := true, trace := [] }

/-- A CloseApplication exchange that succeeds with the given response. -/
def sample_hib (resp : List Nat) : hibernate_env :=
  { close_snd := call_ok, close_rcv := recv_ok resp, save_ctx := call_ok, power_ret := 0 }

/-- A wake-up in which every call succeeds. -/
def sample_wake : wakup_env :=
  { power_ret := 0, phy := call_ok, nettran := call_ok, restore_ctx := call_ok,
    open_snd := call_ok, open_rcv := recv_ok [0, 0, 0, 0] }

/-- An APDU with the given identity. -/
def sample_apdu (id : Nat) : optiga_apdu :=
  { id := id, tx_buf := [0x81, 0x00, 0x00, 0x02, 0xE0, 0xC2], tx_len := 6, rx_buf := [],
    rx_len := 0 }

/-- An iteration environment in which every external call succeeds and the APDU
`sample_apdu 1` arrives. -/
def sample_env : worker_env :=
  { timed := some (sample_apdu 1), forever := sample_apdu 1,
    hib := sample_hib [0, 0, 0, 0], asleep_reservations := 0,
    asleep_shield := OPTIGA_PRES_DISABLED, wake := sample_wake, handshake := call_ok,
    transfer_snd := call_ok, transfer_rcv := recv_ok [0, 0, 0, 0],
    presence := false, need_rehandshake := false,
    code_snd := call_ok, code_rcv := recv_ok [0, 0, 0, 1, 7],
    code_presence := false, code_need_rehandshake := false, power_ret := 0,
    reset_phy := call_ok, reset_nettran := call_ok, reset_pres := call_ok,
    open_snd := call_ok, open_rcv := recv_ok [0, 0, 0, 0] }

/-- An iteration environment in which the transfer of the APDU fails at the send. -/
def failing_env : worker_env := { sample_env with transfer_snd := call_failed }

/-- The trace of a worker that fails the APDUs `ids` one after the other in
`WORKER_RESET_LOCK`: each is taken from the queue and signalled with `-EIO`. -/
def lock_trace : List Nat → List drv_op
  | [] => []
  | a :: ids => drv_op.fifo_get (some a) :: drv_op.signal a (-EIO_ERRNO) :: lock_trace ids

/-- The `k_fifo_get` of `WORKER_IDLE` yields an APDU (the hibernate delay does not
elapse on an empty queue). -/
def apdu_arrives (w : worker) (e : worker_env) : Prop :=
  (k_fifo_get w.dev (if w.dev.gpio then k_timeout.K_MSEC else k_timeout.K_FOREVER)
    e.timed e.forever).1 ≠ none

instance (w : worker) (e : worker_env) : Decidable (apdu_arrives w e) := by
  unfold apdu_arrives
  infer_instance

/-- The APDU of a `WORKER_PROCESS_APDU` iteration gets as far as `optiga_transfer_apdu`:
a handshake, if one is due, succeeds. -/
def reaches_transfer (cfg : optiga_kconfig) (w : worker) (e : worker_env) : Prop :=
  cfg.shielded_connection = true → w.dev.shield_state = OPTIGA_PRES_KEY_LOADED →
    e.handshake.err = 0

instance (cfg : optiga_kconfig) (w : worker) (e : worker_env) :
    Decidable (reaches_transfer cfg w e) := by
  unfold reaches_transfer
  infer_instance

/-- `optiga_transfer_apdu` fails: the send fails or the receive fails. -/
def transfer_fails (e : worker_env) : Prop :=
  e.transfer_snd.err ≠ 0 ∨ e.transfer_rcv.err ≠ 0

instance (e : worker_env) : Decidable (transfer_fails e) := by
  unfold transfer_fails
  infer_instance

/-- The stack reset and the OpenApplication of a `WORKER_RESET` iteration succeed. -/
def recovery_succeeds (cfg : optiga_kconfig) (e : worker_env) : Prop :=
  e.reset_phy.err = 0 ∧ e.reset_nettran.err = 0 ∧
    (cfg.shielded_connection = true → e.reset_pres.err = 0) ∧
    e.open_snd.err = 0 ∧ e.open_rcv.err = 0 ∧
    e.open_rcv.len = OPTIGA_OPEN_APPLICATION_RESPONSE_LEN ∧
    memcmp_ne e.open_rcv.buf (List.replicate OPTIGA_OPEN_APPLICATION_RESPONSE_LEN 0)
      OPTIGA_OPEN_APPLICATION_RESPONSE_LEN = false

instance (cfg : optiga_kconfig) (e : worker_env) : Decidable (recovery_succeeds cfg e) := by
  unfold recovery_succeeds
  infer_instance

/-- An operation that neither takes an APDU from the queue nor raises a signal. -/
def quiet_op : drv_op → Bool
  | drv_op.fifo_get (some _) => false
  | drv_op.signal _ _ => false
  | _ => true

/-- The completion invariant of the worker: the trace obeys the completion discipline,
and an APDU is taken but not yet signalled exactly when the worker is in
`WORKER_PROCESS_APDU`, where it is the current APDU. -/
def completion_inv (w : worker) : Prop :=
  completion w.dev.trace
      = some (if w.state = WORKER_STATE.WORKER_PROCESS_APDU
          then w.apdu.map (fun a => a.id) else none) ∧
    (w.state = WORKER_STATE.WORKER_PROCESS_APDU → w.apdu ≠ none)

/-! ## Shielded connection: `start_shield` -/

/-- Zephyr errno value `EALREADY`. -/
abbrev EALREADY : Int := 69

/-- Zephyr errno value `ENOTSUP`. -/
abbrev ENOTSUP : Int := 35

/-- The API function `start_shield`. `secret` is the outcome of the call of
`optiga_pres_set_shared_secret` (of the absent `optiga_pres.c`), which is logged with the
key it was given. -/
def start_shield (cfg : optiga_kconfig) (dev : optiga_dev) (key : List Nat) (key_len : Nat)
    (secret : ext_call) : Int × optiga_dev :=
  if cfg.shielded_connection then
    let cas1 := atomic_cas dev.shield_state OPTIGA_PRES_DISABLED OPTIGA_PRES_LOADING_KEY
    let prev_disabled := cas1.1
    let cas2 := atomic_cas cas1.2 OPTIGA_PRES_KEY_LOADED OPTIGA_PRES_LOADING_KEY
    let prev_loaded := cas2.1
    let dev := { dev with shield_state := cas2.2 }
    if prev_disabled || prev_loaded then
      let (res, dev) := ext_invoke dev (drv_op.pres_set_shared_secret key key_len) secret
      if res ≠ 0 then
        let dev :=
          if prev_disabled then { dev with shield_state := OPTIGA_PRES_DISABLED }
          else { dev with shield_state := OPTIGA_PRES_KEY_LOADED }
        (res, dev)
      else (0, { dev with shield_state := OPTIGA_PRES_KEY_LOADED })
    else (-EALREADY, dev)
  else (-ENOTSUP, dev)

/-! ## Observations on the trace -/

/-- An operation on the APDU queue or on a completion signal. -/
def is_queue_op : drv_op → Bool
  | drv_op.fifo_get _ => true
  | drv_op.signal _ _ => true
  | _ => false

/-- The `k_fifo_get` and `k_poll_signal_raise` calls of a trace, in order. -/
def queue_ops (t : List drv_op) : List drv_op := t.filter is_queue_op

/-- The number of `optiga_pres_do_handshake` calls of a trace. -/
def handshakes (t : List drv_op) : Nat := t.count drv_op.pres_do_handshake

/-- The keys handed to `optiga_pres_set_shared_secret` in a trace. -/
def installed_keys : List drv_op → List (List Nat × Nat)
  | [] => []
  | drv_op.pres_set_shared_secret key key_len :: t => (key, key_len) :: installed_keys t
  | _ :: t => installed_keys t

/-- In this `WORKER_PROCESS_APDU` iteration the handshake is due: the shielded
connection is compiled in and the shield state is `OPTIGA_PRES_KEY_LOADED`. -/
def handshake_due (cfg : optiga_kconfig) (w : worker) : Bool :=
  cfg.shielded_connection && decide (w.dev.shield_state = OPTIGA_PRES_KEY_LOADED)

/-- The driver state with which `case WORKER_PROCESS_APDU` reaches the call of
`optiga_transfer_apdu`: after a successful handshake, if one was due. -/
def before_transfer (cfg : optiga_kconfig) (w : worker) (e : worker_env) : optiga_dev :=
  if handshake_due cfg w then
    { w.dev with dl := e.handshake.dl, shield_state := OPTIGA_PRES_ENABLED,
                 trace := w.dev.trace ++ [drv_op.pres_do_handshake] }
  else w.dev

/-- The diagnostic read of `optiga_get_error_code` is answered well: both calls succeed
and the response is 5 bytes long with status 0 and length field 1. -/
def code_read_ok (snd : ext_call) (rcv : apdu_recv) : Prop :=
  snd.err = 0 ∧ rcv.err = 0 ∧ rcv.len = OPTIGA_GET_ERROR_RESPONSE_LEN ∧
    rcv.buf.getD OPTIGA_APDU_STA_OFFSET 0 = OPTIGA_APDU_STA_SUCCESS ∧
    sys_get_be16 rcv.buf OPTIGA_APDU_LEN_OFFS = 1

instance (snd : ext_call) (rcv : apdu_recv) : Decidable (code_read_ok snd rcv) := by
  unfold code_read_ok
  infer_instance

/-- An iteration environment in which the device rejects the APDU (status byte 0xFF)
and then reports the error code `code` in the diagnostic read. -/
def rejecting_env (code : Nat) : worker_env :=
  { sample_env with transfer_rcv := recv_ok [0xFF, 0, 0, 0],
                    code_rcv := recv_ok [0, 0, 0, 1, code] }

/-- An iteration environment in which the device rejects the APDU and the send of the
diagnostic command fails. -/
def unreadable_env : worker_env :=
  { sample_env with transfer_rcv := recv_ok [0xFF, 0, 0, 0], code_snd := call_failed }

/-- A worker that holds `sample_apdu 1` in `WORKER_PROCESS_APDU`, with the given reset
counter and shield state. -/
def processing (reset_counter : Int) (shield_state : Nat) : worker :=
  { state := WORKER_STATE.WORKER_PROCESS_APDU, apdu := some (sample_apdu 1), err := 0,
    dev := { sample_dev 0 with reset_counter := reset_counter, shield_state := shield_state,
                               trace := [drv_op.fifo_get (some 1)] } }

/-- The call of `optiga_reset` in `case WORKER_RESET`, on the state with the incremented
reset counter. -/
def reset_result (cfg : optiga_kconfig) (w : worker) (e : worker_env) : Int × optiga_dev :=
  optiga_reset cfg { w.dev with reset_counter := w.dev.reset_counter + 1 }
    e.reset_phy e.reset_nettran e.reset_pres

/-- The call `optiga_open_application(dev, NULL)` that follows a successful
`optiga_reset` in `case WORKER_RESET`. -/
def reopen_result (cfg : optiga_kconfig) (w : worker) (e : worker_env) : Int × optiga_dev :=
  optiga_open_application (reset_result cfg w e).2 false e.open_snd e.open_rcv

/-- The driver state with which `case WORKER_HIBERNATE` calls `optiga_wakup`: after
`optiga_hibernate`, the blocking `k_fifo_get` and what the callers did meanwhile. -/
def asleep_dev (cfg : optiga_kconfig) (w : worker) (e : worker_env) : optiga_dev :=
  { (k_fifo_get (optiga_hibernate cfg w.dev e.hib) k_timeout.K_FOREVER e.timed e.forever).2 with
    session_reservations := e.asleep_reservations, shield_state := e.asleep_shield }

/-- The call of `optiga_wakup` in `case WORKER_HIBERNATE`. -/
def wake_result (cfg : optiga_kconfig) (w : worker) (e : worker_env) : Int × optiga_dev :=
  optiga_wakup cfg (asleep_dev cfg w e) e.wake

/-- A worker in `WORKER_RESET` after one failure, with two APDUs waiting. -/
def resetting : worker :=
  { state := WORKER_STATE.WORKER_RESET, apdu := none, err := -EIO_ERRNO,
    dev := { sample_dev 0 with apdu_queue := [sample_apdu 2, sample_apdu 3] } }

/-! ## The bitwise CRC the checksum is compared with -/

/-- One bit step of the reflected CRC-16 with polynomial 0x8408, written after the
spec's words: `x -> (x >> 1) xor 0x8408` if the low bit of `x` is set, else `x >> 1`. -/
def crc16_step (x : Nat) : Nat :=
  if x &&& 1 = 1 then (x >>> 1) ^^^ 0x8408 else x >>> 1

/-- The byte step of the bitwise CRC, written after the spec's words: the byte is
XORed into the low byte of the seed, then the bit step is applied eight times. -/
def crc16_byte (seed b : Nat) : Nat :=
  Nat.iterate crc16_step 8 (seed ^^^ b)

/-- The bitwise CRC-16/KERMIT of a byte sequence: initial value 0, one byte step per
byte. -/
def crc16_kermit (bytes : List Nat) : Nat :=
  bytes.foldl crc16_byte 0

/-- The first `len` bytes that `optiga_data_frame_calc_fcs` reads from a frame. -/
def frame_bytes (frame_start : List Nat) (len : Nat) : List Nat :=
  (List.range len).map (fun i => frame_start.getD i 0)

/-! ## Sequences of data-link calls -/

/-- One call into the data-link layer, with the outcomes of its bus operations. -/
inductive dl_call where
  | init
  | recv_common (rd : phy_read)
  | recv_ctrl_frame (rd : phy_read)
  | recv_packet (rd : phy_read) (wr : Int)
  | send_packet (sb len : Nat) (wr : Int) (st : phy_state) (rd : phy_read)
  deriving DecidableEq, Repr

/-- The data-link state after one call. -/
def dl_step (dev : optiga_data) : dl_call → optiga_data
  | dl_call.init => (optiga_data_init dev).2
  | dl_call.recv_common rd => (optiga_data_recv_common dev rd).2.2
  | dl_call.recv_ctrl_frame rd => (optiga_data_recv_ctrl_frame dev rd).2
  | dl_call.recv_packet rd wr => (optiga_data_recv_packet dev rd wr).2.2
  | dl_call.send_packet sb len wr st rd => (optiga_data_send_packet sb dev len wr st rd).2

/-- The data-link state after `optiga_data_init` and a sequence of calls. -/
def dl_run (dev : optiga_data) (calls : List dl_call) : optiga_data :=
  calls.foldl dl_step (optiga_data_init dev).2

/-- One call, with the ghost flag "an acknowledgement has advanced `frame_tx_nr` since
the last `optiga_data_init`": `frame_tx_nr` is written by `optiga_data_init` and by the
matching-ACK branch of `optiga_data_recv_common` only, and that branch always changes
its value. -/
def dl_flag_step (s : optiga_data × Bool) (c : dl_call) : optiga_data × Bool :=
  match c with
  | dl_call.init => (dl_step s.1 c, false)
  | _ => (dl_step s.1 c, s.2 || ((dl_step s.1 c).data.frame_tx_nr != s.1.data.frame_tx_nr))

/-- The data-link state and the ghost flag after `optiga_data_init` and a sequence of
calls. -/
def dl_history (dev : optiga_data) (calls : List dl_call) : optiga_data × Bool :=
  calls.foldl dl_flag_step ((optiga_data_init dev).2, false)

/-- The three `__ASSERT`s of `optiga_data_frame_set_fctr` on its `uint8_t` arguments:
no flag bit outside the FTYPE and SEQCTR fields, and both numbers below 4. -/
def fctr_asserts (flags frame_nr frame_ack : Nat) : Bool :=
  (flags &&& (0xFF ^^^ (OPTIGA_DATA_FCTR_FTYPE_MASK ||| OPTIGA_DATA_FCTR_SEQCTR_MASK)) == 0) &&
    (frame_nr &&& 0xfc == 0) && (frame_ack &&& 0xfc == 0)

/-! ## Driver initialisation -/

/-- Outcomes of the external calls of `optiga_init`: whether the configuration names a
power pin, whether the two `device_get_binding` calls find their device, and the
outcomes of the power switch, the stack reset and OpenApplication. -/
structure init_env where
  power_label : Bool
  gpio_binding : Bool
  i2c_binding : Bool
  power_ret : Int
  phy : ext_call
  nettran : ext_call
  pres : ext_call
  open_snd : ext_call
  open_rcv : apdu_recv
  deriving DecidableEq, Repr

/-- The driver init function `optiga_init`; on success the worker thread is created,
which starts in `WORKER_IDLE`. -/
def optiga_init (cfg : optiga_kconfig) (dev : optiga_dev) (e : init_env) : Int × optiga_dev :=
  if e.power_label && !e.gpio_binding then (-EINVAL, { dev with gpio := false })
  else
    let dev :=
      if !e.power_label then { dev with gpio := false }
      else (optiga_power { dev with gpio := true } true e.power_ret).2
    let dev := { dev with reset_counter := 0 }
    if !e.i2c_binding then (-EINVAL, dev)
    else
      let (err, dev) := optiga_reset cfg dev e.phy e.nettran e.pres
      if err ≠ 0 then (err, dev)
      else
        let (err, dev) := optiga_open_application dev false e.open_snd e.open_rcv
        if err ≠ 0 then (err, dev)
        else
          let dev :=
            if cfg.shielded_connection then { dev with shield_state := OPTIGA_PRES_DISABLED }
            else dev
          (0, { dev with apdu_queue := [] })

/-- The worker as `optiga_init` leaves it: the locals of `optiga_worker` at its first
iteration and the driver state after the init. -/
def worker_start (cfg : optiga_kconfig) (dev : optiga_dev) (e : init_env) : worker :=
  { state := WORKER_STATE.WORKER_IDLE, apdu := none, err := 0,
    dev := (optiga_init cfg dev e).2 }

/-- An init in which every call succeeds. -/
def sample_init : init_env :=
  { power_label := true, gpio_binding := true, i2c_binding := true, power_ret := 0,
    phy := call_ok, nettran := call_ok, pres := call_ok,
    open_snd := call_ok, open_rcv := recv_ok [0, 0, 0, 0] }

/-- An iteration environment in which the stack reset of `WORKER_RESET` fails. -/
def stuck_env : worker_env := { failing_env with reset_phy := call_failed }

/-- The acknowledgement bookkeeping invariant on a data-link state with its ghost flag:
without an advancing ACK since the last init the counters are as initialised, and after
one `frame_tx_ack` is the number before `frame_tx_nr`, modulo 4. -/
def ack_bookkeeping (s : optiga_data × Bool) : Prop :=
  (s.2 = false ∧ s.1.data = ⟨0, 0, 0⟩) ∨
    (s.2 = true ∧ s.1.data.frame_tx_nr < 4 ∧
      s.1.data.frame_tx_ack = (s.1.data.frame_tx_nr + 3) % 4)

/-- The stack reset or the OpenApplication of a `WORKER_RESET` iteration fails. -/
def recovery_fails (cfg : optiga_kconfig) (w : worker) (e : worker_env) : Prop :=
  (reset_result cfg w e).1 ≠ 0 ∨ (reopen_result cfg w e).1 ≠ 0

instance (cfg : optiga_kconfig) (w : worker) (e : worker_env) :
    Decidable (recovery_fails cfg w e) := by
  unfold recovery_fails
  infer_instance

/-- The two `__ASSERT`s of `case WORKER_PROCESS_APDU` and the one of `case WORKER_RESET`,
together with the open flag in `WORKER_IDLE` on which they rest. -/
def worker_asserts (w : worker) : Prop :=
  (w.state = WORKER_STATE.WORKER_PROCESS_APDU → w.apdu ≠ none ∧ w.dev.open_ = true) ∧
  (w.state = WORKER_STATE.WORKER_RESET → w.apdu = none) ∧
  (w.state = WORKER_STATE.WORKER_IDLE → w.dev.open_ = true)

/-- The bound on the reset counter: it is in `0..OPTIGA_MAX_RESET` and at the maximum
exactly in `WORKER_RESET_LOCK`. -/
def counter_bound (w : worker) : Prop :=
  0 ≤ w.dev.reset_counter ∧ w.dev.reset_counter ≤ OPTIGA_MAX_RESET ∧
  (w.state = WORKER_STATE.WORKER_RESET_LOCK ↔ w.dev.reset_counter = OPTIGA_MAX_RESET)
/-! ## Auxiliary lemmas: buffers -/

theorem getD_set_eq (l : List Nat) (i j v : Nat) :
    (l.set i v).getD j 0 = if i = j ∧ i < l.length then v else l.getD j 0 := by
  simp only [List.getD_eq_getElem?_getD, List.getElem?_set]
  by_cases hij : i = j
  · subst hij
    by_cases hl : i < l.length
    · simp [hl]
    · simp [hl, List.getElem?_eq_none (Nat.le_of_not_lt hl)]
  · simp [hij]

theorem getD_set_ne (l : List Nat) {i j : Nat} (v : Nat) (h : i ≠ j) :
    (l.set i v).getD j 0 = l.getD j 0 := by
  rw [getD_set_eq]; simp [h]

theorem getD_set_self (l : List Nat) {i : Nat} (v : Nat) (h : i < l.length) :
    (l.set i v).getD i 0 = v := by
  rw [getD_set_eq]; simp [h]

theorem sys_put_be16_length (val : Nat) (dst : List Nat) (off : Nat) :
    (sys_put_be16 val dst off).length = dst.length := by
  simp [sys_put_be16]

theorem sys_put_be16_getD_ne (val : Nat) (dst : List Nat) {off j : Nat}
    (h0 : j ≠ off) (h1 : j ≠ off + 1) :
    (sys_put_be16 val dst off).getD j 0 = dst.getD j 0 := by
  unfold sys_put_be16
  rw [getD_set_ne _ _ (Ne.symm h1), getD_set_ne _ _ (Ne.symm h0)]

theorem sys_put_be16_getD_hi (val : Nat) (dst : List Nat) {off : Nat}
    (h : off < dst.length) :
    (sys_put_be16 val dst off).getD off 0 = (val >>> 8) % 256 := by
  unfold sys_put_be16
  rw [getD_set_ne _ _ (Nat.succ_ne_self off), getD_set_self _ _ h]

theorem sys_put_be16_getD_lo (val : Nat) (dst : List Nat) {off : Nat}
    (h : off + 1 < dst.length) :
    (sys_put_be16 val dst off).getD (off + 1) 0 = val % 256 := by
  unfold sys_put_be16
  rw [getD_set_self _ _ (by simpa using h)]

/-- Big-endian split of a 16-bit value and its recombination. -/
theorem be16_join (v : Nat) (hv : v < 65536) :
    ((((v >>> 8) % 256) <<< 8) ||| (v % 256)) % 65536 = v := by
  have h1 : ((v >>> 8) % 256) <<< 8 = 2 ^ 8 * (v / 256) := by
    rw [Nat.shiftLeft_eq, Nat.shiftRight_eq_div_pow]
    have : v / 2 ^ 8 < 256 := by
      have : v / 2 ^ 8 = v / 256 := by norm_num
      omega
    rw [Nat.mod_eq_of_lt this]
    have : (2:Nat) ^ 8 = 256 := by norm_num
    omega
  rw [h1, ← Nat.mul_add_lt_is_or (by omega : v % 256 < 2 ^ 8)]
  have : (2:Nat) ^ 8 = 256 := by norm_num
  omega

theorem sys_get_put_be16 (val : Nat) (dst : List Nat) {off : Nat}
    (hv : val < 65536) (h : off + 1 < dst.length) :
    sys_get_be16 (sys_put_be16 val dst off) off = val := by
  unfold sys_get_be16
  rw [sys_put_be16_getD_hi _ _ (by omega), sys_put_be16_getD_lo _ _ h]
  exact be16_join val hv

/-! ## Auxiliary lemmas: frame check sequence -/

theorem optiga_data_calc_fcs_core_lt (seed c : Nat) :
    optiga_data_calc_fcs_core seed c < 65536 := by
  unfold optiga_data_calc_fcs_core
  exact Nat.mod_lt _ (by decide)

theorem optiga_data_frame_calc_fcs_zero (f : List Nat) :
    optiga_data_frame_calc_fcs f 0 = 0 := by
  simp [optiga_data_frame_calc_fcs]

theorem optiga_data_frame_calc_fcs_succ (f : List Nat) (n : Nat) :
    optiga_data_frame_calc_fcs f (n + 1) =
      optiga_data_calc_fcs_core (optiga_data_frame_calc_fcs f n) (f.getD n 0) := by
  simp [optiga_data_frame_calc_fcs, List.range_succ, List.foldl_append]

theorem optiga_data_frame_calc_fcs_lt (f : List Nat) (n : Nat) :
    optiga_data_frame_calc_fcs f n < 65536 := by
  cases n with
  | zero => rw [optiga_data_frame_calc_fcs_zero]; decide
  | succ n => rw [optiga_data_frame_calc_fcs_succ]; exact optiga_data_calc_fcs_core_lt _ _

/-- The FCS of the first `n` bytes depends on those bytes only. -/
theorem optiga_data_frame_calc_fcs_congr (f g : List Nat) (n : Nat)
    (h : ∀ i, i < n → f.getD i 0 = g.getD i 0) :
    optiga_data_frame_calc_fcs f n = optiga_data_frame_calc_fcs g n := by
  induction n with
  | zero => simp [optiga_data_frame_calc_fcs_zero]
  | succ n ih =>
    rw [optiga_data_frame_calc_fcs_succ, optiga_data_frame_calc_fcs_succ,
      ih (fun i hi => h i (Nat.lt_succ_of_lt hi)), h n (Nat.lt_succ_self n)]

theorem optiga_data_frame_set_fcs_length (f : List Nat) (n : Nat) :
    (optiga_data_frame_set_fcs f n).length = f.length := by
  simp [optiga_data_frame_set_fcs, sys_put_be16_length]

theorem optiga_data_frame_set_fcs_getD (f : List Nat) (n : Nat) {j : Nat} (hj : j < n) :
    (optiga_data_frame_set_fcs f n).getD j 0 = f.getD j 0 := by
  unfold optiga_data_frame_set_fcs
  exact sys_put_be16_getD_ne _ _ (by omega) (by omega)

/-- A frame to which `optiga_data_frame_set_fcs` appended the FCS passes the check. -/
theorem optiga_data_frame_check_set_fcs (f : List Nat) (n : Nat) (h : n + 2 ≤ f.length) :
    optiga_data_frame_check_fcs (optiga_data_frame_set_fcs f n) (n + 2) = true := by
  unfold optiga_data_frame_check_fcs
  simp only [Nat.add_sub_cancel, beq_iff_eq]
  rw [optiga_data_frame_calc_fcs_congr _ f n
    (fun i hi => optiga_data_frame_set_fcs_getD f n hi)]
  unfold optiga_data_frame_set_fcs
  rw [sys_get_put_be16 _ _ (optiga_data_frame_calc_fcs_lt f n) (by omega)]

/-! ## Auxiliary lemmas: header fields and payload area -/

theorem optiga_data_frame_set_fctr_length (f : List Nat) (flags nr ack : Nat) :
    (optiga_data_frame_set_fctr f flags nr ack).length = f.length := by
  simp [optiga_data_frame_set_fctr]

theorem optiga_data_frame_set_fctr_getD_zero (f : List Nat) (flags nr ack : Nat)
    (h : 0 < f.length) :
    (optiga_data_frame_set_fctr f flags nr ack).getD 0 0
      = (flags ||| (nr <<< 2) ||| ack) % 256 := by
  unfold optiga_data_frame_set_fctr
  exact getD_set_self _ _ h

theorem optiga_data_frame_set_fctr_getD_pos (f : List Nat) (flags nr ack : Nat) {j : Nat}
    (h : 0 < j) :
    (optiga_data_frame_set_fctr f flags nr ack).getD j 0 = f.getD j 0 := by
  unfold optiga_data_frame_set_fctr
  exact getD_set_ne _ _ (by simp only [OPTIGA_DATA_FCTR_OFFSET]; omega)

theorem optiga_data_frame_set_len_length (f : List Nat) (v : Nat) :
    (optiga_data_frame_set_len f v).length = f.length := by
  simp [optiga_data_frame_set_len, sys_put_be16_length]

theorem optiga_data_frame_set_len_getD (f : List Nat) (v : Nat) {j : Nat}
    (h1 : j ≠ 1) (h2 : j ≠ 2) :
    (optiga_data_frame_set_len f v).getD j 0 = f.getD j 0 := by
  unfold optiga_data_frame_set_len
  exact sys_put_be16_getD_ne _ _ h1 h2

theorem optiga_data_frame_set_len_getD_one (f : List Nat) (v : Nat) (h : 1 < f.length) :
    (optiga_data_frame_set_len f v).getD 1 0 = ((v % 65536) >>> 8) % 256 := by
  unfold optiga_data_frame_set_len
  exact sys_put_be16_getD_hi _ _ h

theorem optiga_data_frame_set_len_getD_two (f : List Nat) (v : Nat) (h : 2 < f.length) :
    (optiga_data_frame_set_len f v).getD 2 0 = (v % 65536) % 256 := by
  unfold optiga_data_frame_set_len
  exact sys_put_be16_getD_lo _ _ h

theorem put_bytes_length (bs : List Nat) : ∀ (f : List Nat) (off : Nat),
    (put_bytes f off bs).length = f.length := by
  induction bs with
  | nil => intro f off; rfl
  | cons b bs ih => intro f off; simp [put_bytes, ih]

theorem put_bytes_getD_out (bs : List Nat) : ∀ (f : List Nat) (off j : Nat),
    (j < off ∨ off + bs.length ≤ j) → (put_bytes f off bs).getD j 0 = f.getD j 0 := by
  induction bs with
  | nil => intro f off j _; rfl
  | cons b bs ih =>
    intro f off j h
    simp only [put_bytes, List.length_cons] at h ⊢
    rw [ih _ _ _ (by omega), getD_set_ne _ _ (by omega)]

theorem put_bytes_getD_in (bs : List Nat) : ∀ (f : List Nat) (off i : Nat),
    i < bs.length → off + bs.length ≤ f.length →
    (put_bytes f off bs).getD (off + i) 0 = bs.getD i 0 % 256 := by
  induction bs with
  | nil => intro f off i hi; simp at hi
  | cons b bs ih =>
    intro f off i hi hlen
    simp only [put_bytes, List.length_cons] at hi hlen ⊢
    cases i with
    | zero =>
      rw [put_bytes_getD_out bs _ (off + 1) (off + 0) (Or.inl (by omega))]
      exact getD_set_self _ _ (by omega)
    | succ i =>
      have := ih (f.set off (b % 256)) (off + 1) i (by omega) (by simp; omega)
      rw [show off + (i + 1) = off + 1 + i by omega, this]
      simp

/-- Decoding the control byte gives back the four fields it was built from. -/
theorem fctr_fields (ftype seqctl seq ack : Nat)
    (hft : ftype = OPTIGA_DATA_FCTR_FTYPE_DATA ∨ ftype = OPTIGA_DATA_FCTR_FTYPE_CTRL)
    (hsc : seqctl = OPTIGA_DATA_FCTR_SEQCTR_ACK ∨ seqctl = OPTIGA_DATA_FCTR_SEQCTR_NAK ∨
      seqctl = OPTIGA_DATA_FCTR_SEQCTR_RST)
    (hseq : seq < 4) (hack : ack < 4) :
    let b := ((ftype ||| seqctl) ||| (seq <<< 2) ||| ack) % 256
    (b &&& 0x80) = ftype ∧ (b &&& 0x60) = seqctl ∧ ((b &&& 0x0C) >>> 2) = seq ∧
      (b &&& 0x03) = ack := by
  rcases hft with rfl | rfl <;> rcases hsc with rfl | rfl | rfl <;>
    interval_cases seq <;> interval_cases ack <;> decide

/-! ## Frame codec -/

/-- C1 (frame round trip): for a frame type in {DATA, CONTROL}, a seqctl in
{ACK, NAK, RESET}, seq and ack in 0..3 and a payload of `L` bytes with
`L + 5 ≤ buffer size < 65536`, the frame built with `optiga_data_frame_set_fctr`,
`optiga_data_frame_set_len`, the payload at offset 3 and `optiga_data_frame_set_fcs`
decodes to the same frame type, seqctl, seq, ack and length, holds the payload
unchanged at offset 3, and passes `optiga_data_frame_check_fcs` on `L + 5` bytes. -/
theorem frame_round_trip (buf payload : List Nat) (ftype seqctl seq ack : Nat)
    (hft : ftype = OPTIGA_DATA_FCTR_FTYPE_DATA ∨ ftype = OPTIGA_DATA_FCTR_FTYPE_CTRL)
    (hsc : seqctl = OPTIGA_DATA_FCTR_SEQCTR_ACK ∨ seqctl = OPTIGA_DATA_FCTR_SEQCTR_NAK ∨
      seqctl = OPTIGA_DATA_FCTR_SEQCTR_RST)
    (hseq : seq < 4) (hack : ack < 4)
    (hbytes : ∀ b ∈ payload, b < 256)
    (hlen : payload.length + 5 ≤ buf.length) (hbuf : buf.length < 65536) :
    let f := optiga_data_frame_set_fcs
      (optiga_data_frame_set_len
        (optiga_data_frame_set_fctr (put_bytes buf OPTIGA_DATA_PAYLOAD_OFFSET payload)
          (ftype ||| seqctl) seq ack)
        payload.length)
      (OPTIGA_DATA_PAYLOAD_OFFSET + payload.length)
    optiga_data_is_ctrl_frame f = (ftype == OPTIGA_DATA_FCTR_FTYPE_CTRL) ∧
    optiga_data_get_seqctr f = seqctl ∧
    optiga_data_get_frame_nr f = seq ∧
    optiga_data_get_ack_nr f = ack ∧
    optiga_data_frame_get_len f = payload.length ∧
    (f.drop OPTIGA_DATA_PAYLOAD_OFFSET).take payload.length = payload ∧
    optiga_data_frame_check_fcs f (payload.length + 5) = true := by
  intro f
  have hoff : OPTIGA_DATA_PAYLOAD_OFFSET = 3 := rfl
  have hloff : OPTIGA_DATA_LEN_OFFSET = 1 := rfl
  have hpl : (put_bytes buf OPTIGA_DATA_PAYLOAD_OFFSET payload).length = buf.length :=
    put_bytes_length _ _ _
  have hfl : f.length = buf.length := by
    simp only [f, optiga_data_frame_set_fcs_length, optiga_data_frame_set_len_length,
      optiga_data_frame_set_fctr_length]
    exact hpl
  have h0 : f.getD 0 0 = ((ftype ||| seqctl) ||| (seq <<< 2) ||| ack) % 256 := by
    simp only [f]
    rw [optiga_data_frame_set_fcs_getD _ _ (by omega),
      optiga_data_frame_set_len_getD _ _ (by omega) (by omega),
      optiga_data_frame_set_fctr_getD_zero _ _ _ _ (by rw [hpl]; omega)]
  have h1 : f.getD 1 0 = ((payload.length % 65536) >>> 8) % 256 := by
    simp only [f]
    rw [optiga_data_frame_set_fcs_getD _ _ (by omega),
      optiga_data_frame_set_len_getD_one _ _
        (by rw [optiga_data_frame_set_fctr_length, hpl]; omega)]
  have h2 : f.getD 2 0 = (payload.length % 65536) % 256 := by
    simp only [f]
    rw [optiga_data_frame_set_fcs_getD _ _ (by omega),
      optiga_data_frame_set_len_getD_two _ _
        (by rw [optiga_data_frame_set_fctr_length, hpl]; omega)]
  have hp : ∀ i, i < payload.length → f.getD (3 + i) 0 = payload.getD i 0 := by
    intro i hi
    simp only [f]
    rw [optiga_data_frame_set_fcs_getD _ _ (by omega),
      optiga_data_frame_set_len_getD _ _ (by omega) (by omega),
      optiga_data_frame_set_fctr_getD_pos _ _ _ _ (by omega), ← hoff,
      put_bytes_getD_in _ _ _ _ hi (by omega)]
    have hb : payload.getD i 0 < 256 := by
      rw [List.getD_eq_getElem _ _ hi]
      exact hbytes _ (List.getElem_mem hi)
    exact Nat.mod_eq_of_lt hb
  obtain ⟨e1, e2, e3, e4⟩ := fctr_fields ftype seqctl seq ack hft hsc hseq hack
  refine ⟨?_, ?_, ?_, ?_, ?_, ?_, ?_⟩
  · unfold optiga_data_is_ctrl_frame
    rw [h0]
    exact congrArg (· == OPTIGA_DATA_FCTR_FTYPE_CTRL) e1
  · unfold optiga_data_get_seqctr
    rw [h0]; exact e2
  · unfold optiga_data_get_frame_nr
    rw [h0]; exact e3
  · unfold optiga_data_get_ack_nr
    rw [h0]; exact e4
  · unfold optiga_data_frame_get_len sys_get_be16
    rw [hloff, h1, h2]
    have := be16_join (payload.length % 65536) (Nat.mod_lt _ (by decide))
    rw [this]
    exact Nat.mod_eq_of_lt (by omega)
  · apply List.ext_getElem
    · simp only [List.length_take, List.length_drop, hfl]; omega
    · intro i h1 h2
      have := hp i h2
      rw [List.getD_eq_getElem _ _ (by omega), List.getD_eq_getElem _ _ h2] at this
      simpa using this
  · have := optiga_data_frame_check_set_fcs
      (optiga_data_frame_set_len
        (optiga_data_frame_set_fctr (put_bytes buf OPTIGA_DATA_PAYLOAD_OFFSET payload)
          (ftype ||| seqctl) seq ack)
        payload.length) (OPTIGA_DATA_PAYLOAD_OFFSET + payload.length)
      (by rw [optiga_data_frame_set_len_length, optiga_data_frame_set_fctr_length, hpl]; omega)
    rw [show payload.length + 5 = OPTIGA_DATA_PAYLOAD_OFFSET + payload.length + 2 by omega]
    exact this

theorem frame_round_trip_witness :
    optiga_data_frame_get_len
        (optiga_data_frame_set_fcs
          (optiga_data_frame_set_len
            (optiga_data_frame_set_fctr
              (put_bytes [0, 0, 0, 0, 0, 0, 0, 0, 0] OPTIGA_DATA_PAYLOAD_OFFSET [7, 8, 9])
              (OPTIGA_DATA_FCTR_FTYPE_CTRL ||| OPTIGA_DATA_FCTR_SEQCTR_NAK) 2 1)
            [7, 8, 9].length)
          (OPTIGA_DATA_PAYLOAD_OFFSET + [7, 8, 9].length)) = 3 :=
  (frame_round_trip [0, 0, 0, 0, 0, 0, 0, 0, 0] [7, 8, 9]
    OPTIGA_DATA_FCTR_FTYPE_CTRL OPTIGA_DATA_FCTR_SEQCTR_NAK 2 1
    (by decide) (by decide) (by decide) (by decide) (by decide) (by decide) (by decide)).2.2.2.2.1

/-! ## Auxiliary lemmas: the FCS step is injective -/

set_option maxRecDepth 100000 in
theorem fcs_mix_lt : ∀ h, h < 256 → fcs_mix h < 65536 := by decide

set_option maxRecDepth 100000 in
theorem fcs_unmix_mix : ∀ h, h < 256 → fcs_unmix (fcs_mix h >>> 8) = h := by decide

theorem optiga_data_calc_fcs_core_eq (seed c : Nat) (hs : seed < 65536) :
    optiga_data_calc_fcs_core seed c = fcs_mix ((seed ^^^ c) &&& 0xFF) ^^^ (seed >>> 8) := by
  have hh : (seed ^^^ c) &&& 0xFF < 256 := by
    have := @Nat.and_le_right (seed ^^^ c) 0xFF
    omega
  have h1 := fcs_mix_lt _ hh
  have h2 : seed >>> 8 < 65536 := by
    rw [Nat.shiftRight_eq_div_pow]
    have : seed / 2 ^ 8 ≤ seed := Nat.div_le_self _ _
    omega
  have h3 : fcs_mix ((seed ^^^ c) &&& 0xFF) ^^^ (seed >>> 8) < 2 ^ 16 :=
    Nat.xor_lt_two_pow (by simpa using h1) (by simpa using h2)
  show (fcs_mix ((seed ^^^ c) &&& 0xFF) ^^^ (seed >>> 8)) % 65536 = _
  exact Nat.mod_eq_of_lt (by simpa using h3)

theorem shiftRight_xor (a b k : Nat) : (a ^^^ b) >>> k = (a >>> k) ^^^ (b >>> k) := by
  apply Nat.eq_of_testBit_eq
  intro i
  simp only [Nat.testBit_shiftRight, Nat.testBit_xor]

/-- Two steps of the FCS with equal results started from equal low bytes of
`seed ^ c` and equal high bytes of the seed. -/
theorem optiga_data_calc_fcs_core_inj (s t c d : Nat) (hs : s < 65536) (ht : t < 65536)
    (h : optiga_data_calc_fcs_core s c = optiga_data_calc_fcs_core t d) :
    (s ^^^ c) &&& 0xFF = (t ^^^ d) &&& 0xFF ∧ s >>> 8 = t >>> 8 := by
  rw [optiga_data_calc_fcs_core_eq s c hs, optiga_data_calc_fcs_core_eq t d ht] at h
  have hb : ∀ x : Nat, x &&& 0xFF < 256 := by
    intro x
    have := @Nat.and_le_right x 0xFF
    omega
  have hz : ∀ x : Nat, x < 65536 → (x >>> 8) >>> 8 = 0 := by
    intro x hx
    rw [Nat.shiftRight_eq_div_pow, Nat.shiftRight_eq_div_pow]
    have : (2:Nat) ^ 8 = 256 := by norm_num
    rw [this]
    omega
  have htop := congrArg (· >>> 8) h
  simp only [shiftRight_xor, hz s hs, hz t ht, Nat.xor_zero] at htop
  have hmix := congrArg fcs_unmix htop
  rw [fcs_unmix_mix _ (hb _), fcs_unmix_mix _ (hb _)] at hmix
  refine ⟨hmix, ?_⟩
  rw [hmix] at h
  exact Nat.xor_right_injective h

theorem and_255_eq_mod (x : Nat) : x &&& 0xFF = x % 256 :=
  Nat.and_pow_two_sub_one_eq_mod x 8

/-- Same byte, different seeds: different results. -/
theorem optiga_data_calc_fcs_core_seed_ne (s t c : Nat) (hs : s < 65536) (ht : t < 65536)
    (hne : s ≠ t) : optiga_data_calc_fcs_core s c ≠ optiga_data_calc_fcs_core t c := by
  intro h
  obtain ⟨h1, h2⟩ := optiga_data_calc_fcs_core_inj s t c c hs ht h
  rw [Nat.and_xor_distrib_right, Nat.and_xor_distrib_right] at h1
  have h3 : s &&& 0xFF = t &&& 0xFF := by
    have := congrArg (· ^^^ (c &&& 0xFF)) h1
    simpa [Nat.xor_assoc] using this
  rw [and_255_eq_mod, and_255_eq_mod] at h3
  rw [Nat.shiftRight_eq_div_pow, Nat.shiftRight_eq_div_pow] at h2
  have : (2:Nat) ^ 8 = 256 := by norm_num
  rw [this] at h2
  omega

/-- Same seed, bytes that differ as `uint8_t`: different results. -/
theorem optiga_data_calc_fcs_core_byte_ne (s c d : Nat) (hs : s < 65536)
    (hne : c % 256 ≠ d % 256) :
    optiga_data_calc_fcs_core s c ≠ optiga_data_calc_fcs_core s d := by
  intro h
  obtain ⟨h1, _⟩ := optiga_data_calc_fcs_core_inj s s c d hs hs h
  rw [Nat.and_xor_distrib_right, Nat.and_xor_distrib_right] at h1
  have h3 := Nat.xor_right_injective h1
  simp only [and_255_eq_mod] at h3
  exact hne h3

/-- Two buffers that differ (as bytes) at exactly one index below `n` have
different frame check sequences over their first `n` bytes. -/
theorem optiga_data_frame_calc_fcs_ne (f g : List Nat) (i : Nat) :
    ∀ n, i < n → (∀ j, j < n → j ≠ i → f.getD j 0 = g.getD j 0) →
      f.getD i 0 % 256 ≠ g.getD i 0 % 256 →
      optiga_data_frame_calc_fcs f n ≠ optiga_data_frame_calc_fcs g n := by
  intro n
  induction n with
  | zero => intro h; omega
  | succ n ih =>
    intro hi hsame hdiff
    rw [optiga_data_frame_calc_fcs_succ, optiga_data_frame_calc_fcs_succ]
    by_cases hin : i = n
    · subst hin
      rw [optiga_data_frame_calc_fcs_congr f g i
        (fun j hj => hsame j (Nat.lt_succ_of_lt hj) (by omega))]
      exact optiga_data_calc_fcs_core_byte_ne _ _ _ (optiga_data_frame_calc_fcs_lt g i) hdiff
    · have hlt : i < n := by omega
      have hprev := ih hlt (fun j hj hji => hsame j (Nat.lt_succ_of_lt hj) hji) hdiff
      rw [hsame n (Nat.lt_succ_self n) (by omega)]
      exact optiga_data_calc_fcs_core_seed_ne _ _ _ (optiga_data_frame_calc_fcs_lt f n)
        (optiga_data_frame_calc_fcs_lt g n) hprev

theorem be16_val (a b : Nat) (ha : a < 256) (hb : b < 256) :
    ((a <<< 8) ||| b) % 65536 = a * 256 + b := by
  have h1 : a <<< 8 = 2 ^ 8 * a := by rw [Nat.shiftLeft_eq, Nat.mul_comm]
  rw [h1, ← Nat.mul_add_lt_is_or (by omega : b < 2 ^ 8)]
  have : (2:Nat) ^ 8 = 256 := by norm_num
  omega

theorem one_shiftLeft_lt (k : Nat) (hk : k < 8) : 1 <<< k < 256 ∧ 1 <<< k ≠ 0 := by
  interval_cases k <;> decide

/-- Flipping one of the bits 0..7 changes a value also as a `uint8_t`. -/
theorem flip_mod_ne (x k : Nat) (hk : k < 8) : (x ^^^ (1 <<< k)) % 256 ≠ x % 256 := by
  obtain ⟨hlt, hne⟩ := one_shiftLeft_lt k hk
  rw [← and_255_eq_mod, ← and_255_eq_mod, Nat.and_xor_distrib_right,
    and_255_eq_mod (1 <<< k), Nat.mod_eq_of_lt hlt]
  intro h
  have h' : (x &&& 0xFF) ^^^ (1 <<< k) = (x &&& 0xFF) ^^^ 0 := by rw [Nat.xor_zero]; exact h
  exact hne (Nat.xor_right_injective h')

theorem flip_bit_getD_ne (f : List Nat) {i j : Nat} (k : Nat) (h : j ≠ i) :
    (flip_bit f i k).getD j 0 = f.getD j 0 := by
  unfold flip_bit
  exact getD_set_ne _ _ (Ne.symm h)

theorem flip_bit_getD_self (f : List Nat) {i : Nat} (k : Nat) (h : i < f.length) :
    (flip_bit f i k).getD i 0 = f.getD i 0 ^^^ (1 <<< k) := by
  unfold flip_bit
  exact getD_set_self _ _ h

/-- C2 (checksum sensitivity): after `optiga_data_frame_set_fcs` has appended the FCS
to the first `n` bytes of a buffer, flipping any single bit (bit `k < 8` of byte
`i < n + 2`, so header, payload or either FCS byte) of the resulting `n + 2` byte
frame makes `optiga_data_frame_check_fcs` return false. -/
theorem fcs_detects_single_bit_flip (f : List Nat) (n i k : Nat)
    (hlen : n + 2 ≤ f.length) (hi : i < n + 2) (hk : k < 8) :
    optiga_data_frame_check_fcs (flip_bit (optiga_data_frame_set_fcs f n) i k) (n + 2)
      = false := by
  have hgl : (optiga_data_frame_set_fcs f n).length = f.length :=
    optiga_data_frame_set_fcs_length f n
  have hgood := optiga_data_frame_check_set_fcs f n hlen
  unfold optiga_data_frame_check_fcs at hgood ⊢
  simp only [Nat.add_sub_cancel, beq_iff_eq, beq_eq_false_iff_ne, ne_eq] at hgood ⊢
  have hhi : (optiga_data_frame_set_fcs f n).getD n 0
      = (optiga_data_frame_calc_fcs f n >>> 8) % 256 := by
    unfold optiga_data_frame_set_fcs
    exact sys_put_be16_getD_hi _ _ (by omega)
  have hlo : (optiga_data_frame_set_fcs f n).getD (n + 1) 0
      = optiga_data_frame_calc_fcs f n % 256 := by
    unfold optiga_data_frame_set_fcs
    exact sys_put_be16_getD_lo _ _ (by omega)
  by_cases hin : i < n
  · -- the flipped bit lies in the header or the payload
    have hne := optiga_data_frame_calc_fcs_ne
      (flip_bit (optiga_data_frame_set_fcs f n) i k) (optiga_data_frame_set_fcs f n) i n hin
      (fun j _ hji => flip_bit_getD_ne _ k hji)
      (by rw [flip_bit_getD_self _ k (by omega)]; exact flip_mod_ne _ k hk)
    have hrecv : sys_get_be16 (flip_bit (optiga_data_frame_set_fcs f n) i k) n
        = sys_get_be16 (optiga_data_frame_set_fcs f n) n := by
      unfold sys_get_be16
      rw [flip_bit_getD_ne _ k (by omega), flip_bit_getD_ne _ k (by omega)]
    rw [hrecv, ← hgood]
    exact hne
  · -- the flipped bit lies in one of the two FCS bytes
    have hcalc : optiga_data_frame_calc_fcs (flip_bit (optiga_data_frame_set_fcs f n) i k) n
        = optiga_data_frame_calc_fcs (optiga_data_frame_set_fcs f n) n :=
      optiga_data_frame_calc_fcs_congr _ _ n (fun j hj => flip_bit_getD_ne _ k (by omega))
    rw [hcalc, hgood]
    obtain ⟨hlt, hnz⟩ := one_shiftLeft_lt k hk
    have hx : ∀ b, b < 256 → b ^^^ (1 <<< k) < 256 ∧ b ^^^ (1 <<< k) ≠ b := by
      intro b hb
      refine ⟨?_, ?_⟩
      · have := @Nat.xor_lt_two_pow b (1 <<< k) 8 (by simpa using hb) (by simpa using hlt)
        simpa using this
      · intro h
        have h' : b ^^^ (1 <<< k) = b ^^^ 0 := by rw [Nat.xor_zero]; exact h
        exact hnz (Nat.xor_right_injective h')
    have hb0 : (optiga_data_frame_calc_fcs f n >>> 8) % 256 < 256 := Nat.mod_lt _ (by decide)
    have hb1 : optiga_data_frame_calc_fcs f n % 256 < 256 := Nat.mod_lt _ (by decide)
    unfold sys_get_be16
    rw [hhi, hlo]
    by_cases hn : i = n
    · subst hn
      rw [flip_bit_getD_self _ k (by omega), flip_bit_getD_ne _ k (by omega), hhi, hlo]
      obtain ⟨h1, h2⟩ := hx _ hb0
      rw [be16_val _ _ hb0 hb1, be16_val _ _ h1 hb1]
      omega
    · have hn1 : i = n + 1 := by omega
      subst hn1
      rw [flip_bit_getD_ne _ k (by omega), flip_bit_getD_self _ k (by omega), hhi, hlo]
      obtain ⟨h1, h2⟩ := hx _ hb1
      rw [be16_val _ _ hb0 hb1, be16_val _ _ hb0 h1]
      omega

theorem fcs_detects_single_bit_flip_witness :
    optiga_data_frame_check_fcs
      (flip_bit (optiga_data_frame_set_fcs [0x02, 0x00, 0x01, 0x5A, 0, 0] 4) 3 6) (4 + 2)
      = false :=
  fcs_detects_single_bit_flip [0x02, 0x00, 0x01, 0x5A, 0, 0] 4 3 6
    (by decide) (by decide) (by decide)

/-! ## Auxiliary lemmas: what the receive path does to the device state -/

theorem optiga_data_recv_common_len (dev : optiga_data) (rd : phy_read) :
    (optiga_data_recv_common dev rd).2.1 = rd.len := by
  simp only [optiga_data_recv_common, optiga_phy_read_frame, optiga_phy_frame_buf]
  split_ifs <;> rfl

theorem optiga_data_recv_common_frame (dev : optiga_data) (rd : phy_read) :
    (optiga_data_recv_common dev rd).2.2.frame = rd.buf := by
  simp only [optiga_data_recv_common, optiga_phy_read_frame, optiga_phy_frame_buf]
  split_ifs <;> rfl

theorem optiga_data_recv_common_bus (dev : optiga_data) (rd : phy_read) :
    (optiga_data_recv_common dev rd).2.2.bus = dev.bus ++ [phy_op.read_frame] := by
  simp only [optiga_data_recv_common, optiga_phy_read_frame, optiga_phy_frame_buf]
  split_ifs <;> rfl

theorem optiga_data_recv_common_rx (dev : optiga_data) (rd : phy_read) :
    (optiga_data_recv_common dev rd).2.2.data.frame_rx_nr = dev.data.frame_rx_nr := by
  simp only [optiga_data_recv_common, optiga_phy_read_frame, optiga_phy_frame_buf]
  split_ifs <;> rfl

theorem optiga_data_recv_ctrl_frame_bus (dev : optiga_data) (rd : phy_read) :
    (optiga_data_recv_ctrl_frame dev rd).2.bus = dev.bus ++ [phy_op.read_frame] := by
  have h := optiga_data_recv_common_bus dev rd
  simp only [optiga_data_recv_ctrl_frame]
  split_ifs <;> exact h

/-! ## Sending -/

theorem size_t_no_wrap (sb len n : Nat) (hsb : 16 ≤ sb) (h : len + 5 ≤ n) (hn : n < 65536) :
    (len + DATA_LINK_OVERHEAD) % 2 ^ sb = len + 5 ∧
      (OPTIGA_DATA_PAYLOAD_OFFSET + len) % 2 ^ sb = OPTIGA_DATA_PAYLOAD_OFFSET + len := by
  have h16 : (2:Nat) ^ 16 ≤ 2 ^ sb := Nat.pow_le_pow_right (by decide) hsb
  have : (2:Nat) ^ 16 = 65536 := by norm_num
  have hoff : OPTIGA_DATA_PAYLOAD_OFFSET = 3 := rfl
  have hov : DATA_LINK_OVERHEAD = 5 := rfl
  constructor
  · rw [hov]; exact Nat.mod_eq_of_lt (by omega)
  · rw [hoff]; exact Nat.mod_eq_of_lt (by omega)

/-- The bus log of a send whose length passes the size check and whose bus write
succeeds: one write of the first `len + 5` bytes of the assembled frame, the status
poll, and a frame read if the poll announces a control frame. -/
theorem optiga_data_send_packet_bus (sb : Nat) (dev : optiga_data) (len : Nat)
    (st : phy_state) (rd : phy_read) (hsb : 16 ≤ sb)
    (hlen : len + 5 ≤ dev.frame.length) (hbuf : dev.frame.length < 65536) :
    (optiga_data_send_packet sb dev len 0 st rd).2.bus
      = dev.bus ++ phy_op.write_frame ((send_frame dev len).take (len + 5)) ::
          phy_op.get_i2c_state ::
          (if (st.res = 0 ∧ st.read_len = OPTIGA_DATA_CRTL_FRAME_LEN) ∨ st.res = 1
            then [phy_op.read_frame] else []) := by
  obtain ⟨w1, w2⟩ := size_t_no_wrap sb len _ hsb hlen hbuf
  simp only [optiga_data_send_packet, optiga_phy_frame_buf, w1, w2,
    optiga_phy_write_frame, optiga_data_is_ctrl_frame_available, optiga_phy_get_i2c_state]
  rw [if_neg (by omega)]
  by_cases hst : st.res = 0
  · by_cases hrl : st.read_len = OPTIGA_DATA_CRTL_FRAME_LEN
    · simp [hst, hrl, optiga_data_recv_ctrl_frame_bus, send_frame]
    · simp [hst, hrl, send_frame]
  · by_cases hneg : st.res < 0
    · have h1 : st.res ≠ 1 := by omega
      simp [hst, hneg, h1, send_frame]
    · by_cases h1 : st.res = 1
      · simp [hst, h1, optiga_data_recv_ctrl_frame_bus, send_frame]
      · simp [hst, hneg, h1, send_frame]

theorem list_ext_getD (l r : List Nat) (hlen : l.length = r.length)
    (h : ∀ i, i < l.length → l.getD i 0 = r.getD i 0) : l = r := by
  apply List.ext_getElem hlen
  intro i h1 h2
  have := h i h1
  rwa [List.getD_eq_getElem _ _ h1, List.getD_eq_getElem _ _ h2] at this

theorem getD_take_drop (l : List Nat) (off n i : Nat) (h : i < n) :
    ((l.drop off).take n).getD i 0 = l.getD (off + i) 0 := by
  simp [List.getD_eq_getElem?_getD, List.getElem?_take, h, List.getElem?_drop]

theorem getD_take_lt (l : List Nat) (n i : Nat) (h : i < n) :
    (l.take n).getD i 0 = l.getD i 0 := by
  simp [List.getD_eq_getElem?_getD, List.getElem?_take, h]

theorem data_ack_fctr (tx rx : Nat) (htx : tx < 4) (hrx : rx < 4) :
    ((OPTIGA_DATA_FCTR_FTYPE_DATA ||| OPTIGA_DATA_FCTR_SEQCTR_ACK) ||| (tx <<< 2) ||| rx) % 256
      = (tx <<< 2) ||| rx ∧ ((tx <<< 2) ||| rx) < 16 := by
  interval_cases tx <;> interval_cases rx <;> decide

theorem be16_bytes (v : Nat) (hv : v < 65536) :
    ((v % 65536) >>> 8) % 256 = v / 256 ∧ (v % 65536) % 256 = v % 256 := by
  rw [Nat.mod_eq_of_lt hv, Nat.shiftRight_eq_div_pow]
  have : (2:Nat) ^ 8 = 256 := by norm_num
  rw [this]
  omega

/-- Byte-by-byte content of the frame assembled by `optiga_data_send_packet`. -/
theorem send_frame_take (dev : optiga_data) (len : Nat)
    (hlen : len + 5 ≤ dev.frame.length) (hbuf : dev.frame.length < 65536)
    (htx : dev.data.frame_tx_nr < 4) (hrx : dev.data.frame_rx_nr < 4) :
    (send_frame dev len).take (len + 5) =
      [(dev.data.frame_tx_nr <<< 2) ||| dev.data.frame_rx_nr, len / 256, len % 256]
        ++ (dev.frame.drop 3).take len
        ++ [optiga_data_frame_calc_fcs
              ([(dev.data.frame_tx_nr <<< 2) ||| dev.data.frame_rx_nr, len / 256, len % 256]
                ++ (dev.frame.drop 3).take len) (3 + len) / 256,
            optiga_data_frame_calc_fcs
              ([(dev.data.frame_tx_nr <<< 2) ||| dev.data.frame_rx_nr, len / 256, len % 256]
                ++ (dev.frame.drop 3).take len) (3 + len) % 256] := by
  have hoff : OPTIGA_DATA_PAYLOAD_OFFSET = 3 := rfl
  obtain ⟨hb0, _⟩ := data_ack_fctr _ _ htx hrx
  obtain ⟨hl1, hl2⟩ := be16_bytes len (by omega)
  -- the buffer before the FCS is appended
  generalize hG : optiga_data_frame_set_len
      (optiga_data_frame_set_fctr dev.frame
        (OPTIGA_DATA_FCTR_FTYPE_DATA ||| OPTIGA_DATA_FCTR_SEQCTR_ACK)
        dev.data.frame_tx_nr dev.data.frame_rx_nr) len = G
  have hGl : G.length = dev.frame.length := by
    rw [← hG, optiga_data_frame_set_len_length, optiga_data_frame_set_fctr_length]
  have hG0 : G.getD 0 0 = (dev.data.frame_tx_nr <<< 2) ||| dev.data.frame_rx_nr := by
    rw [← hG, optiga_data_frame_set_len_getD _ _ (by omega) (by omega),
      optiga_data_frame_set_fctr_getD_zero _ _ _ _ (by omega), hb0]
  have hG1 : G.getD 1 0 = len / 256 := by
    rw [← hG, optiga_data_frame_set_len_getD_one _ _
      (by rw [optiga_data_frame_set_fctr_length]; omega), hl1]
  have hG2 : G.getD 2 0 = len % 256 := by
    rw [← hG, optiga_data_frame_set_len_getD_two _ _
      (by rw [optiga_data_frame_set_fctr_length]; omega), hl2]
  have hGp : ∀ i, 3 ≤ i → G.getD i 0 = dev.frame.getD i 0 := by
    intro i hi
    rw [← hG, optiga_data_frame_set_len_getD _ _ (by omega) (by omega),
      optiga_data_frame_set_fctr_getD_pos _ _ _ _ (by omega)]
  generalize hP : [(dev.data.frame_tx_nr <<< 2) ||| dev.data.frame_rx_nr, len / 256, len % 256]
      ++ (dev.frame.drop 3).take len = P
  have hPl : P.length = 3 + len := by
    rw [← hP]
    simp only [List.length_append, List.length_cons, List.length_nil, List.length_take,
      List.length_drop]
    omega
  have hPG : ∀ i, i < 3 + len → G.getD i 0 = P.getD i 0 := by
    intro i hi
    rw [← hP]
    by_cases h3 : i < 3
    · rw [List.getD_append _ _ _ _ (by simpa using h3)]
      interval_cases i
      · simpa using hG0
      · simpa using hG1
      · simpa using hG2
    · rw [List.getD_append_right _ _ _ _ (by simp; omega), hGp i (by omega)]
      simp only [List.length_cons, List.length_nil]
      rw [getD_take_drop _ _ _ _ (by omega)]
      congr 1
      omega
  have hfcs : optiga_data_frame_calc_fcs G (3 + len) = optiga_data_frame_calc_fcs P (3 + len) :=
    optiga_data_frame_calc_fcs_congr G P _ hPG
  have hflt := optiga_data_frame_calc_fcs_lt P (3 + len)
  have hS : send_frame dev len = optiga_data_frame_set_fcs G (3 + len) := by
    unfold send_frame
    rw [hG, hoff]
  have hshift : ∀ v, v < 65536 → (v >>> 8) % 256 = v / 256 := by
    intro v hv
    rw [Nat.shiftRight_eq_div_pow]
    have : (2:Nat) ^ 8 = 256 := by norm_num
    rw [this]
    omega
  rw [hS]
  apply list_ext_getD
  · simp only [List.length_take, optiga_data_frame_set_fcs_length, hGl, List.length_append,
      hPl, List.length_cons, List.length_nil]
    omega
  · intro i hi
    have hi' : i < len + 5 := by
      simp only [List.length_take] at hi
      omega
    rw [getD_take_lt _ _ _ hi']
    by_cases hpre : i < 3 + len
    · rw [optiga_data_frame_set_fcs_getD _ _ hpre, hPG i hpre,
        List.getD_append _ _ _ _ (by omega)]
    · rw [List.getD_append_right _ _ _ _ (by omega), hPl]
      by_cases hh : i = 3 + len
      · subst hh
        unfold optiga_data_frame_set_fcs
        rw [sys_put_be16_getD_hi _ _ (by omega), hfcs, hshift _ hflt]
        simp
      · have hh2 : i = 3 + len + 1 := by omega
        subst hh2
        unfold optiga_data_frame_set_fcs
        rw [sys_put_be16_getD_lo _ _ (by omega), hfcs]
        simp

/-- C3: for a payload length `len` with `len + 5 ≤` frame buffer size (the `uint16_t`
`data_reg_len`) and a successful bus write, `optiga_data_send_packet` makes exactly one
bus write, of exactly `len + 5` bytes: byte 0 is `(tx_seq << 2) | rx_seq` with bits 7..4
zero (DATA, ACK), bytes 1..2 are `len` big-endian, then the payload, then the 16-bit FCS
of the first `3 + len` bytes, high byte first. The write is followed by the status poll
and, if that announces a control frame, by one frame read. -/
theorem send_packet_frame_layout (sb : Nat) (dev : optiga_data) (len : Nat)
    (st : phy_state) (rd : phy_read) (hsb : 16 ≤ sb)
    (hlen : len + 5 ≤ dev.frame.length) (hbuf : dev.frame.length < 65536)
    (htx : dev.data.frame_tx_nr < 4) (hrx : dev.data.frame_rx_nr < 4) :
    let fctr := (dev.data.frame_tx_nr <<< 2) ||| dev.data.frame_rx_nr
    let payload := (dev.frame.drop OPTIGA_DATA_PAYLOAD_OFFSET).take len
    let fcs := optiga_data_frame_calc_fcs ([fctr, len / 256, len % 256] ++ payload) (3 + len)
    let sent := [fctr, len / 256, len % 256] ++ payload ++ [fcs / 256, fcs % 256]
    fctr < 16 ∧ payload.length = len ∧ sent.length = len + 5 ∧ fcs < 65536 ∧
    (optiga_data_send_packet sb dev len 0 st rd).2.bus
      = dev.bus ++ phy_op.write_frame sent :: phy_op.get_i2c_state ::
          (if (st.res = 0 ∧ st.read_len = OPTIGA_DATA_CRTL_FRAME_LEN) ∨ st.res = 1
            then [phy_op.read_frame] else []) := by
  intro fctr payload fcs sent
  have hoff : OPTIGA_DATA_PAYLOAD_OFFSET = 3 := rfl
  have hpl : payload.length = len := by
    simp only [payload, List.length_take, List.length_drop]
    omega
  refine ⟨(data_ack_fctr _ _ htx hrx).2, hpl, ?_, optiga_data_frame_calc_fcs_lt _ _, ?_⟩
  · simp only [sent, List.length_append, List.length_cons, List.length_nil, hpl]
    omega
  · have h1 := optiga_data_send_packet_bus sb dev len st rd hsb hlen hbuf
    rw [send_frame_take dev len hlen hbuf htx hrx] at h1
    exact h1

theorem send_packet_frame_layout_witness :
    (optiga_data_send_packet 32
        { frame := [0xFF, 0xFF, 0xFF, 7, 8, 9, 0xFF, 0xFF, 0xFF, 0xFF],
          data := { frame_tx_nr := 2, frame_tx_ack := 1, frame_rx_nr := 3 }, bus := [] }
        3 0 { res := 0, read_len := 0 } { err := 0, buf := [], len := 0 }).2.bus
      = [phy_op.write_frame [11, 0, 3, 7, 8, 9, 0xD7, 0xEC], phy_op.get_i2c_state] :=
  (send_packet_frame_layout 32
    { frame := [0xFF, 0xFF, 0xFF, 7, 8, 9, 0xFF, 0xFF, 0xFF, 0xFF],
      data := { frame_tx_nr := 2, frame_tx_ack := 1, frame_rx_nr := 3 }, bus := [] }
    3 { res := 0, read_len := 0 } { err := 0, buf := [], len := 0 }
    (by decide) (by decide) (by decide) (by decide) (by decide)).2.2.2.2

/-! ## Receiving: acknowledgement numbers -/

/-- The outcome of `optiga_data_recv_common` on a well-formed frame, by ack-number. -/
theorem optiga_data_recv_common_well_formed (dev : optiga_data) (rd : phy_read)
    (hwf : well_formed rd) :
    optiga_data_recv_common dev rd =
      if dev.data.frame_tx_nr = optiga_data_get_ack_nr rd.buf then
        (0, rd.len,
          { frame := rd.buf,
            data := { dev.data with
              frame_tx_nr := (dev.data.frame_tx_nr + 1) % 4
              frame_tx_ack := optiga_data_get_ack_nr rd.buf },
            bus := dev.bus ++ [phy_op.read_frame] })
      else if dev.data.frame_tx_ack = optiga_data_get_ack_nr rd.buf then
        (0, rd.len, { dev with frame := rd.buf, bus := dev.bus ++ [phy_op.read_frame] })
      else
        (-EIO_ERRNO, rd.len,
          { dev with frame := rd.buf, bus := dev.bus ++ [phy_op.read_frame] }) := by
  obtain ⟨h1, h2, h3, h4⟩ := hwf
  have h2' : ¬ rd.len < OPTIGA_DATA_CRTL_FRAME_LEN := by omega
  simp only [optiga_data_recv_common, optiga_phy_read_frame, optiga_phy_frame_buf, h1, h2', h3,
    h4, ne_eq, not_true_eq_false, if_false, Bool.not_true, Bool.false_eq_true]

theorem recv_all_matching (rds : List phy_read) : ∀ dev : optiga_data,
    dev.data.frame_tx_nr < 4 → acks_match dev rds →
    (recv_all dev rds).1 = List.replicate rds.length 0 ∧
      (recv_all dev rds).2.data.frame_tx_nr = (dev.data.frame_tx_nr + rds.length) % 4 := by
  induction rds with
  | nil =>
    intro dev ht _
    exact ⟨rfl, (Nat.mod_eq_of_lt ht).symm⟩
  | cons rd rds ih =>
    intro dev ht hm
    obtain ⟨hwf, hack, hrest⟩ := hm
    have hstep := optiga_data_recv_common_well_formed dev rd hwf
    rw [if_pos hack.symm] at hstep
    have hlt : (optiga_data_recv_common dev rd).2.2.data.frame_tx_nr < 4 := by
      rw [hstep]; exact Nat.mod_lt _ (by decide)
    obtain ⟨i1, i2⟩ := ih _ hlt hrest
    constructor
    · show (optiga_data_recv_common dev rd).1 :: (recv_all _ rds).1 = _
      rw [i1, hstep]
      rfl
    · show (recv_all (optiga_data_recv_common dev rd).2.2 rds).2.data.frame_tx_nr = _
      rw [i2, hstep]
      simp only [List.length_cons]
      omega

/-- C4 (ARQ monotonicity): starting from the state set by `optiga_data_init`, after `N`
consecutive calls of `optiga_data_recv_common` on well-formed frames whose ack-number
each equals the `frame_tx_nr` current at that call, every call has returned 0 and
`frame_tx_nr = N % 4`. -/
theorem arq_monotonicity (dev : optiga_data) (rds : List phy_read)
    (hm : acks_match (optiga_data_init dev).2 rds) :
    (∀ e ∈ (recv_all (optiga_data_init dev).2 rds).1, e = 0) ∧
      (recv_all (optiga_data_init dev).2 rds).1.length = rds.length ∧
      (recv_all (optiga_data_init dev).2 rds).2.data.frame_tx_nr = rds.length % 4 := by
  obtain ⟨h1, h2⟩ := recv_all_matching rds (optiga_data_init dev).2
    (by simp [optiga_data_init]) hm
  refine ⟨?_, ?_, ?_⟩
  · intro e he
    rw [h1] at he
    exact List.eq_of_mem_replicate he
  · rw [h1, List.length_replicate]
  · rw [h2]
    simp [optiga_data_init]

theorem arq_monotonicity_witness :
    (recv_all (optiga_data_init { frame := [], data := ⟨3, 2, 1⟩, bus := [] }).2
      [⟨0, [0x80, 0, 0, 0x0C, 0xEC], 5⟩, ⟨0, [0x81, 0, 0, 0x56, 0x30], 5⟩]).2.data.frame_tx_nr
      = [(⟨0, [0x80, 0, 0, 0x0C, 0xEC], 5⟩ : phy_read), ⟨0, [0x81, 0, 0, 0x56, 0x30], 5⟩].length % 4 :=
  (arq_monotonicity { frame := [], data := ⟨3, 2, 1⟩, bus := [] }
    [⟨0, [0x80, 0, 0, 0x0C, 0xEC], 5⟩, ⟨0, [0x81, 0, 0, 0x56, 0x30], 5⟩]
    ⟨by decide, by decide, by decide, by decide, trivial⟩).2.2


/-- C5, as stated, fails right after `optiga_data_init`: there `frame_tx_ack` and
`frame_tx_nr` are both 0, a well-formed CONTROL/ACK frame with ack-number 0 equals
`frame_tx_ack`, is accepted, and `frame_tx_nr` advances from 0 to 1. -/
theorem duplicate_ack_after_init_advances :
    well_formed ⟨0, [0x80, 0, 0, 0x0C, 0xEC], 5⟩ ∧
    optiga_data_get_ack_nr [0x80, 0, 0, 0x0C, 0xEC]
      = (optiga_data_init ⟨[0, 0, 0, 0, 0], ⟨0, 0, 0⟩, []⟩).2.data.frame_tx_ack ∧
    (optiga_data_recv_common (optiga_data_init ⟨[0, 0, 0, 0, 0], ⟨0, 0, 0⟩, []⟩).2
      ⟨0, [0x80, 0, 0, 0x0C, 0xEC], 5⟩).1 = 0 ∧
    (optiga_data_init ⟨[0, 0, 0, 0, 0], ⟨0, 0, 0⟩, []⟩).2.data.frame_tx_nr = 0 ∧
    (optiga_data_recv_common (optiga_data_init ⟨[0, 0, 0, 0, 0], ⟨0, 0, 0⟩, []⟩).2
      ⟨0, [0x80, 0, 0, 0x0C, 0xEC], 5⟩).2.2.data.frame_tx_nr = 1 := by
  decide

/-- C5 (amended): a well-formed frame whose ack-number equals `frame_tx_ack` is
accepted by `optiga_data_recv_common` in every data-link state; it leaves the three
sequence counters unchanged when `frame_tx_ack ≠ frame_tx_nr`, and when
`frame_tx_ack = frame_tx_nr` (as right after `optiga_data_init`) it is taken as the
acknowledgement of the outstanding frame, so `frame_tx_nr` advances by one modulo 4. -/
theorem duplicate_ack (dev : optiga_data) (rd : phy_read) (hwf : well_formed rd)
    (hack : optiga_data_get_ack_nr rd.buf = dev.data.frame_tx_ack) :
    (optiga_data_recv_common dev rd).1 = 0 ∧
    (dev.data.frame_tx_ack ≠ dev.data.frame_tx_nr →
      (optiga_data_recv_common dev rd).2.2.data = dev.data) ∧
    (dev.data.frame_tx_ack = dev.data.frame_tx_nr →
      (optiga_data_recv_common dev rd).2.2.data.frame_tx_nr
        = (dev.data.frame_tx_nr + 1) % 4) := by
  rw [optiga_data_recv_common_well_formed dev rd hwf, hack]
  by_cases h : dev.data.frame_tx_nr = dev.data.frame_tx_ack
  · simp [h]
  · have h' : dev.data.frame_tx_ack ≠ dev.data.frame_tx_nr := fun e => h e.symm
    simp [h, h']

theorem duplicate_ack_witness :
    (optiga_data_recv_common ⟨[], ⟨2, 1, 0⟩, []⟩
      ⟨0, [0x81, 0, 0, 0x56, 0x30], 5⟩).2.2.data = ⟨2, 1, 0⟩ :=
  (duplicate_ack ⟨[], ⟨2, 1, 0⟩, []⟩ ⟨0, [0x81, 0, 0, 0x56, 0x30], 5⟩
    (by decide) (by decide)).2.1 (by decide)

/-- C6 (unexpected ACK): in every data-link state, a well-formed frame whose
ack-number equals neither `frame_tx_nr` nor `frame_tx_ack` makes
`optiga_data_recv_common` return `-EIO` and leaves the three sequence counters
unchanged. -/
theorem unexpected_ack (dev : optiga_data) (rd : phy_read) (hwf : well_formed rd)
    (h1 : optiga_data_get_ack_nr rd.buf ≠ dev.data.frame_tx_nr)
    (h2 : optiga_data_get_ack_nr rd.buf ≠ dev.data.frame_tx_ack) :
    (optiga_data_recv_common dev rd).1 = -EIO_ERRNO ∧
    (optiga_data_recv_common dev rd).2.2.data.frame_tx_nr = dev.data.frame_tx_nr ∧
    (optiga_data_recv_common dev rd).2.2.data.frame_tx_ack = dev.data.frame_tx_ack ∧
    (optiga_data_recv_common dev rd).2.2.data.frame_rx_nr = dev.data.frame_rx_nr := by
  rw [optiga_data_recv_common_well_formed dev rd hwf,
    if_neg (fun e => h1 e.symm), if_neg (fun e => h2 e.symm)]
  exact ⟨rfl, rfl, rfl, rfl⟩

theorem unexpected_ack_witness :
    (optiga_data_recv_common ⟨[], ⟨2, 1, 0⟩, []⟩ ⟨0, [0x83, 0, 0, 0xE3, 0x88], 5⟩).1
      = -EIO_ERRNO :=
  (unexpected_ack ⟨[], ⟨2, 1, 0⟩, []⟩ ⟨0, [0x83, 0, 0, 0xE3, 0x88], 5⟩
    (by decide) (by decide) (by decide)).1

/-- C7 (malformed-frame rejection): when the bus read succeeded and the frame is
shorter than 5 bytes, or its FCS does not verify, or its seqctl field is not ACK,
`optiga_data_recv_common` returns `-EIO` and leaves the three sequence counters
unchanged; for a frame shorter than 5 bytes the result is the same whatever the
frame buffer holds (the length check comes before any read of the frame). -/
theorem malformed_frame_rejected (dev : optiga_data) (rd : phy_read) (herr : rd.err = 0)
    (hbad : rd.len < OPTIGA_DATA_CRTL_FRAME_LEN ∨
      optiga_data_frame_check_fcs rd.buf rd.len = false ∨
      optiga_data_get_seqctr rd.buf ≠ OPTIGA_DATA_FCTR_SEQCTR_ACK) :
    ((optiga_data_recv_common dev rd).1 = -EIO_ERRNO ∧
      (optiga_data_recv_common dev rd).2.2.data = dev.data) ∧
    (rd.len < OPTIGA_DATA_CRTL_FRAME_LEN → ∀ buf : List Nat,
      (optiga_data_recv_common dev { rd with buf := buf }).1 = -EIO_ERRNO ∧
      (optiga_data_recv_common dev { rd with buf := buf }).2.1 = rd.len ∧
      (optiga_data_recv_common dev { rd with buf := buf }).2.2.data = dev.data) := by
  constructor
  · simp only [optiga_data_recv_common, optiga_phy_read_frame, optiga_phy_frame_buf, herr,
      ne_eq, not_true_eq_false, if_false]
    by_cases hlen : rd.len < OPTIGA_DATA_CRTL_FRAME_LEN
    · rw [if_pos hlen]
      exact ⟨rfl, rfl⟩
    · rw [if_neg hlen]
      by_cases hfcs : optiga_data_frame_check_fcs rd.buf rd.len = true
      · have hseq : optiga_data_get_seqctr rd.buf ≠ OPTIGA_DATA_FCTR_SEQCTR_ACK := by
          rcases hbad with h | h | h
          · exact absurd h hlen
          · rw [hfcs] at h; exact absurd h (by decide)
          · exact h
        simp only [hfcs, Bool.not_true, Bool.false_eq_true, if_false]
        rw [if_pos hseq]
        exact ⟨rfl, rfl⟩
      · simp only [hfcs, Bool.not_eq_true] at *
        simp [hfcs]
  · intro hlen buf
    simp only [optiga_data_recv_common, optiga_phy_read_frame, optiga_phy_frame_buf, herr,
      ne_eq, not_true_eq_false, if_false]
    rw [if_pos hlen]
    exact ⟨rfl, rfl, rfl⟩

theorem malformed_frame_rejected_witness :
    (optiga_data_recv_common ⟨[], ⟨2, 1, 0⟩, []⟩ ⟨0, [0xA0, 0, 0, 0x0F, 0xD7], 5⟩).1
      = -EIO_ERRNO :=
  (malformed_frame_rejected ⟨[], ⟨2, 1, 0⟩, []⟩ ⟨0, [0xA0, 0, 0, 0x0F, 0xD7], 5⟩
    (by decide) (Or.inr (Or.inr (by decide)))).1.1

/-! ## Receiving a data frame -/

theorem optiga_data_get_frame_nr_lt (f : List Nat) : optiga_data_get_frame_nr f < 4 := by
  unfold optiga_data_get_frame_nr
  have h := @Nat.and_le_right (f.getD OPTIGA_DATA_FCTR_OFFSET 0) OPTIGA_DATA_FCTR_FRNR_MASK
  rw [Nat.shiftRight_eq_div_pow]
  have h2 : (2:Nat) ^ 2 = 4 := by norm_num
  have h3 : OPTIGA_DATA_FCTR_FRNR_MASK = 12 := rfl
  rw [h2]
  omega

theorem optiga_data_recv_common_accepts (dev : optiga_data) (rd : phy_read)
    (hwf : well_formed rd)
    (hack : optiga_data_get_ack_nr rd.buf = dev.data.frame_tx_nr ∨
      optiga_data_get_ack_nr rd.buf = dev.data.frame_tx_ack) :
    (optiga_data_recv_common dev rd).1 = 0 := by
  rw [optiga_data_recv_common_well_formed dev rd hwf]
  by_cases h : dev.data.frame_tx_nr = optiga_data_get_ack_nr rd.buf
  · rw [if_pos h]
  · rw [if_neg h]
    rcases hack with h' | h'
    · exact absurd h'.symm h
    · rw [if_pos h'.symm]

/-- The acknowledgement frame assembled in a buffer of at least 5 bytes. -/
theorem ack_frame_take (buf : List Nat) (rx : Nat) (hbuf : 5 ≤ buf.length) (hrx : rx < 4) :
    (optiga_data_frame_set_fcs
      (optiga_data_frame_set_len
        (optiga_data_frame_set_fctr buf
          (OPTIGA_DATA_FCTR_FTYPE_CTRL ||| OPTIGA_DATA_FCTR_SEQCTR_ACK) 0 rx) 0)
      OPTIGA_DATA_PAYLOAD_OFFSET).take OPTIGA_DATA_CRTL_FRAME_LEN
    = [0x80 ||| rx, 0, 0,
        optiga_data_frame_calc_fcs [0x80 ||| rx, 0, 0] 3 / 256,
        optiga_data_frame_calc_fcs [0x80 ||| rx, 0, 0] 3 % 256] := by
  have hoff : OPTIGA_DATA_PAYLOAD_OFFSET = 3 := rfl
  have hcl : OPTIGA_DATA_CRTL_FRAME_LEN = 5 := rfl
  have hb0 : ((OPTIGA_DATA_FCTR_FTYPE_CTRL ||| OPTIGA_DATA_FCTR_SEQCTR_ACK) ||| (0 <<< 2) ||| rx)
      % 256 = 0x80 ||| rx := by
    interval_cases rx <;> decide
  generalize hG : optiga_data_frame_set_len
      (optiga_data_frame_set_fctr buf
        (OPTIGA_DATA_FCTR_FTYPE_CTRL ||| OPTIGA_DATA_FCTR_SEQCTR_ACK) 0 rx) 0 = G
  have hGl : G.length = buf.length := by
    rw [← hG, optiga_data_frame_set_len_length, optiga_data_frame_set_fctr_length]
  have hG0 : G.getD 0 0 = 0x80 ||| rx := by
    rw [← hG, optiga_data_frame_set_len_getD _ _ (by omega) (by omega),
      optiga_data_frame_set_fctr_getD_zero _ _ _ _ (by omega), hb0]
  have hG1 : G.getD 1 0 = 0 := by
    rw [← hG, optiga_data_frame_set_len_getD_one _ _
      (by rw [optiga_data_frame_set_fctr_length]; omega)]
    decide
  have hG2 : G.getD 2 0 = 0 := by
    rw [← hG, optiga_data_frame_set_len_getD_two _ _
      (by rw [optiga_data_frame_set_fctr_length]; omega)]
  have hfcs : optiga_data_frame_calc_fcs G 3
      = optiga_data_frame_calc_fcs [0x80 ||| rx, 0, 0] 3 := by
    apply optiga_data_frame_calc_fcs_congr
    intro i hi
    interval_cases i
    · simpa using hG0
    · simpa using hG1
    · simpa using hG2
  have hflt := optiga_data_frame_calc_fcs_lt [0x80 ||| rx, 0, 0] 3
  have hshift : ∀ v, v < 65536 → (v >>> 8) % 256 = v / 256 := by
    intro v hv
    rw [Nat.shiftRight_eq_div_pow]
    have : (2:Nat) ^ 8 = 256 := by norm_num
    rw [this]
    omega
  rw [hoff, hcl]
  apply list_ext_getD
  · simp only [List.length_take, optiga_data_frame_set_fcs_length, hGl, List.length_cons,
      List.length_nil]
    omega
  · intro i hi
    have hi' : i < 5 := by
      simp only [List.length_take] at hi
      omega
    rw [getD_take_lt _ _ _ hi']
    interval_cases i
    · rw [optiga_data_frame_set_fcs_getD _ _ (by omega), hG0]; rfl
    · rw [optiga_data_frame_set_fcs_getD _ _ (by omega), hG1]; rfl
    · rw [optiga_data_frame_set_fcs_getD _ _ (by omega), hG2]; rfl
    · unfold optiga_data_frame_set_fcs
      rw [sys_put_be16_getD_hi _ _ (by omega), hfcs, hshift _ hflt]
      rfl
    · unfold optiga_data_frame_set_fcs
      rw [sys_put_be16_getD_lo _ _ (by omega), hfcs]
      rfl

/-- The decoded fields of the acknowledgement frame for each `rx < 4`. -/
theorem ack_frame_fields (rx : Nat) (hrx : rx < 4) :
    let ack := [0x80 ||| rx, 0, 0,
      optiga_data_frame_calc_fcs [0x80 ||| rx, 0, 0] 3 / 256,
      optiga_data_frame_calc_fcs [0x80 ||| rx, 0, 0] 3 % 256]
    optiga_data_is_ctrl_frame ack = true ∧
    optiga_data_get_seqctr ack = OPTIGA_DATA_FCTR_SEQCTR_ACK ∧
    optiga_data_get_frame_nr ack = 0 ∧
    optiga_data_get_ack_nr ack = rx ∧
    optiga_data_frame_get_len ack = 0 ∧
    optiga_data_frame_check_fcs ack OPTIGA_DATA_CRTL_FRAME_LEN = true := by
  interval_cases rx <;> decide

/-- C8 (receive-then-ack): for a well-formed DATA frame with an acceptable ack-number
whose length field plus 5 equals the number of bytes read, `optiga_data_recv_packet`
reports `data_len` equal to the length field, sets `frame_rx_nr` to the frame's
send-sequence number, and after the read makes one bus write, of a 5-byte frame whose
control byte is `0x80 | frame_rx_nr` (CONTROL, ACK, sequence 0), whose length field is 0
and whose FCS is valid; it returns the result of that write. -/
theorem recv_packet_then_ack (dev : optiga_data) (rd : phy_read) (wr : Int)
    (hwf : well_formed rd)
    (hack : optiga_data_get_ack_nr rd.buf = dev.data.frame_tx_nr ∨
      optiga_data_get_ack_nr rd.buf = dev.data.frame_tx_ack)
    (hdata : optiga_data_is_ctrl_frame rd.buf = false)
    (hlen : optiga_data_frame_get_len rd.buf + 5 = rd.len)
    (hbuf : rd.len ≤ rd.buf.length) :
    let r := optiga_data_recv_packet dev rd wr
    let rx := optiga_data_get_frame_nr rd.buf
    let ack := [0x80 ||| rx, 0, 0,
      optiga_data_frame_calc_fcs [0x80 ||| rx, 0, 0] 3 / 256,
      optiga_data_frame_calc_fcs [0x80 ||| rx, 0, 0] 3 % 256]
    r.1 = wr ∧
    r.2.1 = some (optiga_data_frame_get_len rd.buf) ∧
    r.2.2.data.frame_rx_nr = rx ∧
    r.2.2.bus = dev.bus ++ [phy_op.read_frame, phy_op.write_frame ack] ∧
    optiga_data_is_ctrl_frame ack = true ∧
    optiga_data_get_seqctr ack = OPTIGA_DATA_FCTR_SEQCTR_ACK ∧
    optiga_data_get_frame_nr ack = 0 ∧
    optiga_data_get_ack_nr ack = rx ∧
    optiga_data_frame_get_len ack = 0 ∧
    optiga_data_frame_check_fcs ack OPTIGA_DATA_CRTL_FRAME_LEN = true := by
  intro r rx ack
  have hrx : rx < 4 := optiga_data_get_frame_nr_lt rd.buf
  have hov : DATA_LINK_OVERHEAD = 5 := rfl
  have h5 : 5 ≤ rd.buf.length := by omega
  have hrc : optiga_data_recv_common dev rd
      = (0, rd.len, (optiga_data_recv_common dev rd).2.2) := by
    apply Prod.ext
    · exact optiga_data_recv_common_accepts dev rd hwf hack
    · apply Prod.ext
      · exact optiga_data_recv_common_len dev rd
      · rfl
  have hfr := optiga_data_recv_common_frame dev rd
  have hbus := optiga_data_recv_common_bus dev rd
  have hr : r = (wr, some (optiga_data_frame_get_len rd.buf),
      { frame := memcpy
          (optiga_data_frame_set_fcs
            (optiga_data_frame_set_len
              (optiga_data_frame_set_fctr rd.buf
                (OPTIGA_DATA_FCTR_FTYPE_CTRL ||| OPTIGA_DATA_FCTR_SEQCTR_ACK) 0 rx) 0)
            OPTIGA_DATA_PAYLOAD_OFFSET)
          (memcpy (List.replicate OPTIGA_DATA_CRTL_FRAME_LEN 0) rd.buf
            OPTIGA_DATA_CRTL_FRAME_LEN)
          OPTIGA_DATA_CRTL_FRAME_LEN,
        data := { (optiga_data_recv_common dev rd).2.2.data with frame_rx_nr := rx },
        bus := dev.bus ++ [phy_op.read_frame] ++ [phy_op.write_frame ack] }) := by
    simp only [r, optiga_data_recv_packet]
    rw [hrc]
    simp only [ne_eq, not_true_eq_false, if_false, hfr, hdata, Bool.false_eq_true, hov, hlen,
      optiga_send_ack_frame, optiga_phy_frame_buf, optiga_phy_write_frame, hbus,
      ack_frame_take rd.buf rx h5 hrx]
  obtain ⟨a1, a2, a3, a4, a5, a6⟩ := ack_frame_fields rx hrx
  rw [hr]
  refine ⟨rfl, rfl, rfl, ?_, a1, a2, a3, a4, a5, a6⟩
  simp

theorem recv_packet_then_ack_witness :
    (optiga_data_recv_packet ⟨[0, 0, 0, 0, 0, 0, 0, 0], ⟨1, 0, 0⟩, []⟩
      ⟨0, [0x05, 0, 2, 0xAA, 0xBB, 0xCA, 0x3B, 0], 7⟩ 0).2.2.bus
      = [] ++ [phy_op.read_frame, phy_op.write_frame [0x81, 0, 0, 0x56, 0x30]] :=
  (recv_packet_then_ack ⟨[0, 0, 0, 0, 0, 0, 0, 0], ⟨1, 0, 0⟩, []⟩
    ⟨0, [0x05, 0, 2, 0xAA, 0xBB, 0xCA, 0x3B, 0], 7⟩ 0
    (by decide) (by decide) (by decide) (by decide) (by decide)).2.2.2.1


/-! ## Sending: size check and spontaneous acknowledgement -/

/-- When `len + 5` does not wrap in `size_t` and exceeds the frame buffer length,
`optiga_data_send_packet` returns `-EINVAL` and leaves the device state (frame buffer,
counters, bus) untouched. -/
theorem optiga_data_send_packet_too_big (sb : Nat) (dev : optiga_data) (len : Nat) (wr : Int)
    (st : phy_state) (rd : phy_read) (hfit : len + 5 < 2 ^ sb)
    (hbig : dev.frame.length < len + 5) :
    optiga_data_send_packet sb dev len wr st rd = (-EINVAL, dev) := by
  have hov : DATA_LINK_OVERHEAD = 5 := rfl
  simp only [optiga_data_send_packet, optiga_phy_frame_buf, hov, Nat.mod_eq_of_lt hfit]
  rw [if_pos hbig]

/-- C9 fails on the code for lengths within 5 of `SIZE_MAX`: with a 32-bit `size_t`, a
16-byte frame buffer and `len = 4294967295`, the sum `len + DATA_LINK_OVERHEAD` wraps to
4, the size check passes, the frame buffer is overwritten, four bytes are written to
the bus and the call returns 0 instead of `-EINVAL`; the same happens with a 64-bit
`size_t` at `len = 18446744073709551615`. -/
theorem send_packet_size_check_wraps :
    optiga_data_send_packet 32
        ⟨[0, 0, 0, 0, 0, 0, 0, 0, 0, 0, 0, 0, 0, 0, 0, 0], ⟨0, 0, 0⟩, []⟩ 4294967295
        0 ⟨0, 0⟩ ⟨0, [], 0⟩
      = (0, ⟨[0, 255, 15, 120, 0, 0, 0, 0, 0, 0, 0, 0, 0, 0, 0, 0], ⟨0, 0, 0⟩,
          [phy_op.write_frame [0, 255, 15, 120], phy_op.get_i2c_state]⟩) ∧
    optiga_data_send_packet 64
        ⟨[0, 0, 0, 0, 0, 0, 0, 0, 0, 0, 0, 0, 0, 0, 0, 0], ⟨0, 0, 0⟩, []⟩
        18446744073709551615 0 ⟨0, 0⟩ ⟨0, [], 0⟩
      = (0, ⟨[0, 255, 15, 120, 0, 0, 0, 0, 0, 0, 0, 0, 0, 0, 0, 0], ⟨0, 0, 0⟩,
          [phy_op.write_frame [0, 255, 15, 120], phy_op.get_i2c_state]⟩) := by
  decide

/-- C10 (absent acknowledgement is not an error): when the size check passes, the bus
write succeeds and the status poll succeeds, then with an available length different
from 5 `optiga_data_send_packet` returns 0, makes no frame read (the bus sees the write
and the poll only) and leaves the three sequence counters unchanged; with an available
length of 5 its result is the result of `optiga_data_recv_ctrl_frame` in the state
reached after the write and the poll. -/
theorem send_packet_spontaneous_ack (sb : Nat) (dev : optiga_data) (len : Nat)
    (st : phy_state) (rd : phy_read)
    (hsize : (len + DATA_LINK_OVERHEAD) % 2 ^ sb ≤ dev.frame.length)
    (hst : st.res = 0) :
    let frame := optiga_data_frame_set_fcs
      (optiga_data_frame_set_len
        (optiga_data_frame_set_fctr dev.frame
          (OPTIGA_DATA_FCTR_FTYPE_DATA ||| OPTIGA_DATA_FCTR_SEQCTR_ACK)
          dev.data.frame_tx_nr dev.data.frame_rx_nr) len)
      ((OPTIGA_DATA_PAYLOAD_OFFSET + len) % 2 ^ sb)
    let sent : optiga_data :=
      { frame := frame, data := dev.data,
        bus := dev.bus ++ [phy_op.write_frame (frame.take ((len + DATA_LINK_OVERHEAD) % 2 ^ sb)),
          phy_op.get_i2c_state] }
    (st.read_len ≠ OPTIGA_DATA_CRTL_FRAME_LEN →
      optiga_data_send_packet sb dev len 0 st rd = (0, sent)) ∧
    (st.read_len = OPTIGA_DATA_CRTL_FRAME_LEN →
      optiga_data_send_packet sb dev len 0 st rd = optiga_data_recv_ctrl_frame sent rd) := by
  intro frame sent
  have hguard : ¬ (len + DATA_LINK_OVERHEAD) % 2 ^ sb > dev.frame.length := by omega
  constructor
  · intro hrl
    simp only [optiga_data_send_packet, optiga_phy_frame_buf, optiga_phy_write_frame,
      optiga_data_is_ctrl_frame_available, optiga_phy_get_i2c_state, hguard, hst, hrl,
      if_false, ne_eq, not_true_eq_false]
    simp [sent, frame]
  · intro hrl
    simp only [optiga_data_send_packet, optiga_phy_frame_buf, optiga_phy_write_frame,
      optiga_data_is_ctrl_frame_available, optiga_phy_get_i2c_state, hguard, hst, hrl,
      if_false, ne_eq, not_true_eq_false]
    simp [sent, frame]

theorem send_packet_spontaneous_ack_witness :
    optiga_data_send_packet 32 ⟨[9, 9, 9, 7, 0, 0, 9, 9], ⟨1, 0, 2⟩, [phy_op.read_frame]⟩ 1
        0 ⟨0, 7⟩ ⟨0, [0x81, 0, 0, 0x56, 0x30], 5⟩
      = (0, ⟨[6, 0, 1, 7, 38, 253, 9, 9], ⟨1, 0, 2⟩,
          [phy_op.read_frame, phy_op.write_frame [6, 0, 1, 7, 38, 253],
            phy_op.get_i2c_state]⟩) :=
  (send_packet_spontaneous_ack 32 ⟨[9, 9, 9, 7, 0, 0, 9, 9], ⟨1, 0, 2⟩, [phy_op.read_frame]⟩ 1
    ⟨0, 7⟩ ⟨0, [0x81, 0, 0, 0x56, 0x30], 5⟩ (by decide) (by decide)).1 (by decide)


/-! ## The sequence counters stay in `0..3` -/

theorem optiga_data_get_ack_nr_lt (f : List Nat) : optiga_data_get_ack_nr f < 4 := by
  unfold optiga_data_get_ack_nr
  have h := @Nat.and_le_right (f.getD OPTIGA_DATA_FCTR_OFFSET 0) OPTIGA_DATA_FCTR_ACKNR_MASK
  have h3 : OPTIGA_DATA_FCTR_ACKNR_MASK = 3 := rfl
  omega

theorem optiga_data_init_counters (dev : optiga_data) :
    counters_in_range (optiga_data_init dev).2.data := by
  simp [optiga_data_init, counters_in_range]

theorem optiga_data_recv_common_counters (dev : optiga_data) (rd : phy_read)
    (h : counters_in_range dev.data) :
    counters_in_range (optiga_data_recv_common dev rd).2.2.data := by
  obtain ⟨h1, h2, h3⟩ := h
  have ha := optiga_data_get_ack_nr_lt rd.buf
  simp only [optiga_data_recv_common, optiga_phy_read_frame, optiga_phy_frame_buf]
  split_ifs <;> first
    | exact ⟨h1, h2, h3⟩
    | exact ⟨Nat.mod_lt _ (by decide), ha, h3⟩

theorem optiga_data_recv_ctrl_frame_counters (dev : optiga_data) (rd : phy_read)
    (h : counters_in_range dev.data) :
    counters_in_range (optiga_data_recv_ctrl_frame dev rd).2.data := by
  have hc := optiga_data_recv_common_counters dev rd h
  simp only [optiga_data_recv_ctrl_frame]
  split_ifs <;> exact hc

theorem optiga_data_send_packet_counters (sb : Nat) (dev : optiga_data) (len : Nat) (wr : Int)
    (st : phy_state) (rd : phy_read) (h : counters_in_range dev.data) :
    counters_in_range (optiga_data_send_packet sb dev len wr st rd).2.data := by
  simp only [optiga_data_send_packet, optiga_phy_frame_buf, optiga_phy_write_frame,
    optiga_data_is_ctrl_frame_available, optiga_phy_get_i2c_state]
  split_ifs <;> first
    | exact h
    | exact optiga_data_recv_ctrl_frame_counters _ rd h

theorem optiga_data_recv_packet_counters (dev : optiga_data) (rd : phy_read) (wr : Int)
    (h : counters_in_range dev.data) :
    counters_in_range (optiga_data_recv_packet dev rd wr).2.2.data := by
  have hc := optiga_data_recv_common_counters dev rd h
  have hf := optiga_data_get_frame_nr_lt (optiga_data_recv_common dev rd).2.2.frame
  simp only [optiga_data_recv_packet]
  split_ifs <;> first
    | exact hc
    | exact ⟨hc.1, hc.2.1, hf⟩

/-! ## Spontaneous control frame -/

/-- C11 (spontaneous control frame validation): `optiga_data_recv_ctrl_frame` returns
0 if and only if `optiga_data_recv_common` accepts the frame (returns 0) and the frame
is exactly 5 bytes long, has frame type CONTROL and length field 0; in every other
case it returns a non-zero value, the error of `optiga_data_recv_common` or `-EIO`. -/
theorem recv_ctrl_frame_validation (dev : optiga_data) (rd : phy_read) :
    ((optiga_data_recv_ctrl_frame dev rd).1 = 0 ↔
      ((optiga_data_recv_common dev rd).1 = 0 ∧ rd.len = OPTIGA_DATA_CRTL_FRAME_LEN ∧
        optiga_data_is_ctrl_frame rd.buf = true ∧ optiga_data_frame_get_len rd.buf = 0)) ∧
    ((optiga_data_recv_ctrl_frame dev rd).1 ≠ 0 →
      ((optiga_data_recv_ctrl_frame dev rd).1 = (optiga_data_recv_common dev rd).1 ∨
        (optiga_data_recv_ctrl_frame dev rd).1 = -EIO_ERRNO)) := by
  have hlen := optiga_data_recv_common_len dev rd
  have hfr := optiga_data_recv_common_frame dev rd
  simp only [optiga_data_recv_ctrl_frame]
  rw [hlen, hfr]
  by_cases h0 : (optiga_data_recv_common dev rd).1 = 0
  · by_cases h1 : rd.len = OPTIGA_DATA_CRTL_FRAME_LEN
    · by_cases h2 : optiga_data_is_ctrl_frame rd.buf = true
      · by_cases h3 : optiga_data_frame_get_len rd.buf = 0
        · simp [h0, h1, h2, h3]
        · simp [h0, h1, h2, h3]
      · simp [h0, h1, h2]
    · simp [h0, h1]
  · simp [h0]

/-! ## Session reservations -/

theorem ATOMIC_MASK_eq (bit : Nat) (h : bit < ATOMIC_BITS) : ATOMIC_MASK bit = 2 ^ bit := by
  unfold ATOMIC_MASK
  have h1 : bit &&& (ATOMIC_BITS - 1) = bit := by
    have := Nat.and_pow_two_sub_one_eq_mod bit 5
    have h5 : (2:Nat) ^ 5 - 1 = ATOMIC_BITS - 1 := by decide
    rw [h5] at this
    rw [this]
    exact Nat.mod_eq_of_lt (by simpa using h)
  rw [h1, Nat.one_shiftLeft]

theorem testBit_atomic_not_two_pow (bit j : Nat) (h : bit < ATOMIC_BITS) :
    (atomic_not (2 ^ bit)).testBit j = (decide (j < ATOMIC_BITS) && decide (j ≠ bit)) := by
  unfold atomic_not
  rw [Nat.testBit_xor, Nat.testBit_two_pow_sub_one, Nat.testBit_two_pow]
  by_cases h1 : j < ATOMIC_BITS <;> by_cases h2 : bit = j
  · subst h2; simp [h1]
  · have h3 : j ≠ bit := fun e => h2 e.symm
    simp [h1, h2, h3]
  · subst h2; exact absurd h h1
  · have h3 : j ≠ bit := fun e => h2 e.symm
    simp [h1, h2, h3]

theorem testBit_lt_of_lt (x j : Nat) (hx : x < 2 ^ ATOMIC_BITS) (hj : ATOMIC_BITS ≤ j) :
    x.testBit j = false := by
  apply Nat.testBit_lt_two_pow
  exact Nat.lt_of_lt_of_le hx (Nat.pow_le_pow_right (by decide) hj)

/-- The effect of `session_acquire` on the mask and its result, bit by bit. -/
theorem session_acquire_bits (dev : optiga_dev) (idx : Nat) (hidx : idx < ATOMIC_BITS) :
    (session_acquire dev idx).1 = !dev.session_reservations.testBit idx ∧
    ∀ j, (session_acquire dev idx).2.session_reservations.testBit j
      = (decide (j = idx) || dev.session_reservations.testBit j) := by
  simp only [session_acquire, atomic_test_and_set_bit, ATOMIC_MASK_eq idx hidx]
  constructor
  · by_cases hb : dev.session_reservations.testBit idx = true
    · have : dev.session_reservations &&& 2 ^ idx ≠ 0 := by
        intro h0
        have := congrArg (fun x => x.testBit idx) h0
        simp [Nat.testBit_and, Nat.testBit_two_pow, hb] at this
      simp [hb, this]
    · have hb' : dev.session_reservations.testBit idx = false := by simpa using hb
      have : dev.session_reservations &&& 2 ^ idx = 0 := by
        apply Nat.eq_of_testBit_eq
        intro j
        rw [Nat.testBit_and, Nat.testBit_two_pow, Nat.zero_testBit]
        by_cases hj : idx = j
        · subst hj; simp [hb']
        · simp [hj]
      simp [hb', this]
  · intro j
    rw [Nat.testBit_or, Nat.testBit_two_pow, Bool.or_comm]
    by_cases hj : idx = j
    · subst hj; simp
    · have : j ≠ idx := fun e => hj e.symm
      simp [hj, this]

/-- The effect of `session_release` on a 32-bit mask, bit by bit. -/
theorem session_release_bits (dev : optiga_dev) (idx : Nat) (hidx : idx < ATOMIC_BITS)
    (hmask : dev.session_reservations < 2 ^ ATOMIC_BITS) (j : Nat) :
    (session_release dev idx).session_reservations.testBit j
      = (decide (j ≠ idx) && dev.session_reservations.testBit j) := by
  simp only [session_release, atomic_clear_bit, ATOMIC_MASK_eq idx hidx]
  rw [Nat.testBit_and, testBit_atomic_not_two_pow idx j hidx]
  by_cases h1 : j < ATOMIC_BITS
  · simp [h1, Bool.and_comm]
  · rw [testBit_lt_of_lt _ j hmask (by omega)]
    simp

/-- C12 (reservation exclusivity): for every 32-bit reservation mask and slot index
below 32, `session_acquire` returns true if and only if the slot's bit was clear
beforehand; afterwards the bit is set and every other bit is unchanged; a second
`session_acquire` of the same slot right after returns false. -/
theorem session_acquire_exclusive (dev : optiga_dev) (idx : Nat) (hidx : idx < ATOMIC_BITS) :
    ((session_acquire dev idx).1 = true ↔ dev.session_reservations.testBit idx = false) ∧
    (session_acquire dev idx).2.session_reservations.testBit idx = true ∧
    (∀ j, j ≠ idx → (session_acquire dev idx).2.session_reservations.testBit j
      = dev.session_reservations.testBit j) ∧
    (session_acquire (session_acquire dev idx).2 idx).1 = false := by
  obtain ⟨h1, h2⟩ := session_acquire_bits dev idx hidx
  obtain ⟨h3, _⟩ := session_acquire_bits (session_acquire dev idx).2 idx hidx
  refine ⟨?_, ?_, ?_, ?_⟩
  · rw [h1]; simp
  · rw [h2]; simp
  · intro j hj
    rw [h2]; simp [hj]
  · rw [h3, h2]; simp

theorem session_acquire_exclusive_witness :
    (session_acquire
      (session_acquire ⟨⟨[], ⟨0, 0, 0⟩, []⟩, true, [], 0, 5, 0, [], true, []⟩ 1).2 1).1 = false :=
  (session_acquire_exclusive ⟨⟨[], ⟨0, 0, 0⟩, []⟩, true, [], 0, 5, 0, [], true, []⟩ 1
    (by decide)).2.2.2

/-- C13 (release is an idempotent clear): for every 32-bit reservation mask and slot
index below 32, `session_release` clears that slot's bit and leaves every other bit
unchanged; on an unheld slot it leaves the mask unchanged; calling it twice equals
calling it once; and a `session_acquire` right after it returns true. -/
theorem session_release_idempotent (dev : optiga_dev) (idx : Nat) (hidx : idx < ATOMIC_BITS)
    (hmask : dev.session_reservations < 2 ^ ATOMIC_BITS) :
    (session_release dev idx).session_reservations.testBit idx = false ∧
    (∀ j, j ≠ idx → (session_release dev idx).session_reservations.testBit j
      = dev.session_reservations.testBit j) ∧
    (dev.session_reservations.testBit idx = false → session_release dev idx = dev) ∧
    session_release (session_release dev idx) idx = session_release dev idx ∧
    (session_acquire (session_release dev idx) idx).1 = true := by
  have hb := session_release_bits dev idx hidx hmask
  have hunheld : ∀ d : optiga_dev, d.session_reservations < 2 ^ ATOMIC_BITS →
      d.session_reservations.testBit idx = false → session_release d idx = d := by
    intro d hd hclear
    have : (session_release d idx).session_reservations = d.session_reservations := by
      apply Nat.eq_of_testBit_eq
      intro j
      rw [session_release_bits d idx hidx hd]
      by_cases hj : j = idx
      · subst hj; simp [hclear]
      · simp [hj]
    simp only [session_release] at this ⊢
    rw [this]
  have hclr : (session_release dev idx).session_reservations.testBit idx = false := by
    rw [hb]; simp
  have hlt : (session_release dev idx).session_reservations < 2 ^ ATOMIC_BITS := by
    simp only [session_release, atomic_clear_bit]
    exact Nat.lt_of_le_of_lt Nat.and_le_left hmask
  refine ⟨hclr, ?_, hunheld dev hmask, hunheld _ hlt hclr, ?_⟩
  · intro j hj
    rw [hb]; simp [hj]
  · rw [(session_acquire_bits _ idx hidx).1, hclr]
    rfl

theorem session_release_idempotent_witness :
    (session_acquire
      (session_release ⟨⟨[], ⟨0, 0, 0⟩, []⟩, true, [], 0, 7, 0, [], true, []⟩ 1) 1).1 = true :=
  (session_release_idempotent ⟨⟨[], ⟨0, 0, 0⟩, []⟩, true, [], 0, 7, 0, [], true, []⟩ 1
    (by decide) (by decide)).2.2.2.2

/-! ## Hibernate and wake -/

theorem memcpy_at_succ (dst : List Nat) (doff : Nat) (src : List Nat) (soff n : Nat) :
    memcpy_at dst doff src soff (n + 1)
      = (memcpy_at dst doff src soff n).set (doff + n) (src.getD (soff + n) 0) := by
  simp [memcpy_at, List.range_succ, List.foldl_append]

theorem memcpy_at_length (dst : List Nat) (doff : Nat) (src : List Nat) (soff n : Nat) :
    (memcpy_at dst doff src soff n).length = dst.length := by
  induction n with
  | zero => simp [memcpy_at]
  | succ n ih => rw [memcpy_at_succ, List.length_set, ih]

theorem memcpy_at_getD (dst : List Nat) (doff : Nat) (src : List Nat) (soff n j : Nat) :
    (memcpy_at dst doff src soff n).getD j 0
      = if doff ≤ j ∧ j < doff + n ∧ j < dst.length then src.getD (soff + (j - doff)) 0
        else dst.getD j 0 := by
  induction n with
  | zero =>
    have : ¬ (doff ≤ j ∧ j < doff + 0 ∧ j < dst.length) := by omega
    rw [if_neg this]
    simp [memcpy_at]
  | succ n ih =>
    rw [memcpy_at_succ, getD_set_eq, memcpy_at_length, ih]
    by_cases h1 : doff + n = j
    · subst h1
      by_cases h2 : doff + n < dst.length
      · rw [if_pos ⟨rfl, h2⟩, if_pos ⟨by omega, by omega, h2⟩]
        congr 1
        omega
      · rw [if_neg (by omega), if_neg (by omega), if_neg (by omega)]
    · rw [if_neg (by omega)]
      by_cases h3 : doff ≤ j ∧ j < doff + n ∧ j < dst.length
      · rw [if_pos h3, if_pos ⟨h3.1, by omega, h3.2.2⟩]
      · rw [if_neg h3, if_neg (by omega)]

theorem ctx_handle_of_getD (buf : List Nat) (j : Nat) (hj : j < OPTIGA_CTX_HANDLE_LEN) :
    (ctx_handle_of buf).getD j 0 = buf.getD (OPTIGA_APDU_OUT_DATA_OFFSET + j) 0 := by
  have h8 : OPTIGA_CTX_HANDLE_LEN = 8 := rfl
  interval_cases j <;> rfl

theorem ctx_handle_of_length (buf : List Nat) :
    (ctx_handle_of buf).length = OPTIGA_CTX_HANDLE_LEN := by
  simp [ctx_handle_of]

/-- Copying a whole context handle out of an APDU buffer. -/
theorem memcpy_at_handle (handle buf : List Nat) (h : handle.length = OPTIGA_CTX_HANDLE_LEN) :
    memcpy_at handle 0 buf OPTIGA_APDU_OUT_DATA_OFFSET OPTIGA_CTX_HANDLE_LEN
      = ctx_handle_of buf := by
  apply list_ext_getD
  · rw [memcpy_at_length, h, ctx_handle_of_length]
  · intro j hj
    rw [memcpy_at_length, h] at hj
    rw [memcpy_at_getD, if_pos ⟨by omega, by omega, by omega⟩, ctx_handle_of_getD _ _ hj]
    rfl

theorem sent_apdus_append (t u : List drv_op) :
    sent_apdus (t ++ u) = sent_apdus t ++ sent_apdus u := by
  simp [sent_apdus, List.filterMap_append]

theorem close_command_bytes (handle : Bool) :
    (if handle then
        (memcpy_at (List.replicate (OPTIGA_CTX_HANDLE_LEN + OPTIGA_APDU_OUT_DATA_OFFSET) 0) 0
          optiga_close_application_apdu 0 OPTIGA_CLOSE_APPLICATION_LEN).set
          OPTIGA_APDU_PARAM_OFFS OPTIGA_CLOSE_APP_PARAM_HIBERNATE
      else
        memcpy_at (List.replicate (OPTIGA_CTX_HANDLE_LEN + OPTIGA_APDU_OUT_DATA_OFFSET) 0) 0
          optiga_close_application_apdu 0 OPTIGA_CLOSE_APPLICATION_LEN).take
      OPTIGA_CLOSE_APPLICATION_LEN
      = close_command (if handle then 1 else 0) := by
  cases handle <;> decide

/-- `optiga_close_application` sends exactly one APDU, the CloseApplication command
whose param byte is 1 with a handle and 0 without. -/
theorem optiga_close_application_sent (dev : optiga_dev) (handle : Bool) (snd : ext_call)
    (rcv : apdu_recv) :
    sent_apdus (optiga_close_application dev handle snd rcv).2.trace
      = sent_apdus dev.trace ++ [close_command (if handle then 1 else 0)] := by
  simp only [optiga_close_application, optiga_send_apdu, optiga_recv_apdu,
    close_command_bytes handle]
  split_ifs <;> simp [sent_apdus]

/-- Without a handle `optiga_close_application` leaves the stored handle as it is. -/
theorem optiga_close_application_handle_kept (dev : optiga_dev) (snd : ext_call)
    (rcv : apdu_recv) :
    (optiga_close_application dev false snd rcv).2.hibernate_handle = dev.hibernate_handle := by
  simp only [optiga_close_application, optiga_send_apdu, optiga_recv_apdu,
    Bool.false_eq_true, if_false]
  split_ifs <;> rfl

/-- With a handle, a successful send and a successful receive of 12 bytes,
`optiga_close_application` returns 0 and stores bytes 4..11 of the response. -/
theorem optiga_close_application_saved (dev : optiga_dev) (snd : ext_call) (rcv : apdu_recv)
    (hsnd : snd.err = 0) (hrcv : rcv.err = 0)
    (hlen : rcv.len = OPTIGA_CTX_HANDLE_LEN + OPTIGA_APDU_OUT_DATA_OFFSET)
    (hh : dev.hibernate_handle.length = OPTIGA_CTX_HANDLE_LEN) :
    (optiga_close_application dev true snd rcv).1 = 0 ∧
    (optiga_close_application dev true snd rcv).2.hibernate_handle = ctx_handle_of rcv.buf ∧
    (optiga_close_application dev true snd rcv).2.open_ = false := by
  have h4 : ¬ (rcv.len = OPTIGA_APDU_OUT_DATA_OFFSET) := by
    rw [hlen]; decide
  simp only [optiga_close_application, optiga_send_apdu, optiga_recv_apdu, hsnd, hrcv, hlen]
  simp [memcpy_at_handle _ _ hh]

theorem testBit_BIT_MASK (n j : Nat) : (BIT_MASK n).testBit j = decide (j < n) := by
  unfold BIT_MASK
  rw [Nat.one_shiftLeft, Nat.testBit_two_pow_sub_one]

theorem ne_zero_iff_testBit (x : Nat) : x ≠ 0 ↔ ∃ j, x.testBit j = true := by
  constructor
  · exact Nat.ne_zero_implies_bit_true
  · rintro ⟨j, hj⟩ h0
    rw [h0, Nat.zero_testBit] at hj
    exact absurd hj (by decide)

/-- A wake lock is a held slot outside the ignore mask. -/
theorem wake_locks_ne_zero_iff (cfg : optiga_kconfig) (r : Nat) (hr : r < 2 ^ ATOMIC_BITS) :
    wake_locks cfg r ≠ 0 ↔ ∃ j, cfg.wake_lock_ignored_sessions ≤ j ∧ r.testBit j = true := by
  rw [ne_zero_iff_testBit]
  have hbit : ∀ j, (wake_locks cfg r).testBit j
      = (r.testBit j && !decide (j < cfg.wake_lock_ignored_sessions)) := by
    intro j
    unfold wake_locks atomic_not OPTIGA_IGNORE_HIBERNATE_MASK
    rw [Nat.testBit_and, Nat.testBit_xor, Nat.testBit_two_pow_sub_one, testBit_BIT_MASK]
    by_cases h1 : j < ATOMIC_BITS
    · simp [h1]
    · rw [testBit_lt_of_lt r j hr (by omega)]
      simp
  constructor
  · rintro ⟨j, hj⟩
    rw [hbit] at hj
    simp only [Bool.and_eq_true, Bool.not_eq_true', decide_eq_false_iff_not] at hj
    exact ⟨j, by omega, hj.1⟩
  · rintro ⟨j, h1, h2⟩
    refine ⟨j, ?_⟩
    rw [hbit, h2]
    simp
    omega

/-- A context to save is a held slot inside the ignore mask. -/
theorem save_ctx_iff (cfg : optiga_kconfig) (r : Nat) :
    (r &&& OPTIGA_IGNORE_HIBERNATE_MASK cfg) ≠ 0
      ↔ ∃ j, j < cfg.wake_lock_ignored_sessions ∧ r.testBit j = true := by
  rw [ne_zero_iff_testBit]
  unfold OPTIGA_IGNORE_HIBERNATE_MASK
  constructor
  · rintro ⟨j, hj⟩
    rw [Nat.testBit_and, testBit_BIT_MASK] at hj
    simp only [Bool.and_eq_true, decide_eq_true_eq] at hj
    exact ⟨j, hj.2, hj.1⟩
  · rintro ⟨j, h1, h2⟩
    refine ⟨j, ?_⟩
    rw [Nat.testBit_and, testBit_BIT_MASK, h2]
    simp [h1]

theorem open_command_bytes (handle : List Nat) :
    (memcpy_at
      (sys_put_be16 OPTIGA_OPEN_APP_LENGTH
        ((memcpy_at (List.replicate OPTIGA_RESTORE_APPLICATION_LEN 0) 0
            optiga_open_application_apdu 0 OPTIGA_OPEN_APPLICATION_LEN).set
          OPTIGA_APDU_PARAM_OFFS OPTIGA_OPEN_APP_PARAM_RESTORE)
        OPTIGA_APDU_LEN_OFFS)
      OPTIGA_OPEN_APPLICATION_LEN handle 0 OPTIGA_CTX_HANDLE_LEN).take
        OPTIGA_RESTORE_APPLICATION_LEN
      = restore_command handle ∧
    (memcpy_at (List.replicate OPTIGA_RESTORE_APPLICATION_LEN 0) 0
        optiga_open_application_apdu 0 OPTIGA_OPEN_APPLICATION_LEN).take
        OPTIGA_OPEN_APPLICATION_LEN
      = optiga_open_application_apdu := by
  constructor <;> rfl

/-- `optiga_open_application` sends exactly one APDU: the plain OpenApplication
command without a handle, the restore command with the stored handle otherwise. -/
theorem optiga_open_application_sent (dev : optiga_dev) (handle : Bool) (snd : ext_call)
    (rcv : apdu_recv) :
    sent_apdus (optiga_open_application dev handle snd rcv).2.trace
      = sent_apdus dev.trace ++
        [if handle then restore_command dev.hibernate_handle
          else optiga_open_application_apdu] := by
  obtain ⟨h1, h2⟩ := open_command_bytes dev.hibernate_handle
  cases handle
  · simp only [optiga_open_application, optiga_send_apdu, optiga_recv_apdu, Bool.not_false,
      Bool.false_eq_true, if_false, if_true, h2]
    split_ifs <;> simp [sent_apdus]
  · simp only [optiga_open_application, optiga_send_apdu, optiga_recv_apdu, Bool.not_true,
      Bool.false_eq_true, if_false, if_true, h1]
    split_ifs <;> simp [sent_apdus]

theorem optiga_hibernate_blocked (cfg : optiga_kconfig) (dev : optiga_dev) (e : hibernate_env)
    (h : wake_locks cfg dev.session_reservations ≠ 0) : optiga_hibernate cfg dev e = dev := by
  simp only [optiga_hibernate]
  rw [if_pos h]

theorem optiga_hibernate_sent (cfg : optiga_kconfig) (dev : optiga_dev) (e : hibernate_env)
    (h : wake_locks cfg dev.session_reservations = 0) :
    sent_apdus (optiga_hibernate cfg dev e).trace
      = sent_apdus dev.trace ++
        [close_command
          (if (dev.session_reservations &&& OPTIGA_IGNORE_HIBERNATE_MASK cfg) != 0
            then 1 else 0)] := by
  have hc := optiga_close_application_sent dev
    ((dev.session_reservations &&& OPTIGA_IGNORE_HIBERNATE_MASK cfg) != 0) e.close_snd e.close_rcv
  simp only [optiga_hibernate, h, ne_eq, not_true_eq_false, if_false, optiga_power, ext_invoke]
  generalize optiga_close_application dev
    ((dev.session_reservations &&& OPTIGA_IGNORE_HIBERNATE_MASK cfg) != 0)
    e.close_snd e.close_rcv = c at hc ⊢
  obtain ⟨res, d⟩ := c
  simp only at hc ⊢
  rw [← hc]
  split_ifs <;> simp [sent_apdus]

theorem optiga_hibernate_handle (cfg : optiga_kconfig) (dev : optiga_dev) (e : hibernate_env) :
    (optiga_hibernate cfg dev e).hibernate_handle
      = if wake_locks cfg dev.session_reservations ≠ 0 then dev.hibernate_handle
        else (optiga_close_application dev
          ((dev.session_reservations &&& OPTIGA_IGNORE_HIBERNATE_MASK cfg) != 0)
          e.close_snd e.close_rcv).2.hibernate_handle := by
  simp only [optiga_hibernate, optiga_power, ext_invoke]
  split_ifs <;> rfl

theorem optiga_power_snd (dev : optiga_dev) (enable : Bool) (ret : Int) :
    (optiga_power dev enable ret).2 = { dev with trace := dev.trace ++ [drv_op.power enable] } := by
  simp only [optiga_power]
  split_ifs <;> rfl

/-- When the stack comes up, `optiga_wakup` sends exactly one APDU: the restore command
with the stored handle if an ignore-masked slot is held at that moment, the plain
OpenApplication command otherwise. -/
theorem optiga_wakup_sent (cfg : optiga_kconfig) (dev : optiga_dev) (e : wakup_env)
    (hphy : e.phy.err = 0) (hnet : e.nettran.err = 0) :
    sent_apdus (optiga_wakup cfg dev e).2.trace
      = sent_apdus dev.trace ++
        [if (dev.session_reservations &&& OPTIGA_IGNORE_HIBERNATE_MASK cfg) != 0
          then restore_command dev.hibernate_handle else optiga_open_application_apdu] := by
  simp only [optiga_wakup, optiga_power_snd, ext_invoke, drv_data_init, optiga_data_init, hphy,
    hnet, ne_eq, not_true_eq_false, if_false]
  by_cases hs : (cfg.shielded_connection && dev.shield_state == OPTIGA_PRES_ENABLED) = true
  · rw [if_pos hs]
    by_cases hr : e.restore_ctx.err = 0
    · simp only [hr, ne_eq, not_true_eq_false, if_false]
      rw [optiga_open_application_sent]
      simp [sent_apdus]
    · simp only [hr, ne_eq, not_false_eq_true, if_true]
      rw [optiga_open_application_sent]
      simp [sent_apdus]
  · rw [if_neg hs]
    rw [optiga_open_application_sent]
    simp [sent_apdus]

/-- C14 (hibernate gating): `optiga_hibernate` sends the CloseApplication command if
and only if `(r & ~OPTIGA_IGNORE_HIBERNATE_MASK) == 0` for the reservation mask `r`; when
a slot outside the ignore mask is held it leaves the driver state as it is (no bus I/O,
no power-down, open flag kept), and the worker, with the application open, goes from
`WORKER_HIBERNATE` to `WORKER_IDLE`. -/
theorem hibernate_gating (cfg : optiga_kconfig) (w : worker) (e : worker_env)
    (hr : w.dev.session_reservations < 2 ^ ATOMIC_BITS) :
    (sent_apdus (optiga_hibernate cfg w.dev e.hib).trace ≠ sent_apdus w.dev.trace
      ↔ wake_locks cfg w.dev.session_reservations = 0) ∧
    (wake_locks cfg w.dev.session_reservations = 0 →
      ∃ param, sent_apdus (optiga_hibernate cfg w.dev e.hib).trace
        = sent_apdus w.dev.trace ++ [close_command param]) ∧
    ((∃ j, cfg.wake_lock_ignored_sessions ≤ j ∧ w.dev.session_reservations.testBit j = true) →
      optiga_hibernate cfg w.dev e.hib = w.dev ∧
      (w.state = WORKER_STATE.WORKER_HIBERNATE → w.dev.open_ = true →
        optiga_worker_step cfg w e = { w with state := WORKER_STATE.WORKER_IDLE })) := by
  refine ⟨?_, ?_, ?_⟩
  · by_cases h : wake_locks cfg w.dev.session_reservations = 0
    · rw [optiga_hibernate_sent cfg w.dev e.hib h]
      simp [h]
    · rw [optiga_hibernate_blocked cfg w.dev e.hib h]
      simp [h]
  · intro h
    exact ⟨_, optiga_hibernate_sent cfg w.dev e.hib h⟩
  · intro hheld
    have hb := (wake_locks_ne_zero_iff cfg _ hr).mpr hheld
    have hd := optiga_hibernate_blocked cfg w.dev e.hib hb
    refine ⟨hd, ?_⟩
    intro hst hopen
    simp only [optiga_worker_step, hst, hd, hopen, if_true]

theorem hibernate_gating_witness :
    optiga_hibernate ⟨false, 4⟩ (sample_dev 0x11) sample_env.hib = sample_dev 0x11 :=
  ((hibernate_gating ⟨false, 4⟩ ⟨WORKER_STATE.WORKER_HIBERNATE, none, 0, sample_dev 0x11⟩
    sample_env (by decide)).2.2 ⟨4, by decide, by decide⟩).1

/-- When hibernate is not blocked and an ignore-masked slot is held, a successful
CloseApplication exchange with a 12-byte response leaves bytes 4..11 of the response in
the hibernate handle. -/
theorem optiga_hibernate_saves (cfg : optiga_kconfig) (dev : optiga_dev) (e : hibernate_env)
    (hfree : wake_locks cfg dev.session_reservations = 0)
    (hheld : (dev.session_reservations &&& OPTIGA_IGNORE_HIBERNATE_MASK cfg) ≠ 0)
    (h1 : e.close_snd.err = 0) (h2 : e.close_rcv.err = 0)
    (h3 : e.close_rcv.len = OPTIGA_CTX_HANDLE_LEN + OPTIGA_APDU_OUT_DATA_OFFSET)
    (h4 : dev.hibernate_handle.length = OPTIGA_CTX_HANDLE_LEN) :
    (optiga_hibernate cfg dev e).hibernate_handle = ctx_handle_of e.close_rcv.buf := by
  have hh := optiga_hibernate_handle cfg dev e
  rw [if_neg (by simp [hfree])] at hh
  have hb : ((dev.session_reservations &&& OPTIGA_IGNORE_HIBERNATE_MASK cfg) != 0) = true := by
    simpa using hheld
  rw [hb] at hh
  rw [hh]
  exact (optiga_close_application_saved dev e.close_snd e.close_rcv h1 h2 h3 h4).2.1

/-- C15 (context save decision): when hibernate is not blocked, `optiga_hibernate` sends
CloseApplication with param byte 0x01 if and only if a held slot lies inside
`OPTIGA_IGNORE_HIBERNATE_MASK`, and then, on a successful exchange with a 12-byte
response, captures bytes 4..11 of the response in the hibernate handle; with no such
slot it sends the plain command (param 0x00) and leaves the stored handle unchanged. -/
theorem context_save_decision (cfg : optiga_kconfig) (dev : optiga_dev) (e : hibernate_env)
    (hfree : wake_locks cfg dev.session_reservations = 0) :
    ((∃ j, j < cfg.wake_lock_ignored_sessions ∧ dev.session_reservations.testBit j = true) →
      sent_apdus (optiga_hibernate cfg dev e).trace
        = sent_apdus dev.trace ++ [close_command 0x01] ∧
      (e.close_snd.err = 0 → e.close_rcv.err = 0 →
        e.close_rcv.len = OPTIGA_CTX_HANDLE_LEN + OPTIGA_APDU_OUT_DATA_OFFSET →
        dev.hibernate_handle.length = OPTIGA_CTX_HANDLE_LEN →
        (optiga_hibernate cfg dev e).hibernate_handle = ctx_handle_of e.close_rcv.buf)) ∧
    ((¬ ∃ j, j < cfg.wake_lock_ignored_sessions ∧ dev.session_reservations.testBit j = true) →
      sent_apdus (optiga_hibernate cfg dev e).trace
        = sent_apdus dev.trace ++ [close_command 0x00] ∧
      (optiga_hibernate cfg dev e).hibernate_handle = dev.hibernate_handle) := by
  have hs := optiga_hibernate_sent cfg dev e hfree
  have hh := optiga_hibernate_handle cfg dev e
  rw [if_neg (by simp [hfree])] at hh
  constructor
  · intro hheld
    have hne := (save_ctx_iff cfg dev.session_reservations).mpr hheld
    have hb : ((dev.session_reservations &&& OPTIGA_IGNORE_HIBERNATE_MASK cfg) != 0) = true := by
      simpa using hne
    rw [hb] at hs hh
    refine ⟨by simpa using hs, ?_⟩
    intro h1 h2 h3 h4
    rw [hh]
    exact (optiga_close_application_saved dev e.close_snd e.close_rcv h1 h2 h3 h4).2.1
  · intro hnone
    have hz : dev.session_reservations &&& OPTIGA_IGNORE_HIBERNATE_MASK cfg = 0 := by
      by_contra hne
      exact hnone ((save_ctx_iff cfg dev.session_reservations).mp hne)
    have hb : ((dev.session_reservations &&& OPTIGA_IGNORE_HIBERNATE_MASK cfg) != 0) = false := by
      simp [hz]
    rw [hb] at hs hh
    refine ⟨by simpa using hs, ?_⟩
    rw [hh]
    exact optiga_close_application_handle_kept dev e.close_snd e.close_rcv

theorem context_save_decision_witness :
    sent_apdus (optiga_hibernate ⟨false, 4⟩ (sample_dev 0x02)
        (sample_hib [0, 0, 0, 8, 1, 2, 3, 4, 5, 6, 7, 8])).trace
      = sent_apdus (sample_dev 0x02).trace ++ [close_command 0x01] :=
  ((context_save_decision ⟨false, 4⟩ (sample_dev 0x02)
    (sample_hib [0, 0, 0, 8, 1, 2, 3, 4, 5, 6, 7, 8]) (by decide)).1
      ⟨1, by decide, by decide⟩).1

theorem restore_command_parts (buf : List Nat) :
    (restore_command (ctx_handle_of buf)).length = 28 ∧
    (restore_command (ctx_handle_of buf)).getD OPTIGA_APDU_PARAM_OFFS 0 = 0x01 ∧
    sys_get_be16 (restore_command (ctx_handle_of buf)) OPTIGA_APDU_LEN_OFFS = 24 ∧
    (restore_command (ctx_handle_of buf)).take 1 = optiga_open_application_apdu.take 1 ∧
    ((restore_command (ctx_handle_of buf)).drop 4).take 16
      = optiga_open_application_apdu.drop 4 ∧
    (restore_command (ctx_handle_of buf)).drop 20 = ctx_handle_of buf := by
  refine ⟨rfl, rfl, ?_, rfl, rfl, rfl⟩
  show ((0 <<< 8) ||| 24) % 65536 = 24
  decide

/-- C16 (the hibernate context is restored bit-identically): if an ignore-masked slot
is held at hibernate and at wake (the mask and the shield state may have changed in
between), CloseApplication was exchanged successfully with a 12-byte response and the
stack comes up at wake, then `optiga_wakup` sends one command, which is 28 bytes long,
has param byte 0x01 and big-endian length field 24, starts with the command code of the
plain OpenApplication command, carries its 16-byte application identifier, and ends
with bytes 4..11 of that CloseApplication response. -/
theorem hibernate_context_restored (cfg : optiga_kconfig) (dev : optiga_dev)
    (eh : hibernate_env) (r_wake s_wake : Nat) (ew : wakup_env)
    (hfree : wake_locks cfg dev.session_reservations = 0)
    (hheld : (dev.session_reservations &&& OPTIGA_IGNORE_HIBERNATE_MASK cfg) ≠ 0)
    (hsnd : eh.close_snd.err = 0) (hrcv : eh.close_rcv.err = 0)
    (hlen : eh.close_rcv.len = OPTIGA_CTX_HANDLE_LEN + OPTIGA_APDU_OUT_DATA_OFFSET)
    (hh : dev.hibernate_handle.length = OPTIGA_CTX_HANDLE_LEN)
    (hwake : (r_wake &&& OPTIGA_IGNORE_HIBERNATE_MASK cfg) ≠ 0)
    (hphy : ew.phy.err = 0) (hnet : ew.nettran.err = 0) :
    let asleep : optiga_dev :=
      { optiga_hibernate cfg dev eh with session_reservations := r_wake, shield_state := s_wake }
    let cmd := restore_command (ctx_handle_of eh.close_rcv.buf)
    sent_apdus (optiga_wakup cfg asleep ew).2.trace = sent_apdus asleep.trace ++ [cmd] ∧
    cmd.length = 28 ∧
    cmd.getD OPTIGA_APDU_PARAM_OFFS 0 = 0x01 ∧
    sys_get_be16 cmd OPTIGA_APDU_LEN_OFFS = 24 ∧
    cmd.take 1 = optiga_open_application_apdu.take 1 ∧
    (cmd.drop 4).take 16 = optiga_open_application_apdu.drop 4 ∧
    cmd.drop 20 = ctx_handle_of eh.close_rcv.buf := by
  intro asleep cmd
  have hsaved := optiga_hibernate_saves cfg dev eh hfree hheld hsnd hrcv hlen hh
  have hw := optiga_wakup_sent cfg asleep ew hphy hnet
  have hb : ((asleep.session_reservations &&& OPTIGA_IGNORE_HIBERNATE_MASK cfg) != 0) = true := by
    simpa [asleep] using hwake
  have hhandle : asleep.hibernate_handle = ctx_handle_of eh.close_rcv.buf := hsaved
  rw [hb, hhandle] at hw
  obtain ⟨p1, p2, p3, p4, p5, p6⟩ := restore_command_parts eh.close_rcv.buf
  exact ⟨by simpa using hw, p1, p2, p3, p4, p5, p6⟩

theorem hibernate_context_restored_witness :
    sent_apdus (optiga_wakup ⟨false, 4⟩
        { optiga_hibernate ⟨false, 4⟩ (sample_dev 0x02)
            (sample_hib [0, 0, 0, 8, 1, 2, 3, 4, 5, 6, 7, 8]) with
          session_reservations := 0x03, shield_state := 0 }
        sample_wake).2.trace
      = sent_apdus ({ optiga_hibernate ⟨false, 4⟩ (sample_dev 0x02)
            (sample_hib [0, 0, 0, 8, 1, 2, 3, 4, 5, 6, 7, 8]) with
          session_reservations := 0x03, shield_state := 0 } : optiga_dev).trace
        ++ [restore_command (ctx_handle_of (sample_hib [0, 0, 0, 8, 1, 2, 3, 4, 5, 6, 7, 8]).close_rcv.buf)] :=
  (hibernate_context_restored ⟨false, 4⟩ (sample_dev 0x02)
    (sample_hib [0, 0, 0, 8, 1, 2, 3, 4, 5, 6, 7, 8]) 0x03 0 sample_wake
    (by decide) (by decide) (by decide) (by decide) (by decide) (by decide) (by decide)
    (by decide) (by decide)).1

/-- C17 fails on the code. With no slot held at hibernate, `optiga_hibernate` sends
the plain CloseApplication command and saves nothing; a caller then acquires slot 0
while the chip is powered down, and `optiga_wakup` sends the restore command with the
handle that was never written (here still all zero). Conversely, with slot 0 held at
hibernate the context is saved into the handle, and after the caller released the slot
`optiga_wakup` sends the plain OpenApplication command. -/
theorem restore_decided_at_wake :
    sent_apdus (optiga_hibernate ⟨false, 4⟩ (sample_dev 0) (sample_hib [0, 0, 0, 0])).trace
      = [close_command 0x00] ∧
    (optiga_hibernate ⟨false, 4⟩ (sample_dev 0) (sample_hib [0, 0, 0, 0])).hibernate_handle
      = [0, 0, 0, 0, 0, 0, 0, 0] ∧
    sent_apdus (optiga_wakup ⟨false, 4⟩
        (session_acquire
          (optiga_hibernate ⟨false, 4⟩ (sample_dev 0) (sample_hib [0, 0, 0, 0])) 0).2
        sample_wake).2.trace
      = [close_command 0x00, restore_command [0, 0, 0, 0, 0, 0, 0, 0]] ∧
    sent_apdus (optiga_hibernate ⟨false, 4⟩ (sample_dev 1)
        (sample_hib [0, 0, 0, 8, 1, 2, 3, 4, 5, 6, 7, 8])).trace
      = [close_command 0x01] ∧
    (optiga_hibernate ⟨false, 4⟩ (sample_dev 1)
        (sample_hib [0, 0, 0, 8, 1, 2, 3, 4, 5, 6, 7, 8])).hibernate_handle
      = [1, 2, 3, 4, 5, 6, 7, 8] ∧
    sent_apdus (optiga_wakup ⟨false, 4⟩
        (session_release
          (optiga_hibernate ⟨false, 4⟩ (sample_dev 1)
            (sample_hib [0, 0, 0, 8, 1, 2, 3, 4, 5, 6, 7, 8])) 0)
        sample_wake).2.trace
      = [close_command 0x01, optiga_open_application_apdu] := by
  decide

/-! ## The worker: `WORKER_RESET_LOCK` -/

theorem k_fifo_get_forever (dev : optiga_dev) (timed : Option optiga_apdu)
    (forever : optiga_apdu) :
    ∃ a q, k_fifo_get dev k_timeout.K_FOREVER timed forever
      = (some a, { dev with apdu_queue := q,
                            trace := dev.trace ++ [drv_op.fifo_get (some a.id)] }) := by
  unfold k_fifo_get
  cases hq : dev.apdu_queue with
  | nil => exact ⟨forever, [], rfl⟩
  | cons a q => exact ⟨a, q, rfl⟩

/-- One iteration in `WORKER_RESET_LOCK`: an APDU is taken and signalled with `-EIO`,
nothing else happens. -/
theorem worker_step_reset_lock (cfg : optiga_kconfig) (w : worker) (e : worker_env)
    (h : w.state = WORKER_STATE.WORKER_RESET_LOCK) :
    ∃ a q, optiga_worker_step cfg w e
      = { w with apdu := some a,
                 dev := { w.dev with
                   apdu_queue := q,
                   trace := w.dev.trace ++ lock_trace [a.id] } } := by
  obtain ⟨a, q, hg⟩ := k_fifo_get_forever w.dev e.timed e.forever
  refine ⟨a, q, ?_⟩
  simp only [optiga_worker_step, h, hg, k_poll_signal_raise, lock_trace, List.append_assoc,
    List.singleton_append]

theorem lock_trace_append (a b : List Nat) :
    lock_trace (a ++ b) = lock_trace a ++ lock_trace b := by
  induction a with
  | nil => rfl
  | cons x a ih => simp [lock_trace, ih]

/-- C19 (`WORKER_RESET_LOCK` is absorbing): from `WORKER_RESET_LOCK`, after any number of
further iterations the state is still `WORKER_RESET_LOCK`; the trace has grown by one
`k_fifo_get` and one `k_poll_signal_raise(-EIO)` per iteration, for the APDU taken, and
by nothing else (no bus, power or stack-init call); the layers below (with the
data-link counters), the reset counter, the open flag, the shield state, the
reservation mask and the hibernate handle are unchanged. -/
theorem reset_lock_absorbing (cfg : optiga_kconfig) (es : List worker_env) :
    ∀ w : worker, w.state = WORKER_STATE.WORKER_RESET_LOCK →
    (worker_iterate cfg w es).state = WORKER_STATE.WORKER_RESET_LOCK ∧
    (∃ ids : List Nat, ids.length = es.length ∧
      (worker_iterate cfg w es).dev.trace = w.dev.trace ++ lock_trace ids) ∧
    (worker_iterate cfg w es).dev.dl = w.dev.dl ∧
    (worker_iterate cfg w es).dev.reset_counter = w.dev.reset_counter ∧
    (worker_iterate cfg w es).dev.open_ = w.dev.open_ ∧
    (worker_iterate cfg w es).dev.shield_state = w.dev.shield_state ∧
    (worker_iterate cfg w es).dev.session_reservations = w.dev.session_reservations ∧
    (worker_iterate cfg w es).dev.hibernate_handle = w.dev.hibernate_handle := by
  induction es with
  | nil =>
    intro w h
    exact ⟨h, ⟨[], rfl, by simp [worker_iterate, lock_trace]⟩, rfl, rfl, rfl, rfl, rfl, rfl⟩
  | cons e es ih =>
    intro w h
    obtain ⟨a, q, hstep⟩ := worker_step_reset_lock cfg w e h
    have hw : worker_iterate cfg w (e :: es)
        = worker_iterate cfg (optiga_worker_step cfg w e) es := rfl
    rw [hw]
    obtain ⟨i1, ⟨ids, i2, i3⟩, i4, i5, i6, i7, i8, i9⟩ :=
      ih (optiga_worker_step cfg w e) (by rw [hstep]; exact h)
    have s3 : (optiga_worker_step cfg w e).dev.trace = w.dev.trace ++ lock_trace [a.id] := by
      rw [hstep]
    have s4 : (optiga_worker_step cfg w e).dev.dl = w.dev.dl := by rw [hstep]
    have s5 : (optiga_worker_step cfg w e).dev.reset_counter = w.dev.reset_counter := by
      rw [hstep]
    have s6 : (optiga_worker_step cfg w e).dev.open_ = w.dev.open_ := by rw [hstep]
    have s7 : (optiga_worker_step cfg w e).dev.shield_state = w.dev.shield_state := by
      rw [hstep]
    have s8 : (optiga_worker_step cfg w e).dev.session_reservations
        = w.dev.session_reservations := by rw [hstep]
    have s9 : (optiga_worker_step cfg w e).dev.hibernate_handle = w.dev.hibernate_handle := by
      rw [hstep]
    refine ⟨i1, ⟨a.id :: ids, by simp [i2], ?_⟩, i4.trans s4, i5.trans s5, i6.trans s6,
      i7.trans s7, i8.trans s8, i9.trans s9⟩
    rw [i3, s3]
    simp [lock_trace]

theorem reset_lock_absorbing_witness :
    (worker_iterate ⟨true, 4⟩ ⟨WORKER_STATE.WORKER_RESET_LOCK, none, 0, sample_dev 0⟩
      [sample_env, sample_env]).state = WORKER_STATE.WORKER_RESET_LOCK :=
  (reset_lock_absorbing ⟨true, 4⟩ [sample_env, sample_env]
    ⟨WORKER_STATE.WORKER_RESET_LOCK, none, 0, sample_dev 0⟩ rfl).1

/-! ## The worker: bounded recovery -/

theorem k_fifo_get_fields (dev : optiga_dev) (t : k_timeout) (timed : Option optiga_apdu)
    (forever : optiga_apdu) :
    (k_fifo_get dev t timed forever).2.reset_counter = dev.reset_counter ∧
    (k_fifo_get dev t timed forever).2.shield_state = dev.shield_state ∧
    (k_fifo_get dev t timed forever).2.gpio = dev.gpio ∧
    (k_fifo_get dev t timed forever).2.open_ = dev.open_ :=
  ⟨rfl, rfl, rfl, rfl⟩

/-- `WORKER_IDLE` with an arriving APDU: the worker holds it in `WORKER_PROCESS_APDU`. -/
theorem worker_step_idle_take (cfg : optiga_kconfig) (w : worker) (e : worker_env)
    (h : w.state = WORKER_STATE.WORKER_IDLE) (ha : apdu_arrives w e) :
    (optiga_worker_step cfg w e).state = WORKER_STATE.WORKER_PROCESS_APDU ∧
    (optiga_worker_step cfg w e).apdu ≠ none ∧
    (optiga_worker_step cfg w e).dev.reset_counter = w.dev.reset_counter ∧
    (optiga_worker_step cfg w e).dev.shield_state = w.dev.shield_state := by
  unfold apdu_arrives at ha
  simp only [optiga_worker_step, h]
  cases hg : (k_fifo_get w.dev (if w.dev.gpio then k_timeout.K_MSEC else k_timeout.K_FOREVER)
      e.timed e.forever).1 with
  | none => exact absurd hg ha
  | some a => exact ⟨rfl, by simp, rfl, rfl⟩

theorem optiga_transfer_apdu_err (dev : optiga_dev) (apdu : optiga_apdu) (snd : ext_call)
    (rcv : apdu_recv) :
    (optiga_transfer_apdu dev apdu snd rcv).1 = if snd.err ≠ 0 then snd.err else rcv.err := by
  simp only [optiga_transfer_apdu, optiga_send_apdu, optiga_recv_apdu]
  split_ifs <;> rfl

theorem optiga_transfer_apdu_fields (dev : optiga_dev) (apdu : optiga_apdu) (snd : ext_call)
    (rcv : apdu_recv) :
    (optiga_transfer_apdu dev apdu snd rcv).2.2.reset_counter = dev.reset_counter ∧
    (optiga_transfer_apdu dev apdu snd rcv).2.1.id = apdu.id := by
  simp only [optiga_transfer_apdu, optiga_send_apdu, optiga_recv_apdu]
  split_ifs <;> exact ⟨rfl, rfl⟩

/-- A failing transfer: the APDU is signalled with the error, the worker goes to
`WORKER_RESET` and the reset counter is not touched. -/
theorem worker_transfer_fails (cfg : optiga_kconfig) (w : worker) (apdu : optiga_apdu)
    (e : worker_env) (hf : transfer_fails e) :
    (worker_transfer cfg w apdu e).state = WORKER_STATE.WORKER_RESET ∧
    (worker_transfer cfg w apdu e).apdu = none ∧
    (worker_transfer cfg w apdu e).dev.reset_counter = w.dev.reset_counter := by
  have herr := optiga_transfer_apdu_err w.dev apdu e.transfer_snd e.transfer_rcv
  have hne : (optiga_transfer_apdu w.dev apdu e.transfer_snd e.transfer_rcv).1 ≠ 0 := by
    rw [herr]
    unfold transfer_fails at hf
    split_ifs with h1
    · exact h1
    · rcases hf with h | h
      · exact absurd h h1
      · exact h
  have hrc := (optiga_transfer_apdu_fields w.dev apdu e.transfer_snd e.transfer_rcv).1
  simp only [worker_transfer, hne, ne_eq, not_false_eq_true, if_true, k_poll_signal_raise]
  simpa using hrc

/-- `WORKER_PROCESS_APDU` with a transfer that is reached and fails. -/
theorem worker_step_process_fails (cfg : optiga_kconfig) (w : worker) (e : worker_env)
    (h : w.state = WORKER_STATE.WORKER_PROCESS_APDU) (ha : w.apdu ≠ none)
    (hr : reaches_transfer cfg w e) (hf : transfer_fails e) :
    (optiga_worker_step cfg w e).state = WORKER_STATE.WORKER_RESET ∧
    (optiga_worker_step cfg w e).apdu = none ∧
    (optiga_worker_step cfg w e).dev.reset_counter = w.dev.reset_counter := by
  cases hap : w.apdu with
  | none => exact absurd hap ha
  | some a =>
    simp only [optiga_worker_step, h, hap]
    by_cases hs : cfg.shielded_connection = true
    · simp only [hs, if_true, atomic_cas]
      by_cases hk : w.dev.shield_state = OPTIGA_PRES_KEY_LOADED
      · have hh := hr hs hk
        simp only [hk, if_true, ext_invoke, hh]
        exact worker_transfer_fails cfg _ a e hf
      · simp only [hk, if_false, Bool.false_eq_true]
        exact worker_transfer_fails cfg _ a e hf
    · simp only [hs, if_false]
      exact worker_transfer_fails cfg w a e hf

theorem optiga_reset_ok (cfg : optiga_kconfig) (dev : optiga_dev) (phy nettran pres : ext_call)
    (h1 : phy.err = 0) (h2 : nettran.err = 0)
    (h3 : cfg.shielded_connection = true → pres.err = 0) :
    (optiga_reset cfg dev phy nettran pres).1 = 0 ∧
    (optiga_reset cfg dev phy nettran pres).2.reset_counter = dev.reset_counter := by
  simp only [optiga_reset, ext_invoke, drv_data_init, optiga_data_init, h1, h2, ne_eq,
    not_true_eq_false, if_false]
  by_cases hs : cfg.shielded_connection = true
  · simp [hs, h3 hs]
  · simp [hs]

theorem optiga_open_application_ok (dev : optiga_dev) (handle : Bool) (snd : ext_call)
    (rcv : apdu_recv) (h1 : snd.err = 0) (h2 : rcv.err = 0)
    (h3 : rcv.len = OPTIGA_OPEN_APPLICATION_RESPONSE_LEN)
    (h4 : memcmp_ne rcv.buf (List.replicate OPTIGA_OPEN_APPLICATION_RESPONSE_LEN 0)
      OPTIGA_OPEN_APPLICATION_RESPONSE_LEN = false) :
    (optiga_open_application dev handle snd rcv).1 = 0 ∧
    (optiga_open_application dev handle snd rcv).2.open_ = true ∧
    (optiga_open_application dev handle snd rcv).2.reset_counter = dev.reset_counter := by
  simp only [optiga_open_application, optiga_send_apdu, optiga_recv_apdu, h1, h2, h3, h4, ne_eq,
    not_true_eq_false, if_false, Bool.or_false, decide_False, Bool.false_eq_true]
  simp

/-- `WORKER_RESET`: the counter is incremented; at `OPTIGA_MAX_RESET` the worker goes to
`WORKER_RESET_LOCK`, below it a successful recovery leads to `WORKER_IDLE`. -/
theorem worker_step_reset (cfg : optiga_kconfig) (w : worker) (e : worker_env)
    (h : w.state = WORKER_STATE.WORKER_RESET) :
    (w.dev.reset_counter + 1 = OPTIGA_MAX_RESET →
      (optiga_worker_step cfg w e).state = WORKER_STATE.WORKER_RESET_LOCK) ∧
    (w.dev.reset_counter + 1 ≠ OPTIGA_MAX_RESET → recovery_succeeds cfg e →
      (optiga_worker_step cfg w e).state = WORKER_STATE.WORKER_IDLE ∧
      (optiga_worker_step cfg w e).dev.reset_counter = w.dev.reset_counter + 1) := by
  constructor
  · intro hmax
    simp only [optiga_worker_step, h, hmax, if_true]
  · intro hlt hrec
    obtain ⟨r1, r2, r3, r4, r5, r6, r7⟩ := hrec
    have hreset := optiga_reset_ok cfg { w.dev with reset_counter := w.dev.reset_counter + 1 }
      e.reset_phy e.reset_nettran e.reset_pres r1 r2 r3
    have hopen := optiga_open_application_ok
      (optiga_reset cfg { w.dev with reset_counter := w.dev.reset_counter + 1 }
        e.reset_phy e.reset_nettran e.reset_pres).2 false e.open_snd e.open_rcv r4 r5 r6 r7
    simp only [optiga_worker_step, h, hlt, if_false, hreset.1, hopen.1, ne_eq,
      not_true_eq_false]
    split_ifs <;> simp [hopen.2.2, hreset.2]

/-- An APDU taken in `WORKER_IDLE` whose transfer fails: the worker is in `WORKER_RESET`
two iterations later, with the reset counter it had. -/
theorem failing_cycle (cfg : optiga_kconfig) (w : worker) (i p : worker_env)
    (h : w.state = WORKER_STATE.WORKER_IDLE) (ha : apdu_arrives w i)
    (hr : reaches_transfer cfg (optiga_worker_step cfg w i) p) (hf : transfer_fails p) :
    (optiga_worker_step cfg w i).state = WORKER_STATE.WORKER_PROCESS_APDU ∧
    (optiga_worker_step cfg (optiga_worker_step cfg w i) p).state
      = WORKER_STATE.WORKER_RESET ∧
    (optiga_worker_step cfg (optiga_worker_step cfg w i) p).dev.reset_counter
      = w.dev.reset_counter := by
  obtain ⟨a1, a2, a3, _⟩ := worker_step_idle_take cfg w i h ha
  obtain ⟨b1, _, b3⟩ := worker_step_process_fails cfg _ p a1 a2 hr hf
  exact ⟨a1, b1, b3.trans a3⟩

/-- C18 (bounded recovery): starting in `WORKER_IDLE` with reset counter 0, let three
APDUs be taken one after the other, each fail in `optiga_transfer_apdu`, and let the
stack reset and OpenApplication after the first and after the second failure succeed
(no hibernate in between). Then each failure puts the worker in `WORKER_RESET`; the
`WORKER_RESET` iterations after the first and the second failure lead back to
`WORKER_IDLE`, and the one after the third failure leads to `WORKER_RESET_LOCK`. -/
theorem bounded_recovery (cfg : optiga_kconfig) (w0 : worker)
    (i1 p1 r1 i2 p2 r2 i3 p3 r3 : worker_env)
    (h0 : w0.state = WORKER_STATE.WORKER_IDLE) (hc : w0.dev.reset_counter = 0) :
    let w1 := optiga_worker_step cfg w0 i1
    let w2 := optiga_worker_step cfg w1 p1
    let w3 := optiga_worker_step cfg w2 r1
    let w4 := optiga_worker_step cfg w3 i2
    let w5 := optiga_worker_step cfg w4 p2
    let w6 := optiga_worker_step cfg w5 r2
    let w7 := optiga_worker_step cfg w6 i3
    let w8 := optiga_worker_step cfg w7 p3
    let w9 := optiga_worker_step cfg w8 r3
    apdu_arrives w0 i1 → reaches_transfer cfg w1 p1 → transfer_fails p1 →
    recovery_succeeds cfg r1 →
    apdu_arrives w3 i2 → reaches_transfer cfg w4 p2 → transfer_fails p2 →
    recovery_succeeds cfg r2 →
    apdu_arrives w6 i3 → reaches_transfer cfg w7 p3 → transfer_fails p3 →
    w1.state = WORKER_STATE.WORKER_PROCESS_APDU ∧ w2.state = WORKER_STATE.WORKER_RESET ∧
    w3.state = WORKER_STATE.WORKER_IDLE ∧
    w4.state = WORKER_STATE.WORKER_PROCESS_APDU ∧ w5.state = WORKER_STATE.WORKER_RESET ∧
    w6.state = WORKER_STATE.WORKER_IDLE ∧
    w7.state = WORKER_STATE.WORKER_PROCESS_APDU ∧ w8.state = WORKER_STATE.WORKER_RESET ∧
    w9.state = WORKER_STATE.WORKER_RESET_LOCK := by
  intro w1 w2 w3 w4 w5 w6 w7 w8 w9 a1 t1 f1 rec1 a2 t2 f2 rec2 a3 t3 f3
  obtain ⟨s1, s2, c2⟩ := failing_cycle cfg w0 i1 p1 h0 a1 t1 f1
  have c2' : w2.dev.reset_counter = 0 := c2.trans hc
  obtain ⟨s3, c3⟩ := (worker_step_reset cfg w2 r1 s2).2
    (by rw [c2']; decide) rec1
  have c3' : w3.dev.reset_counter = 1 := by rw [c3, c2']; rfl
  obtain ⟨s4, s5, c5⟩ := failing_cycle cfg w3 i2 p2 s3 a2 t2 f2
  have c5' : w5.dev.reset_counter = 1 := c5.trans c3'
  obtain ⟨s6, c6⟩ := (worker_step_reset cfg w5 r2 s5).2
    (by rw [c5']; decide) rec2
  have c6' : w6.dev.reset_counter = 2 := by rw [c6, c5']; rfl
  obtain ⟨s7, s8, c8⟩ := failing_cycle cfg w6 i3 p3 s6 a3 t3 f3
  have c8' : w8.dev.reset_counter = 2 := c8.trans c6'
  have s9 := (worker_step_reset cfg w8 r3 s8).1 (by rw [c8']; decide)
  exact ⟨s1, s2, s3, s4, s5, s6, s7, s8, s9⟩

theorem bounded_recovery_witness :
    (worker_iterate ⟨false, 4⟩ ⟨WORKER_STATE.WORKER_IDLE, none, 0, sample_dev 0⟩
      [sample_env, failing_env, sample_env, sample_env, failing_env, sample_env,
        sample_env, failing_env, sample_env]).state = WORKER_STATE.WORKER_RESET_LOCK :=
  (bounded_recovery ⟨false, 4⟩ ⟨WORKER_STATE.WORKER_IDLE, none, 0, sample_dev 0⟩
    sample_env failing_env sample_env sample_env failing_env sample_env
    sample_env failing_env sample_env rfl rfl
    (by decide) (by decide) (by decide) (by decide) (by decide) (by decide) (by decide)
    (by decide) (by decide) (by decide) (by decide)).2.2.2.2.2.2.2.2

/-! ## The worker: exactly-once completion -/

theorem completion_snoc (t : List drv_op) (op : drv_op) :
    completion (t ++ [op]) = completion_step (completion t) op := by
  simp [completion, List.foldl_append]

/-- An operation that neither takes an APDU nor raises a signal leaves the completion
state as it is. -/
theorem completion_step_quiet (p : Option (Option Nat)) (op : drv_op)
    (h1 : ∀ a, op ≠ drv_op.fifo_get (some a)) (h2 : ∀ a r, op ≠ drv_op.signal a r) :
    completion_step p op = p := by
  cases p with
  | none => cases op <;> rfl
  | some q =>
    cases q with
    | none =>
      cases op with
      | fifo_get a =>
        cases a with
        | none => rfl
        | some a => exact absurd rfl (h1 a)
      | signal a r => exact absurd rfl (h2 a r)
      | _ => rfl
    | some b =>
      cases op with
      | fifo_get a =>
        cases a with
        | none => rfl
        | some a => exact absurd rfl (h1 a)
      | signal a r => exact absurd rfl (h2 a r)
      | _ => rfl

theorem completion_step_quiet_op (p : Option (Option Nat)) (op : drv_op)
    (h : quiet_op op = true) : completion_step p op = p := by
  apply completion_step_quiet
  · intro a e
    rw [e] at h
    simp [quiet_op] at h
  · intro a r e
    rw [e] at h
    simp [quiet_op] at h

/-- Operations that neither take an APDU nor raise a signal leave the completion
state as it is. -/
theorem completion_append_quiet (u : List drv_op) : ∀ (t : List drv_op),
    u.all quiet_op = true → completion (t ++ u) = completion t := by
  induction u with
  | nil => intro t _; simp
  | cons op u ih =>
    intro t h
    simp only [List.all_cons, Bool.and_eq_true] at h
    have : t ++ op :: u = (t ++ [op]) ++ u := by simp
    rw [this, ih _ h.2, completion_snoc, completion_step_quiet_op _ _ h.1]

/-- The same, in the form the simplifier uses on an unfolded trace. -/
theorem completion_append_quiet_iff (t u : List drv_op) (h : u.all quiet_op = true) :
    completion (t ++ u) = completion t :=
  completion_append_quiet u t h

theorem completion_send (dev : optiga_dev) (b : List Nat) (o : ext_call) :
    completion (optiga_send_apdu dev b o).2.trace = completion dev.trace :=
  completion_append_quiet _ _ rfl

theorem completion_recv (dev : optiga_dev) (o : apdu_recv) :
    completion (optiga_recv_apdu dev o).2.2.2.trace = completion dev.trace :=
  completion_append_quiet _ _ rfl

theorem completion_ext_invoke (dev : optiga_dev) (op : drv_op) (o : ext_call)
    (h : quiet_op op = true) :
    completion (ext_invoke dev op o).2.trace = completion dev.trace :=
  completion_append_quiet _ _ (by simp [h])

theorem completion_data_init (dev : optiga_dev) :
    completion (drv_data_init dev).2.trace = completion dev.trace :=
  completion_append_quiet _ _ rfl

theorem completion_power (dev : optiga_dev) (enable : Bool) (ret : Int) :
    completion (optiga_power dev enable ret).2.trace = completion dev.trace := by
  rw [optiga_power_snd]
  exact completion_append_quiet _ _ rfl

theorem completion_reset (cfg : optiga_kconfig) (dev : optiga_dev) (phy nettran pres : ext_call) :
    completion (optiga_reset cfg dev phy nettran pres).2.trace = completion dev.trace := by
  simp only [optiga_reset, ext_invoke, drv_data_init, optiga_data_init]
  split_ifs <;> simp [completion_append_quiet_iff, quiet_op]

theorem completion_get_error_code (dev : optiga_dev) (snd : ext_call) (rcv : apdu_recv) :
    completion (optiga_get_error_code dev snd rcv).2.2.trace = completion dev.trace := by
  simp only [optiga_get_error_code, optiga_send_apdu, optiga_recv_apdu]
  split_ifs <;> simp [completion_append_quiet_iff, quiet_op]

theorem completion_open_application (dev : optiga_dev) (handle : Bool) (snd : ext_call)
    (rcv : apdu_recv) :
    completion (optiga_open_application dev handle snd rcv).2.trace = completion dev.trace := by
  simp only [optiga_open_application, optiga_send_apdu, optiga_recv_apdu]
  split_ifs <;> simp [completion_append_quiet_iff, quiet_op]

theorem completion_close_application (dev : optiga_dev) (handle : Bool) (snd : ext_call)
    (rcv : apdu_recv) :
    completion (optiga_close_application dev handle snd rcv).2.trace = completion dev.trace := by
  cases handle <;>
    simp only [optiga_close_application, optiga_send_apdu, optiga_recv_apdu, Bool.false_eq_true,
      if_false, if_true] <;>
    split_ifs <;> simp [completion_append_quiet_iff, quiet_op]

theorem completion_transfer (dev : optiga_dev) (apdu : optiga_apdu) (snd : ext_call)
    (rcv : apdu_recv) :
    completion (optiga_transfer_apdu dev apdu snd rcv).2.2.trace = completion dev.trace := by
  simp only [optiga_transfer_apdu, optiga_send_apdu, optiga_recv_apdu]
  split_ifs <;> simp [completion_append_quiet_iff, quiet_op]

theorem completion_hibernate (cfg : optiga_kconfig) (dev : optiga_dev) (e : hibernate_env) :
    completion (optiga_hibernate cfg dev e).trace = completion dev.trace := by
  by_cases hb : wake_locks cfg dev.session_reservations ≠ 0
  · rw [optiga_hibernate_blocked cfg dev e hb]
  · have hc := completion_close_application dev
      ((dev.session_reservations &&& OPTIGA_IGNORE_HIBERNATE_MASK cfg) != 0)
      e.close_snd e.close_rcv
    simp only [optiga_hibernate, optiga_power_snd, ext_invoke, hb, if_false]
    generalize optiga_close_application dev
      ((dev.session_reservations &&& OPTIGA_IGNORE_HIBERNATE_MASK cfg) != 0)
      e.close_snd e.close_rcv = c at hc ⊢
    obtain ⟨res, d⟩ := c
    simp only at hc ⊢
    rw [← hc]
    split_ifs <;> simp [completion_append_quiet_iff, quiet_op]

theorem completion_wakup (cfg : optiga_kconfig) (dev : optiga_dev) (e : wakup_env) :
    completion (optiga_wakup cfg dev e).2.trace = completion dev.trace := by
  simp only [optiga_wakup, optiga_power_snd, ext_invoke, drv_data_init, optiga_data_init]
  split_ifs <;>
    simp [completion_open_application, completion_append_quiet_iff, quiet_op]

theorem rehandshake_check_trace (cfg : optiga_kconfig) (dev : optiga_dev) (p n : Bool) :
    (rehandshake_check cfg dev p n).trace = dev.trace := by
  simp only [rehandshake_check]
  split_ifs <;> rfl

theorem completion_signal (dev : optiga_dev) (a : optiga_apdu) (r : Int)
    (h : completion dev.trace = some (some a.id)) :
    completion (k_poll_signal_raise dev a r).trace = some none := by
  simp only [k_poll_signal_raise]
  rw [completion_snoc, h]
  simp [completion_step]

theorem completion_take (t : List drv_op) (a : Nat) (h : completion t = some none) :
    completion (t ++ [drv_op.fifo_get (some a)]) = some (some a) := by
  rw [completion_snoc, h]
  rfl

theorem completion_drain (q : List optiga_apdu) : ∀ t : List drv_op,
    completion t = some none → completion (drain_loop q t) = some none := by
  induction q with
  | nil =>
    intro t h
    simp only [drain_loop]
    rw [completion_append_quiet_iff t [drv_op.fifo_get none] rfl, h]
  | cons a q ih =>
    intro t h
    simp only [drain_loop]
    apply ih
    have : t ++ [drv_op.fifo_get (some a.id), drv_op.signal a.id (-EIO_ERRNO)]
        = (t ++ [drv_op.fifo_get (some a.id)]) ++ [drv_op.signal a.id (-EIO_ERRNO)] := by simp
    rw [this, completion_snoc, completion_take _ _ h]
    simp [completion_step]

/-- From the call of `optiga_transfer_apdu` on, the current APDU is signalled exactly
once and the worker leaves `WORKER_PROCESS_APDU`. -/
theorem worker_transfer_completion (cfg : optiga_kconfig) (w : worker) (a : optiga_apdu)
    (e : worker_env) (h : completion w.dev.trace = some (some a.id)) :
    completion (worker_transfer cfg w a e).dev.trace = some none ∧
    (worker_transfer cfg w a e).state ≠ WORKER_STATE.WORKER_PROCESS_APDU := by
  have hid := (optiga_transfer_apdu_fields w.dev a e.transfer_snd e.transfer_rcv).2
  have htr := completion_transfer w.dev a e.transfer_snd e.transfer_rcv
  simp only [worker_transfer]
  generalize optiga_transfer_apdu w.dev a e.transfer_snd e.transfer_rcv = t at hid htr ⊢
  obtain ⟨err, a', d⟩ := t
  simp only at hid htr ⊢
  have hd : completion d.trace = some (some a'.id) := by rw [htr, h, hid]
  by_cases herr : err = 0
  · simp only [herr, ne_eq, not_true_eq_false, if_false]
    have hd2 : completion
        (rehandshake_check cfg { d with reset_counter := 0 } e.presence e.need_rehandshake).trace
        = some (some a'.id) := by
      rw [rehandshake_check_trace]; exact hd
    by_cases hres : optiga_apdu_is_error a'.rx_buf = true
    · simp only [hres, if_true]
      have hg := completion_get_error_code
        (rehandshake_check cfg { d with reset_counter := 0 } e.presence e.need_rehandshake)
        e.code_snd e.code_rcv
      generalize optiga_get_error_code
        (rehandshake_check cfg { d with reset_counter := 0 } e.presence e.need_rehandshake)
        e.code_snd e.code_rcv = g at hg ⊢
      obtain ⟨err2, code, d2⟩ := g
      simp only at hg ⊢
      have hd3 : completion d2.trace = some (some a'.id) := by rw [hg, hd2]
      by_cases herr2 : err2 = 0
      · simp only [herr2, ne_eq, not_true_eq_false, if_false]
        refine ⟨?_, by decide⟩
        apply completion_signal
        rw [rehandshake_check_trace]
        exact hd3
      · simp only [herr2, ne_eq, not_false_eq_true, if_true]
        exact ⟨completion_signal _ _ _ hd3, by decide⟩
    · simp only [hres, if_false, Bool.false_eq_true]
      exact ⟨completion_signal _ _ _ hd2, by decide⟩
  · simp only [herr, ne_eq, not_false_eq_true, if_true]
    exact ⟨completion_signal _ _ _ hd, by decide⟩

theorem completion_inv_idle (cfg : optiga_kconfig) (w : worker) (e : worker_env)
    (hs : w.state = WORKER_STATE.WORKER_IDLE) (h : completion_inv w) :
    completion_inv (optiga_worker_step cfg w e) := by
  have hc : completion w.dev.trace = some none := by
    have := h.1
    rwa [hs, if_neg (by decide)] at this
  simp only [optiga_worker_step, hs]
  cases hg : (k_fifo_get w.dev (if w.dev.gpio then k_timeout.K_MSEC else k_timeout.K_FOREVER)
      e.timed e.forever).1 with
  | none =>
    refine ⟨?_, by simp⟩
    simp only [k_fifo_get, hg, Option.map_none'] at hg ⊢
    rw [completion_append_quiet_iff _ _ (by simp [hg, quiet_op]), hc]
    simp
  | some a =>
    refine ⟨?_, by simp⟩
    simp only [k_fifo_get] at hg ⊢
    rw [hg]
    simp only [Option.map_some', if_true]
    exact completion_take _ _ hc

theorem completion_inv_hibernate (cfg : optiga_kconfig) (w : worker) (e : worker_env)
    (hs : w.state = WORKER_STATE.WORKER_HIBERNATE) (h : completion_inv w) :
    completion_inv (optiga_worker_step cfg w e) := by
  have hc : completion w.dev.trace = some none := by
    have := h.1
    rwa [hs, if_neg (by decide)] at this
  have hh : completion (optiga_hibernate cfg w.dev e.hib).trace = some none := by
    rw [completion_hibernate, hc]
  simp only [optiga_worker_step, hs]
  by_cases hopen : (optiga_hibernate cfg w.dev e.hib).open_ = true
  · rw [if_pos hopen]
    exact ⟨by simpa using hh, by simp⟩
  · rw [if_neg hopen]
    obtain ⟨a, q, hg⟩ := k_fifo_get_forever (optiga_hibernate cfg w.dev e.hib) e.timed e.forever
    rw [hg]
    simp only
    have hw := completion_wakup cfg
      { optiga_hibernate cfg w.dev e.hib with
        apdu_queue := q,
        trace := (optiga_hibernate cfg w.dev e.hib).trace ++ [drv_op.fifo_get (some a.id)],
        session_reservations := e.asleep_reservations,
        shield_state := e.asleep_shield } e.wake
    simp only at hw
    rw [completion_take _ _ hh] at hw
    generalize optiga_wakup cfg
      { optiga_hibernate cfg w.dev e.hib with
        apdu_queue := q,
        trace := (optiga_hibernate cfg w.dev e.hib).trace ++ [drv_op.fifo_get (some a.id)],
        session_reservations := e.asleep_reservations,
        shield_state := e.asleep_shield } e.wake = r at hw ⊢
    obtain ⟨err, d⟩ := r
    simp only at hw ⊢
    split_ifs
    · exact ⟨by simpa using completion_signal d a err hw, by simp⟩
    · exact ⟨by simpa using hw, by simp⟩

theorem completion_inv_process (cfg : optiga_kconfig) (w : worker) (e : worker_env)
    (hs : w.state = WORKER_STATE.WORKER_PROCESS_APDU) (h : completion_inv w) :
    completion (optiga_worker_step cfg w e).dev.trace = some none ∧
    (optiga_worker_step cfg w e).state ≠ WORKER_STATE.WORKER_PROCESS_APDU := by
  have hne := h.2 hs
  cases hap : w.apdu with
  | none => exact absurd hap hne
  | some a =>
    have hc : completion w.dev.trace = some (some a.id) := by
      have := h.1
      rwa [hs, if_pos rfl, hap] at this
    simp only [optiga_worker_step, hs, hap]
    by_cases hsh : cfg.shielded_connection = true
    · simp only [hsh, if_true, atomic_cas]
      by_cases hk : w.dev.shield_state = OPTIGA_PRES_KEY_LOADED
      · simp only [hk, if_true, ext_invoke]
        have hq : completion (w.dev.trace ++ [drv_op.pres_do_handshake]) = some (some a.id) := by
          rw [completion_append_quiet_iff w.dev.trace [drv_op.pres_do_handshake] rfl, hc]
        by_cases hh : e.handshake.err = 0
        · simp only [hh, if_true]
          exact worker_transfer_completion cfg _ a e hq
        · simp only [hh, if_false]
          refine ⟨?_, by decide⟩
          exact completion_signal _ a _ hq
      · simp only [hk, if_false, Bool.false_eq_true]
        exact worker_transfer_completion cfg _ a e hc
    · simp only [hsh, if_false, Bool.false_eq_true]
      exact worker_transfer_completion cfg w a e hc

theorem completion_inv_reset (cfg : optiga_kconfig) (w : worker) (e : worker_env)
    (hs : w.state = WORKER_STATE.WORKER_RESET) (h : completion_inv w) :
    completion_inv (optiga_worker_step cfg w e) := by
  have hc : completion w.dev.trace = some none := by
    have := h.1
    rwa [hs, if_neg (by decide)] at this
  simp only [optiga_worker_step, hs]
  by_cases hmax : w.dev.reset_counter + 1 = OPTIGA_MAX_RESET
  · simp only [hmax, if_true]
    refine ⟨?_, by simp⟩
    simp only [reduceCtorEq, if_false]
    by_cases hg : w.dev.gpio = true
    · simp only [hg, if_true]
      rw [completion_power]
      exact hc
    · simp only [hg, if_false, Bool.false_eq_true]
      exact hc
  · simp only [hmax, if_false]
    have hr := completion_reset cfg { w.dev with reset_counter := w.dev.reset_counter + 1 }
      e.reset_phy e.reset_nettran e.reset_pres
    simp only at hr
    rw [hc] at hr
    generalize optiga_reset cfg { w.dev with reset_counter := w.dev.reset_counter + 1 }
      e.reset_phy e.reset_nettran e.reset_pres = r at hr ⊢
    obtain ⟨err, d⟩ := r
    simp only at hr ⊢
    by_cases herr : err = 0
    · simp only [herr, ne_eq, not_true_eq_false, if_false]
      have ho := completion_open_application d false e.open_snd e.open_rcv
      rw [hr] at ho
      generalize optiga_open_application d false e.open_snd e.open_rcv = o at ho ⊢
      obtain ⟨err2, d2⟩ := o
      simp only at ho ⊢
      by_cases herr2 : err2 = 0
      · simp only [herr2, ne_eq, not_true_eq_false, if_false]
        refine ⟨?_, by simp⟩
        have hd := completion_drain d2.apdu_queue d2.trace ho
        split_ifs <;> simpa using hd
      · simp only [herr2, ne_eq, not_false_eq_true, if_true]
        exact ⟨by simpa using ho, by simp⟩
    · simp only [herr, ne_eq, not_false_eq_true, if_true]
      exact ⟨by simpa using hr, by simp⟩

theorem completion_inv_reset_lock (cfg : optiga_kconfig) (w : worker) (e : worker_env)
    (hs : w.state = WORKER_STATE.WORKER_RESET_LOCK) (h : completion_inv w) :
    completion_inv (optiga_worker_step cfg w e) := by
  have hc : completion w.dev.trace = some none := by
    have := h.1
    rwa [hs, if_neg (by decide)] at this
  obtain ⟨a, q, hstep⟩ := worker_step_reset_lock cfg w e hs
  rw [hstep]
  refine ⟨?_, by simp [hs]⟩
  simp only [hs, lock_trace]
  have : w.dev.trace ++ [drv_op.fifo_get (some a.id), drv_op.signal a.id (-EIO_ERRNO)]
      = (w.dev.trace ++ [drv_op.fifo_get (some a.id)]) ++ [drv_op.signal a.id (-EIO_ERRNO)] := by
    simp
  rw [this, completion_snoc, completion_take _ _ hc]
  simp [completion_step]

/-- Every iteration of the worker preserves the completion invariant. -/
theorem completion_inv_step (cfg : optiga_kconfig) (w : worker) (e : worker_env)
    (h : completion_inv w) : completion_inv (optiga_worker_step cfg w e) := by
  cases hs : w.state with
  | WORKER_IDLE => exact completion_inv_idle cfg w e hs h
  | WORKER_HIBERNATE => exact completion_inv_hibernate cfg w e hs h
  | WORKER_PROCESS_APDU =>
    obtain ⟨h1, h2⟩ := completion_inv_process cfg w e hs h
    exact ⟨by rw [h1, if_neg h2], fun h3 => absurd h3 h2⟩
  | WORKER_RESET => exact completion_inv_reset cfg w e hs h
  | WORKER_RESET_LOCK => exact completion_inv_reset_lock cfg w e hs h

/-- Caller threads leave the trace, the state and the current APDU of the worker as
they are. -/
theorem completion_inv_sched (cfg : optiga_kconfig) (w : worker) (item : sched_item)
    (h : completion_inv w) : completion_inv (sched_step cfg w item) := by
  cases item with
  | iteration e => exact completion_inv_step cfg w e h
  | enqueue a => exact h
  | acquire idx => exact h
  | release idx => exact h
  | callers s => exact h

theorem completion_inv_run (cfg : optiga_kconfig) (s : List sched_item) :
    ∀ w : worker, completion_inv w → completion_inv (worker_run cfg w s) := by
  induction s with
  | nil => intro w h; exact h
  | cons item s ih =>
    intro w h
    exact ih _ (completion_inv_sched cfg w item h)

/-- C20 (exactly-once completion): in every execution of the worker from `WORKER_IDLE`,
with caller threads enqueuing APDUs, acquiring and releasing sessions and changing the
shield state at any point between iterations, the trace obeys the completion
discipline: every APDU taken from the queue is signalled exactly once before the next
one is taken, no signal is raised twice or for an APDU not held. An APDU is taken and
not yet signalled only while the worker is in `WORKER_PROCESS_APDU`, as its current
APDU, and the next iteration signals it. -/
theorem exactly_once_completion (cfg : optiga_kconfig) (w0 : worker) (s : List sched_item)
    (h0 : w0.state = WORKER_STATE.WORKER_IDLE) (ht : completion w0.dev.trace = some none) :
    completion (worker_run cfg w0 s).dev.trace
      = some (if (worker_run cfg w0 s).state = WORKER_STATE.WORKER_PROCESS_APDU
          then (worker_run cfg w0 s).apdu.map (fun a => a.id) else none) ∧
    ((worker_run cfg w0 s).state = WORKER_STATE.WORKER_PROCESS_APDU →
      (worker_run cfg w0 s).apdu ≠ none ∧
      ∀ e, completion (optiga_worker_step cfg (worker_run cfg w0 s) e).dev.trace = some none ∧
        (optiga_worker_step cfg (worker_run cfg w0 s) e).state
          ≠ WORKER_STATE.WORKER_PROCESS_APDU) := by
  have hinv0 : completion_inv w0 := ⟨by rw [ht, h0, if_neg (by decide)], by simp [h0]⟩
  have hinv := completion_inv_run cfg s w0 hinv0
  refine ⟨hinv.1, ?_⟩
  intro hp
  exact ⟨hinv.2 hp, fun e => completion_inv_process cfg _ e hp hinv⟩

theorem exactly_once_completion_witness :
    completion (worker_run ⟨false, 4⟩ ⟨WORKER_STATE.WORKER_IDLE, none, 0, sample_dev 0⟩
      [sched_item.enqueue (sample_apdu 7), sched_item.iteration sample_env,
        sched_item.enqueue (sample_apdu 8), sched_item.iteration failing_env,
        sched_item.iteration sample_env, sched_item.iteration sample_env]).dev.trace
      = some (if (worker_run ⟨false, 4⟩ ⟨WORKER_STATE.WORKER_IDLE, none, 0, sample_dev 0⟩
          [sched_item.enqueue (sample_apdu 7), sched_item.iteration sample_env,
            sched_item.enqueue (sample_apdu 8), sched_item.iteration failing_env,
            sched_item.iteration sample_env, sched_item.iteration sample_env]).state
            = WORKER_STATE.WORKER_PROCESS_APDU
          then (worker_run ⟨false, 4⟩ ⟨WORKER_STATE.WORKER_IDLE, none, 0, sample_dev 0⟩
            [sched_item.enqueue (sample_apdu 7), sched_item.iteration sample_env,
              sched_item.enqueue (sample_apdu 8), sched_item.iteration failing_env,
              sched_item.iteration sample_env, sched_item.iteration sample_env]).apdu.map
              (fun a => a.id)
          else none) :=
  (exactly_once_completion ⟨false, 4⟩ ⟨WORKER_STATE.WORKER_IDLE, none, 0, sample_dev 0⟩
    [sched_item.enqueue (sample_apdu 7), sched_item.iteration sample_env,
      sched_item.enqueue (sample_apdu 8), sched_item.iteration failing_env,
      sched_item.iteration sample_env, sched_item.iteration sample_env] rfl rfl).1

/-! ## The diagnostic read `optiga_get_error_code` -/

/-- `optiga_get_error_code` always hands `error_code_apdu` to `optiga_send_apdu`, and
nothing else. -/
theorem optiga_get_error_code_sent (dev : optiga_dev) (snd : ext_call) (rcv : apdu_recv) :
    sent_apdus (optiga_get_error_code dev snd rcv).2.2.trace
      = sent_apdus dev.trace ++ [error_code_apdu] := by
  simp only [optiga_get_error_code, optiga_send_apdu, optiga_recv_apdu]
  split_ifs <;> simp [sent_apdus]

/-- A well-answered diagnostic read returns 0 and stores byte 4 of the response. -/
theorem optiga_get_error_code_ok (dev : optiga_dev) (snd : ext_call) (rcv : apdu_recv)
    (h : code_read_ok snd rcv) :
    (optiga_get_error_code dev snd rcv).1 = 0 ∧
    (optiga_get_error_code dev snd rcv).2.1 = some (rcv.buf.getD 4 0) := by
  obtain ⟨h1, h2, h3, h4, h5⟩ := h
  simp [optiga_get_error_code, optiga_send_apdu, optiga_recv_apdu, optiga_apdu_is_error,
    h1, h2, h3, h4, h5, -List.getD_eq_getElem?_getD]

/-- The return value of `optiga_get_error_code` is 0 exactly for a well-answered read;
otherwise nothing is stored. -/
theorem optiga_get_error_code_zero_iff (dev : optiga_dev) (snd : ext_call) (rcv : apdu_recv) :
    ((optiga_get_error_code dev snd rcv).1 = 0 ↔ code_read_ok snd rcv) ∧
    ((optiga_get_error_code dev snd rcv).1 = 0 →
      (optiga_get_error_code dev snd rcv).2.1 = some (rcv.buf.getD 4 0)) ∧
    ((optiga_get_error_code dev snd rcv).1 ≠ 0 →
      (optiga_get_error_code dev snd rcv).2.1 = none) := by
  simp only [optiga_get_error_code, optiga_send_apdu, optiga_recv_apdu, optiga_apdu_is_error,
    code_read_ok]
  by_cases h1 : snd.err = 0
  · by_cases h2 : rcv.err = 0
    · by_cases h3 : rcv.len = 5
      · by_cases h4 : rcv.buf.getD 0 0 = 0
        · by_cases h5 : sys_get_be16 rcv.buf 2 = 1
          · simp [h1, h2, h3, h4, h5, -List.getD_eq_getElem?_getD]
          · simp [h1, h2, h3, h4, h5, -List.getD_eq_getElem?_getD]
        · simp [h1, h2, h3, h4, -List.getD_eq_getElem?_getD]
      · simp [h1, h2, h3, -List.getD_eq_getElem?_getD]
    · simp [h1, h2, -List.getD_eq_getElem?_getD]
  · simp [h1, -List.getD_eq_getElem?_getD]

/-- C29 (diagnostic response validation): `optiga_get_error_code` returns 0 if and only
if the send and the receive succeed, the response is exactly 5 bytes long, its status
byte (byte 0) is 0 and its big-endian length field (bytes 2..3) is 1; then the error
code stored is byte 4 of the response. A response that was received but fails one of
the checks gives `-EIO` and no store to the error code; a failing send or receive gives
its own error and no store. -/
theorem get_error_code_validation (dev : optiga_dev) (snd : ext_call) (rcv : apdu_recv) :
    ((optiga_get_error_code dev snd rcv).1 = 0 ↔
      (snd.err = 0 ∧ rcv.err = 0 ∧ rcv.len = 5 ∧ rcv.buf.getD 0 0 = 0 ∧
        sys_get_be16 rcv.buf 2 = 1)) ∧
    ((optiga_get_error_code dev snd rcv).1 = 0 →
      (optiga_get_error_code dev snd rcv).2.1 = some (rcv.buf.getD 4 0)) ∧
    (snd.err = 0 → rcv.err = 0 →
      ¬ (rcv.len = 5 ∧ rcv.buf.getD 0 0 = 0 ∧ sys_get_be16 rcv.buf 2 = 1) →
      (optiga_get_error_code dev snd rcv).1 = -EIO_ERRNO ∧
      (optiga_get_error_code dev snd rcv).2.1 = none) ∧
    (snd.err ≠ 0 → (optiga_get_error_code dev snd rcv).1 = snd.err ∧
      (optiga_get_error_code dev snd rcv).2.1 = none) ∧
    (snd.err = 0 → rcv.err ≠ 0 → (optiga_get_error_code dev snd rcv).1 = rcv.err ∧
      (optiga_get_error_code dev snd rcv).2.1 = none) := by
  simp only [optiga_get_error_code, optiga_send_apdu, optiga_recv_apdu, optiga_apdu_is_error]
  by_cases h1 : snd.err = 0
  · by_cases h2 : rcv.err = 0
    · by_cases h3 : rcv.len = 5
      · by_cases h4 : rcv.buf.getD 0 0 = 0
        · by_cases h5 : sys_get_be16 rcv.buf 2 = 1
          · simp [h1, h2, h3, h4, h5, -List.getD_eq_getElem?_getD]
          · simp [h1, h2, h3, h4, h5, -List.getD_eq_getElem?_getD]
        · simp [h1, h2, h3, h4, -List.getD_eq_getElem?_getD]
      · simp [h1, h2, h3, -List.getD_eq_getElem?_getD]
    · simp [h1, h2, -List.getD_eq_getElem?_getD]
  · simp [h1, -List.getD_eq_getElem?_getD]

/-- C30 fails on the code: the request that `optiga_get_error_code` sends has 10 bytes,
not 6. -/
theorem error_code_request_not_six_bytes :
    sent_apdus (optiga_get_error_code (sample_dev 0) call_ok (recv_ok [0, 0, 0, 1, 7])).2.2.trace
      = [[0x01, 0x00, 0x00, 0x06, 0xF1, 0xC2, 0x00, 0x00, 0x00, 0x01]] ∧
    ¬ ([0x01, 0x00, 0x00, 0x06, 0xF1, 0xC2, 0x00, 0x00, 0x00, 0x01] : List Nat).length = 6 := by
  decide

/-- C30, amended: the fixed diagnostic request that `optiga_get_error_code` sends is 10
bytes long: a 4-byte header with command code 0x01, param 0x00 and big-endian length
field 6, followed by the 6 bytes that the length field announces. -/
theorem error_code_request_layout (dev : optiga_dev) (snd : ext_call) (rcv : apdu_recv) :
    sent_apdus (optiga_get_error_code dev snd rcv).2.2.trace
      = sent_apdus dev.trace ++ [error_code_apdu] ∧
    error_code_apdu.length = 10 ∧
    error_code_apdu.take OPTIGA_APDU_LEN_OFFS = [0x01, 0x00] ∧
    sys_get_be16 error_code_apdu OPTIGA_APDU_LEN_OFFS = 6 ∧
    (error_code_apdu.drop OPTIGA_APDU_OUT_DATA_OFFSET).length = 6 :=
  ⟨optiga_get_error_code_sent dev snd rcv, by decide, by decide, by decide, by decide⟩

/-! ## `start_shield` -/

/-- C26 (`start_shield` exclusivity, shielded connection compiled in): `start_shield`
returns `-EALREADY` if and only if the shield state at the call is neither
`OPTIGA_PRES_DISABLED` nor `OPTIGA_PRES_KEY_LOADED` (the key installation itself not
returning `-EALREADY`); in that case, as in the states LOADING_KEY, HANDSHAKE and
ENABLED, the driver state is left as it is: the shield state is unchanged and
`optiga_pres_set_shared_secret` is not called. -/
theorem start_shield_exclusive (cfg : optiga_kconfig) (dev : optiga_dev) (key : List Nat)
    (key_len : Nat) (secret : ext_call) (hs : cfg.shielded_connection = true)
    (hres : secret.err ≠ -EALREADY) :
    ((start_shield cfg dev key key_len secret).1 = -EALREADY ↔
      (dev.shield_state ≠ OPTIGA_PRES_DISABLED ∧ dev.shield_state ≠ OPTIGA_PRES_KEY_LOADED)) ∧
    ((start_shield cfg dev key key_len secret).1 = -EALREADY →
      (start_shield cfg dev key key_len secret).2 = dev) ∧
    ((dev.shield_state = OPTIGA_PRES_LOADING_KEY ∨ dev.shield_state = OPTIGA_PRES_HANDSHAKE ∨
        dev.shield_state = OPTIGA_PRES_ENABLED) →
      start_shield cfg dev key key_len secret = (-EALREADY, dev)) := by
  have hd : ∀ d : optiga_dev, ({ d with shield_state := d.shield_state } : optiga_dev) = d := by
    intro d; cases d; rfl
  have key1 : dev.shield_state ≠ OPTIGA_PRES_DISABLED →
      dev.shield_state ≠ OPTIGA_PRES_KEY_LOADED →
      start_shield cfg dev key key_len secret = (-EALREADY, dev) := by
    intro h1 h2
    simp [start_shield, hs, atomic_cas, h1, h2, hd]
  have key2 : (dev.shield_state = OPTIGA_PRES_DISABLED ∨
      dev.shield_state = OPTIGA_PRES_KEY_LOADED) →
      (start_shield cfg dev key key_len secret).1 = secret.err := by
    intro h
    rcases h with h | h
    · simp only [start_shield, hs, atomic_cas, h, ext_invoke, if_true]
      by_cases hz : secret.err = 0
      · simp [hz]
      · simp [hz]
    · simp only [start_shield, hs, atomic_cas, h, ext_invoke, if_true]
      by_cases hz : secret.err = 0
      · simp [hz]
      · simp [hz]
  have hiff : (start_shield cfg dev key key_len secret).1 = -EALREADY ↔
      (dev.shield_state ≠ OPTIGA_PRES_DISABLED ∧
        dev.shield_state ≠ OPTIGA_PRES_KEY_LOADED) := by
    constructor
    · intro h
      by_contra hn
      have hor : dev.shield_state = OPTIGA_PRES_DISABLED ∨
          dev.shield_state = OPTIGA_PRES_KEY_LOADED := by
        by_cases h1 : dev.shield_state = OPTIGA_PRES_DISABLED
        · exact Or.inl h1
        · by_cases h2 : dev.shield_state = OPTIGA_PRES_KEY_LOADED
          · exact Or.inr h2
          · exact absurd ⟨h1, h2⟩ hn
      rw [key2 hor] at h
      exact hres h
    · intro h
      rw [key1 h.1 h.2]
  refine ⟨hiff, ?_, ?_⟩
  · intro h
    obtain ⟨h1, h2⟩ := hiff.mp h
    rw [key1 h1 h2]
  · intro h
    apply key1
    · rcases h with h | h | h <;> rw [h] <;> decide
    · rcases h with h | h | h <;> rw [h] <;> decide

theorem start_shield_exclusive_witness :
    start_shield ⟨true, 4⟩ { sample_dev 0 with shield_state := OPTIGA_PRES_ENABLED }
        [1, 2, 3] 3 call_ok
      = (-EALREADY, { sample_dev 0 with shield_state := OPTIGA_PRES_ENABLED }) :=
  (start_shield_exclusive ⟨true, 4⟩ { sample_dev 0 with shield_state := OPTIGA_PRES_ENABLED }
    [1, 2, 3] 3 call_ok rfl (by decide)).2.2 (Or.inr (Or.inr rfl))

/-- C27 (`start_shield` outcome, shielded connection compiled in, no concurrent
transition): called in `OPTIGA_PRES_DISABLED` or `OPTIGA_PRES_KEY_LOADED`, `start_shield`
calls `optiga_pres_set_shared_secret` once with the key; when that returns 0 it returns
0 and the shield state is `OPTIGA_PRES_KEY_LOADED`; when that fails it returns the
failure code and the shield state is the one held before the call. -/
theorem start_shield_outcome (cfg : optiga_kconfig) (dev : optiga_dev) (key : List Nat)
    (key_len : Nat) (secret : ext_call) (hs : cfg.shielded_connection = true)
    (hst : dev.shield_state = OPTIGA_PRES_DISABLED ∨
      dev.shield_state = OPTIGA_PRES_KEY_LOADED) :
    (start_shield cfg dev key key_len secret).2.trace
      = dev.trace ++ [drv_op.pres_set_shared_secret key key_len] ∧
    (secret.err = 0 →
      (start_shield cfg dev key key_len secret).1 = 0 ∧
      (start_shield cfg dev key key_len secret).2.shield_state = OPTIGA_PRES_KEY_LOADED) ∧
    (secret.err ≠ 0 →
      (start_shield cfg dev key key_len secret).1 = secret.err ∧
      (start_shield cfg dev key key_len secret).2.shield_state = dev.shield_state) := by
  rcases hst with h | h
  · simp only [start_shield, hs, atomic_cas, h, ext_invoke, if_true]
    by_cases hz : secret.err = 0
    · simp [hz]
    · simp [hz]
  · simp only [start_shield, hs, atomic_cas, h, ext_invoke, if_true]
    by_cases hz : secret.err = 0
    · simp [hz]
    · simp [hz]

theorem start_shield_outcome_witness :
    (start_shield ⟨true, 4⟩ { sample_dev 0 with shield_state := OPTIGA_PRES_KEY_LOADED }
        [1, 2, 3] 3 call_failed).1 = call_failed.err ∧
    (start_shield ⟨true, 4⟩ { sample_dev 0 with shield_state := OPTIGA_PRES_KEY_LOADED }
        [1, 2, 3] 3 call_failed).2.shield_state = OPTIGA_PRES_KEY_LOADED :=
  (start_shield_outcome ⟨true, 4⟩ { sample_dev 0 with shield_state := OPTIGA_PRES_KEY_LOADED }
    [1, 2, 3] 3 call_failed rfl (Or.inr rfl)).2.2 (by decide)

/-! ## `WORKER_PROCESS_APDU` -/

/-- The part of the iteration from `optiga_transfer_apdu` on uses the driver state only,
not the local variables. -/
theorem worker_transfer_congr (cfg : optiga_kconfig) (w1 w2 : worker) (a : optiga_apdu)
    (e : worker_env) (h : w1.dev = w2.dev) :
    worker_transfer cfg w1 a e = worker_transfer cfg w2 a e := by
  simp only [worker_transfer, h]

theorem optiga_dev_shield_eta (d : optiga_dev) :
    ({ d with shield_state := d.shield_state } : optiga_dev) = d := by
  cases d; rfl

/-- A `WORKER_PROCESS_APDU` iteration whose handshake, if one is due, succeeds continues
with `optiga_transfer_apdu` on the state `before_transfer`. -/
theorem worker_step_process_transfer (cfg : optiga_kconfig) (w : worker) (e : worker_env)
    (a : optiga_apdu) (hs : w.state = WORKER_STATE.WORKER_PROCESS_APDU)
    (ha : w.apdu = some a) (hr : reaches_transfer cfg w e) :
    optiga_worker_step cfg w e
      = worker_transfer cfg { w with dev := before_transfer cfg w e } a e := by
  simp only [optiga_worker_step, hs, ha, before_transfer, handshake_due]
  by_cases hc : cfg.shielded_connection = true
  · by_cases hk : w.dev.shield_state = OPTIGA_PRES_KEY_LOADED
    · have hh := hr hc hk
      simp only [hc, hk, atomic_cas, ext_invoke, hh, if_true, Bool.true_and, decide_True]
      exact worker_transfer_congr cfg _ _ a e rfl
    · simp only [hc, hk, atomic_cas, if_true, if_false, Bool.true_and, decide_False,
        Bool.false_eq_true]
  · simp only [hc, if_false, Bool.false_and, Bool.false_eq_true]
    exact worker_transfer_congr cfg _ _ a e rfl

/-- A `WORKER_PROCESS_APDU` iteration whose handshake is due and fails. -/
theorem worker_step_process_handshake_fails (cfg : optiga_kconfig) (w : worker)
    (e : worker_env) (a : optiga_apdu) (hs : w.state = WORKER_STATE.WORKER_PROCESS_APDU)
    (ha : w.apdu = some a) (hc : cfg.shielded_connection = true)
    (hk : w.dev.shield_state = OPTIGA_PRES_KEY_LOADED) (hh : e.handshake.err ≠ 0) :
    optiga_worker_step cfg w e
      = { state := WORKER_STATE.WORKER_RESET, apdu := none, err := e.handshake.err,
          dev := { w.dev with
            dl := e.handshake.dl, shield_state := OPTIGA_PRES_KEY_LOADED,
            trace := w.dev.trace ++ [drv_op.pres_do_handshake,
              drv_op.signal a.id (-EIO_ERRNO)] } } := by
  simp only [optiga_worker_step, hs, ha, hc, hk, atomic_cas, ext_invoke, hh, if_true, if_false,
    k_poll_signal_raise]
  simp

theorem handshakes_append (t u : List drv_op) :
    handshakes (t ++ u) = handshakes t + handshakes u := by
  simp [handshakes]

theorem queue_ops_append (t u : List drv_op) :
    queue_ops (t ++ u) = queue_ops t ++ queue_ops u := by
  simp [queue_ops]

theorem optiga_transfer_apdu_send_fails (dev : optiga_dev) (a : optiga_apdu) (snd : ext_call)
    (rcv : apdu_recv) (h : snd.err ≠ 0) :
    optiga_transfer_apdu dev a snd rcv
      = (snd.err, a, { dev with
          dl := snd.dl,
          trace := dev.trace ++ [drv_op.send_apdu (a.tx_buf.take a.tx_len)] }) := by
  simp only [optiga_transfer_apdu, optiga_send_apdu, h, ne_eq, not_false_eq_true, if_true]

theorem optiga_transfer_apdu_received (dev : optiga_dev) (a : optiga_apdu) (snd : ext_call)
    (rcv : apdu_recv) (h : snd.err = 0) :
    optiga_transfer_apdu dev a snd rcv
      = (rcv.err, { a with rx_buf := rcv.buf, rx_len := rcv.len }, { dev with
          dl := rcv.dl,
          trace := dev.trace ++ [drv_op.send_apdu (a.tx_buf.take a.tx_len),
            drv_op.recv_apdu] }) := by
  simp only [optiga_transfer_apdu, optiga_send_apdu, optiga_recv_apdu, h, ne_eq,
    not_true_eq_false, if_false]
  split_ifs <;> simp

theorem rehandshake_check_eq (cfg : optiga_kconfig) (dev : optiga_dev) (presence need : Bool) :
    rehandshake_check cfg dev presence need
      = { dev with shield_state := (rehandshake_check cfg dev presence need).shield_state } := by
  simp only [rehandshake_check]
  split_ifs
  · rfl
  · cases dev; rfl

theorem optiga_get_error_code_trace (dev : optiga_dev) (snd : ext_call) (rcv : apdu_recv) :
    (optiga_get_error_code dev snd rcv).2.2.trace
      = dev.trace ++ drv_op.send_apdu error_code_apdu ::
          (if snd.err ≠ 0 then [] else [drv_op.recv_apdu]) ∧
    (optiga_get_error_code dev snd rcv).2.2.reset_counter = dev.reset_counter ∧
    (optiga_get_error_code dev snd rcv).2.2.apdu_queue = dev.apdu_queue := by
  simp only [optiga_get_error_code, optiga_send_apdu, optiga_recv_apdu]
  split_ifs <;> simp

/-- The send of the APDU fails: no receive, the APDU is signalled with the error of the
send. -/
theorem worker_transfer_send_fails (cfg : optiga_kconfig) (w : worker) (a : optiga_apdu)
    (e : worker_env) (h : e.transfer_snd.err ≠ 0) :
    worker_transfer cfg w a e
      = { state := WORKER_STATE.WORKER_RESET, apdu := none, err := e.transfer_snd.err,
          dev := { w.dev with
            dl := e.transfer_snd.dl,
            trace := w.dev.trace ++ [drv_op.send_apdu (a.tx_buf.take a.tx_len),
              drv_op.signal a.id e.transfer_snd.err] } } := by
  simp only [worker_transfer]
  rw [optiga_transfer_apdu_send_fails w.dev a e.transfer_snd e.transfer_rcv h]
  simp [h, k_poll_signal_raise]

/-- The receive of the response fails: the APDU is signalled with the error of the
receive. -/
theorem worker_transfer_recv_fails (cfg : optiga_kconfig) (w : worker) (a : optiga_apdu)
    (e : worker_env) (h1 : e.transfer_snd.err = 0) (h2 : e.transfer_rcv.err ≠ 0) :
    worker_transfer cfg w a e
      = { state := WORKER_STATE.WORKER_RESET, apdu := none, err := e.transfer_rcv.err,
          dev := { w.dev with
            dl := e.transfer_rcv.dl,
            trace := w.dev.trace ++ [drv_op.send_apdu (a.tx_buf.take a.tx_len),
              drv_op.recv_apdu, drv_op.signal a.id e.transfer_rcv.err] } } := by
  simp only [worker_transfer]
  rw [optiga_transfer_apdu_received w.dev a e.transfer_snd e.transfer_rcv h1]
  simp [h2, k_poll_signal_raise]

/-- The transfer succeeds and the response has status 0: the APDU is signalled with
`OPTIGA_STATUS_CODE_SUCCESS`. -/
theorem worker_transfer_accepted (cfg : optiga_kconfig) (w : worker) (a : optiga_apdu)
    (e : worker_env) (h1 : e.transfer_snd.err = 0) (h2 : e.transfer_rcv.err = 0)
    (h3 : optiga_apdu_is_error e.transfer_rcv.buf = false) :
    (worker_transfer cfg w a e).state = WORKER_STATE.WORKER_IDLE ∧
    (worker_transfer cfg w a e).apdu = none ∧
    (worker_transfer cfg w a e).dev.reset_counter = 0 ∧
    (worker_transfer cfg w a e).dev.apdu_queue = w.dev.apdu_queue ∧
    (worker_transfer cfg w a e).dev.trace
      = w.dev.trace ++ [drv_op.send_apdu (a.tx_buf.take a.tx_len), drv_op.recv_apdu,
          drv_op.signal a.id OPTIGA_STATUS_CODE_SUCCESS] := by
  simp only [worker_transfer]
  rw [optiga_transfer_apdu_received w.dev a e.transfer_snd e.transfer_rcv h1]
  simp only [h2, h3, ne_eq, not_true_eq_false, if_false, Bool.false_eq_true]
  rw [rehandshake_check_eq]
  simp [k_poll_signal_raise]

/-- The transfer succeeds and the response has a non-zero status: the diagnostic read
follows, and the APDU is signalled with its error or with the code it gave. -/
theorem worker_transfer_rejected (cfg : optiga_kconfig) (w : worker) (a : optiga_apdu)
    (e : worker_env) (h1 : e.transfer_snd.err = 0) (h2 : e.transfer_rcv.err = 0)
    (h3 : optiga_apdu_is_error e.transfer_rcv.buf = true) :
    ∃ d : optiga_dev, d.trace = w.dev.trace ++ [drv_op.send_apdu (a.tx_buf.take a.tx_len),
        drv_op.recv_apdu] ∧ d.reset_counter = 0 ∧ d.apdu_queue = w.dev.apdu_queue ∧
      (worker_transfer cfg w a e).dev.reset_counter = 0 ∧
      (worker_transfer cfg w a e).dev.apdu_queue = w.dev.apdu_queue ∧
      (worker_transfer cfg w a e).apdu = none ∧
      ((optiga_get_error_code d e.code_snd e.code_rcv).1 ≠ 0 →
        (worker_transfer cfg w a e).state = WORKER_STATE.WORKER_RESET ∧
        (worker_transfer cfg w a e).dev.trace
          = (optiga_get_error_code d e.code_snd e.code_rcv).2.2.trace
            ++ [drv_op.signal a.id (optiga_get_error_code d e.code_snd e.code_rcv).1]) ∧
      ((optiga_get_error_code d e.code_snd e.code_rcv).1 = 0 →
        (worker_transfer cfg w a e).state = WORKER_STATE.WORKER_IDLE ∧
        (worker_transfer cfg w a e).dev.trace
          = (optiga_get_error_code d e.code_snd e.code_rcv).2.2.trace
            ++ [drv_op.signal a.id
              (((optiga_get_error_code d e.code_snd e.code_rcv).2.1.getD 0 : Nat) : Int)]) := by
  have hD1 : (rehandshake_check cfg
      { w.dev with dl := e.transfer_rcv.dl, reset_counter := 0,
                   trace := w.dev.trace ++ [drv_op.send_apdu (a.tx_buf.take a.tx_len),
                     drv_op.recv_apdu] } e.presence e.need_rehandshake).trace
      = w.dev.trace ++ [drv_op.send_apdu (a.tx_buf.take a.tx_len), drv_op.recv_apdu] := by
    rw [rehandshake_check_eq]
  have hD2 : (rehandshake_check cfg
      { w.dev with dl := e.transfer_rcv.dl, reset_counter := 0,
                   trace := w.dev.trace ++ [drv_op.send_apdu (a.tx_buf.take a.tx_len),
                     drv_op.recv_apdu] } e.presence e.need_rehandshake).reset_counter = 0 := by
    rw [rehandshake_check_eq]
  have hD3 : (rehandshake_check cfg
      { w.dev with dl := e.transfer_rcv.dl, reset_counter := 0,
                   trace := w.dev.trace ++ [drv_op.send_apdu (a.tx_buf.take a.tx_len),
                     drv_op.recv_apdu] } e.presence e.need_rehandshake).apdu_queue
      = w.dev.apdu_queue := by
    rw [rehandshake_check_eq]
  refine ⟨_, hD1, hD2, hD3, ?_⟩
  simp only [worker_transfer]
  rw [optiga_transfer_apdu_received w.dev a e.transfer_snd e.transfer_rcv h1]
  simp only [h2, h3, ne_eq, not_true_eq_false, if_false, if_true]
  generalize rehandshake_check cfg
      { w.dev with dl := e.transfer_rcv.dl, reset_counter := 0,
                   trace := w.dev.trace ++ [drv_op.send_apdu (a.tx_buf.take a.tx_len),
                     drv_op.recv_apdu] } e.presence e.need_rehandshake = D at hD1 hD2 hD3 ⊢
  have hg := optiga_get_error_code_trace D e.code_snd e.code_rcv
  generalize optiga_get_error_code D e.code_snd e.code_rcv = g at hg ⊢
  obtain ⟨gerr, code, d2⟩ := g
  obtain ⟨_, g2, g3⟩ := hg
  simp only at g2 g3 ⊢
  by_cases hz : gerr = 0
  · simp only [hz, not_true_eq_false, if_false]
    rw [rehandshake_check_eq]
    simp [k_poll_signal_raise, g2, g3, hD2, hD3]
  · simp only [hz, not_false_eq_true, if_true]
    simp [k_poll_signal_raise, g2, g3, hD2, hD3, hz]

theorem before_transfer_fields (cfg : optiga_kconfig) (w : worker) (e : worker_env) :
    (before_transfer cfg w e).trace
      = w.dev.trace ++ (if handshake_due cfg w then [drv_op.pres_do_handshake] else []) ∧
    (before_transfer cfg w e).reset_counter = w.dev.reset_counter ∧
    (before_transfer cfg w e).apdu_queue = w.dev.apdu_queue := by
  simp only [before_transfer]
  split_ifs <;> simp

/-- The trace of the part from `optiga_transfer_apdu` on starts with the send of the
APDU's bytes and holds no handshake. -/
theorem worker_transfer_trace (cfg : optiga_kconfig) (w : worker) (a : optiga_apdu)
    (e : worker_env) :
    ∃ rest, (worker_transfer cfg w a e).dev.trace
      = w.dev.trace ++ drv_op.send_apdu (a.tx_buf.take a.tx_len) :: rest ∧
      handshakes rest = 0 := by
  by_cases h1 : e.transfer_snd.err = 0
  · by_cases h2 : e.transfer_rcv.err = 0
    · cases h3 : optiga_apdu_is_error e.transfer_rcv.buf with
      | false =>
        refine ⟨[drv_op.recv_apdu, drv_op.signal a.id OPTIGA_STATUS_CODE_SUCCESS], ?_, by
          simp [handshakes]⟩
        rw [(worker_transfer_accepted cfg w a e h1 h2 h3).2.2.2.2]
      | true =>
        obtain ⟨d, hd, _, _, _, _, _, hf, hk⟩ := worker_transfer_rejected cfg w a e h1 h2 h3
        have hg := (optiga_get_error_code_trace d e.code_snd e.code_rcv).1
        by_cases hz : (optiga_get_error_code d e.code_snd e.code_rcv).1 = 0
        · refine ⟨drv_op.recv_apdu :: drv_op.send_apdu error_code_apdu ::
            ((if e.code_snd.err ≠ 0 then [] else [drv_op.recv_apdu]) ++
              [drv_op.signal a.id
                (((optiga_get_error_code d e.code_snd e.code_rcv).2.1.getD 0 : Nat) : Int)]),
            ?_, ?_⟩
          · rw [(hk hz).2, hg, hd]
            simp
          · split_ifs <;> simp [handshakes]
        · refine ⟨drv_op.recv_apdu :: drv_op.send_apdu error_code_apdu ::
            ((if e.code_snd.err ≠ 0 then [] else [drv_op.recv_apdu]) ++
              [drv_op.signal a.id (optiga_get_error_code d e.code_snd e.code_rcv).1]),
            ?_, ?_⟩
          · rw [(hf hz).2, hg, hd]
            simp
          · split_ifs <;> simp [handshakes]
    · refine ⟨[drv_op.recv_apdu, drv_op.signal a.id e.transfer_rcv.err], ?_, by
        simp [handshakes]⟩
      rw [worker_transfer_recv_fails cfg w a e h1 h2]
  · refine ⟨[drv_op.signal a.id e.transfer_snd.err], ?_, by simp [handshakes]⟩
    rw [worker_transfer_send_fails cfg w a e h1]

/-- C21 (device error delivery): in `WORKER_PROCESS_APDU`, if the transfer is reached and
succeeds, the status byte of the response is non-zero and the diagnostic error-code
read is answered well, then the diagnostic command is exchanged and the APDU is
signalled with byte 4 of the diagnostic response; the worker goes to `WORKER_IDLE` and
the reset counter is 0. -/
theorem device_error_delivery (cfg : optiga_kconfig) (w : worker) (e : worker_env)
    (a : optiga_apdu) (hs : w.state = WORKER_STATE.WORKER_PROCESS_APDU)
    (ha : w.apdu = some a) (hr : reaches_transfer cfg w e)
    (hsnd : e.transfer_snd.err = 0) (hrcv : e.transfer_rcv.err = 0)
    (hsta : e.transfer_rcv.buf.getD OPTIGA_APDU_STA_OFFSET 0 ≠ OPTIGA_APDU_STA_SUCCESS)
    (hcode : code_read_ok e.code_snd e.code_rcv) :
    (optiga_worker_step cfg w e).dev.trace
      = (before_transfer cfg w e).trace ++
        [drv_op.send_apdu (a.tx_buf.take a.tx_len), drv_op.recv_apdu,
          drv_op.send_apdu error_code_apdu, drv_op.recv_apdu,
          drv_op.signal a.id ((e.code_rcv.buf.getD 4 0 : Nat) : Int)] ∧
    (optiga_worker_step cfg w e).state = WORKER_STATE.WORKER_IDLE ∧
    (optiga_worker_step cfg w e).apdu = none ∧
    (optiga_worker_step cfg w e).dev.reset_counter = 0 := by
  have h3 : optiga_apdu_is_error e.transfer_rcv.buf = true := by
    simpa [optiga_apdu_is_error, -List.getD_eq_getElem?_getD] using hsta
  rw [worker_step_process_transfer cfg w e a hs ha hr]
  obtain ⟨d, hd, _, _, hrc, _, hap, _, hk⟩ :=
    worker_transfer_rejected cfg { w with dev := before_transfer cfg w e } a e hsnd hrcv h3
  obtain ⟨g1, g2⟩ := optiga_get_error_code_ok d e.code_snd e.code_rcv hcode
  have hg := (optiga_get_error_code_trace d e.code_snd e.code_rcv).1
  obtain ⟨k1, k2⟩ := hk g1
  refine ⟨?_, k1, hap, hrc⟩
  rw [k2, hg, hd, g2, if_neg (by simp [hcode.1])]
  simp

theorem device_error_delivery_witness :
    (optiga_worker_step ⟨false, 4⟩ (processing 1 OPTIGA_PRES_DISABLED)
        (rejecting_env 7)).dev.trace
      = (before_transfer ⟨false, 4⟩ (processing 1 OPTIGA_PRES_DISABLED) (rejecting_env 7)).trace
        ++ [drv_op.send_apdu ((sample_apdu 1).tx_buf.take (sample_apdu 1).tx_len),
          drv_op.recv_apdu, drv_op.send_apdu error_code_apdu, drv_op.recv_apdu,
          drv_op.signal (sample_apdu 1).id (((rejecting_env 7).code_rcv.buf.getD 4 0 : Nat) : Int)] :=
  (device_error_delivery ⟨false, 4⟩ (processing 1 OPTIGA_PRES_DISABLED) (rejecting_env 7)
    (sample_apdu 1) rfl rfl (by decide) rfl rfl (by decide) (by decide)).1

/-- The completion value of a rejected command: with the transfer reached and
successful and a non-zero status byte, the APDU is signalled last in the iteration, and
the value is 0 exactly when the diagnostic read is answered well and reports code 0. -/
theorem rejected_completion_value (cfg : optiga_kconfig) (w : worker) (e : worker_env)
    (a : optiga_apdu) (hs : w.state = WORKER_STATE.WORKER_PROCESS_APDU)
    (ha : w.apdu = some a) (hr : reaches_transfer cfg w e)
    (hsnd : e.transfer_snd.err = 0) (hrcv : e.transfer_rcv.err = 0)
    (hsta : e.transfer_rcv.buf.getD OPTIGA_APDU_STA_OFFSET 0 ≠ OPTIGA_APDU_STA_SUCCESS) :
    ∃ v : Int, (optiga_worker_step cfg w e).dev.trace.getLast? = some (drv_op.signal a.id v) ∧
      (v = 0 ↔ (code_read_ok e.code_snd e.code_rcv ∧ e.code_rcv.buf.getD 4 0 = 0)) := by
  have h3 : optiga_apdu_is_error e.transfer_rcv.buf = true := by
    simpa [optiga_apdu_is_error, -List.getD_eq_getElem?_getD] using hsta
  rw [worker_step_process_transfer cfg w e a hs ha hr]
  obtain ⟨d, _, _, _, _, _, _, hf, hk⟩ :=
    worker_transfer_rejected cfg { w with dev := before_transfer cfg w e } a e hsnd hrcv h3
  obtain ⟨v1, v2, _⟩ := optiga_get_error_code_zero_iff d e.code_snd e.code_rcv
  by_cases hz : (optiga_get_error_code d e.code_snd e.code_rcv).1 = 0
  · have hc := v1.mp hz
    refine ⟨((e.code_rcv.buf.getD 4 0 : Nat) : Int), ?_, ?_⟩
    · rw [(hk hz).2, v2 hz]
      simp
    · simp [hc, -List.getD_eq_getElem?_getD]
  · refine ⟨(optiga_get_error_code d e.code_snd e.code_rcv).1, by rw [(hf hz).2]; simp, ?_⟩
    constructor
    · intro h; exact absurd h hz
    · intro h; exact absurd (v1.mpr h.1) hz

/-- C22 fails on the code. The device rejects the APDU (status byte 0xFF) and then
answers the diagnostic read well with error code 0: the worker signals the APDU with
the code byte as it is, which is `OPTIGA_STATUS_CODE_SUCCESS`, and goes to
`WORKER_IDLE`. -/
theorem rejected_command_reported_as_success :
    optiga_apdu_is_error (rejecting_env 0).transfer_rcv.buf = true ∧
    (optiga_worker_step ⟨false, 4⟩ (processing 0 OPTIGA_PRES_DISABLED)
        (rejecting_env 0)).dev.trace
      = [drv_op.fifo_get (some 1),
          drv_op.send_apdu [0x81, 0x00, 0x00, 0x02, 0xE0, 0xC2], drv_op.recv_apdu,
          drv_op.send_apdu [0x01, 0x00, 0x00, 0x06, 0xF1, 0xC2, 0x00, 0x00, 0x00, 0x01],
          drv_op.recv_apdu,
          drv_op.signal 1 OPTIGA_STATUS_CODE_SUCCESS] ∧
    (optiga_worker_step ⟨false, 4⟩ (processing 0 OPTIGA_PRES_DISABLED)
        (rejecting_env 0)).state = WORKER_STATE.WORKER_IDLE := by
  decide

/-- C23 (transport failure handling): in `WORKER_PROCESS_APDU`, if the transfer is reached
and `optiga_transfer_apdu` returns a non-zero error (the error of the send, after which
no receive is attempted, or the error of the receive), the APDU is signalled with
exactly that error right after the failing call, no diagnostic command is sent, and the
next state is `WORKER_RESET`. -/
theorem transport_failure_handling (cfg : optiga_kconfig) (w : worker) (e : worker_env)
    (a : optiga_apdu) (hs : w.state = WORKER_STATE.WORKER_PROCESS_APDU)
    (ha : w.apdu = some a) (hr : reaches_transfer cfg w e)
    (hf : (optiga_transfer_apdu (before_transfer cfg w e) a
      e.transfer_snd e.transfer_rcv).1 ≠ 0) :
    (optiga_transfer_apdu (before_transfer cfg w e) a e.transfer_snd e.transfer_rcv).1
      = (if e.transfer_snd.err ≠ 0 then e.transfer_snd.err else e.transfer_rcv.err) ∧
    (optiga_worker_step cfg w e).dev.trace
      = (before_transfer cfg w e).trace ++
        drv_op.send_apdu (a.tx_buf.take a.tx_len) ::
          ((if e.transfer_snd.err ≠ 0 then [] else [drv_op.recv_apdu]) ++
            [drv_op.signal a.id (optiga_transfer_apdu (before_transfer cfg w e) a
              e.transfer_snd e.transfer_rcv).1]) ∧
    sent_apdus (optiga_worker_step cfg w e).dev.trace
      = sent_apdus w.dev.trace ++ [a.tx_buf.take a.tx_len] ∧
    (optiga_worker_step cfg w e).state = WORKER_STATE.WORKER_RESET ∧
    (optiga_worker_step cfg w e).apdu = none := by
  have herr := optiga_transfer_apdu_err (before_transfer cfg w e) a e.transfer_snd e.transfer_rcv
  have hb := (before_transfer_fields cfg w e).1
  have hsb : sent_apdus (before_transfer cfg w e).trace = sent_apdus w.dev.trace := by
    rw [hb, sent_apdus_append]
    split_ifs <;> simp [sent_apdus]
  rw [worker_step_process_transfer cfg w e a hs ha hr]
  rw [herr] at hf ⊢
  by_cases h1 : e.transfer_snd.err = 0
  · have h2 : e.transfer_rcv.err ≠ 0 := by simpa [h1] using hf
    rw [worker_transfer_recv_fails cfg _ a e h1 h2]
    simp only [h1, ne_eq, not_true_eq_false, if_false]
    refine ⟨trivial, by simp, ?_, trivial, trivial⟩
    rw [sent_apdus_append, hsb]
    simp [sent_apdus]
  · rw [worker_transfer_send_fails cfg _ a e h1]
    simp only [h1, ne_eq, not_false_eq_true, if_true]
    refine ⟨trivial, by simp, ?_, trivial, trivial⟩
    rw [sent_apdus_append, hsb]
    simp [sent_apdus]

theorem transport_failure_handling_witness :
    (optiga_worker_step ⟨false, 4⟩ (processing 0 OPTIGA_PRES_DISABLED) failing_env).state
      = WORKER_STATE.WORKER_RESET :=
  (transport_failure_handling ⟨false, 4⟩ (processing 0 OPTIGA_PRES_DISABLED) failing_env
    (sample_apdu 1) rfl rfl (by decide) (by decide)).2.2.2.1

/-- C28 (handshake gate, shielded connection compiled in): in `WORKER_PROCESS_APDU` the
handshake is executed if and only if the shield state is `OPTIGA_PRES_KEY_LOADED`, and
then once. If it succeeds, the shield state is set to `OPTIGA_PRES_ENABLED` and the
iteration goes on with `optiga_transfer_apdu`, whose send of the APDU follows the
handshake in the trace. If it fails, the shield state is `OPTIGA_PRES_KEY_LOADED` again,
the APDU is signalled with `-EIO` right after the handshake, nothing is sent and the
next state is `WORKER_RESET`. -/
theorem handshake_gate (cfg : optiga_kconfig) (w : worker) (e : worker_env) (a : optiga_apdu)
    (hc : cfg.shielded_connection = true)
    (hs : w.state = WORKER_STATE.WORKER_PROCESS_APDU) (ha : w.apdu = some a) :
    handshakes (optiga_worker_step cfg w e).dev.trace
      = handshakes w.dev.trace
        + (if w.dev.shield_state = OPTIGA_PRES_KEY_LOADED then 1 else 0) ∧
    (w.dev.shield_state = OPTIGA_PRES_KEY_LOADED → e.handshake.err = 0 →
      optiga_worker_step cfg w e
        = worker_transfer cfg { w with dev := { w.dev with
            dl := e.handshake.dl, shield_state := OPTIGA_PRES_ENABLED,
            trace := w.dev.trace ++ [drv_op.pres_do_handshake] } } a e ∧
      ∃ rest, (optiga_worker_step cfg w e).dev.trace
        = w.dev.trace ++ drv_op.pres_do_handshake ::
            drv_op.send_apdu (a.tx_buf.take a.tx_len) :: rest) ∧
    (w.dev.shield_state = OPTIGA_PRES_KEY_LOADED → e.handshake.err ≠ 0 →
      (optiga_worker_step cfg w e).dev.shield_state = OPTIGA_PRES_KEY_LOADED ∧
      (optiga_worker_step cfg w e).dev.trace
        = w.dev.trace ++ [drv_op.pres_do_handshake, drv_op.signal a.id (-EIO_ERRNO)] ∧
      sent_apdus (optiga_worker_step cfg w e).dev.trace = sent_apdus w.dev.trace ∧
      (optiga_worker_step cfg w e).state = WORKER_STATE.WORKER_RESET ∧
      (optiga_worker_step cfg w e).apdu = none) := by
  have hok : w.dev.shield_state = OPTIGA_PRES_KEY_LOADED → e.handshake.err = 0 →
      optiga_worker_step cfg w e
        = worker_transfer cfg { w with dev := { w.dev with
            dl := e.handshake.dl, shield_state := OPTIGA_PRES_ENABLED,
            trace := w.dev.trace ++ [drv_op.pres_do_handshake] } } a e := by
    intro hk hh
    rw [worker_step_process_transfer cfg w e a hs ha (fun _ _ => hh)]
    simp [before_transfer, handshake_due, hc, hk]
  refine ⟨?_, ?_, ?_⟩
  · by_cases hk : w.dev.shield_state = OPTIGA_PRES_KEY_LOADED
    · rw [if_pos hk]
      by_cases hh : e.handshake.err = 0
      · rw [hok hk hh]
        obtain ⟨rest, h1, h2⟩ := worker_transfer_trace cfg { w with dev := { w.dev with
            dl := e.handshake.dl, shield_state := OPTIGA_PRES_ENABLED,
            trace := w.dev.trace ++ [drv_op.pres_do_handshake] } } a e
        rw [h1]
        have h3 : handshakes (drv_op.send_apdu (a.tx_buf.take a.tx_len) :: rest) = 0 := by
          simpa [handshakes] using h2
        simp only [handshakes_append, h3]
        simp [handshakes]
      · rw [worker_step_process_handshake_fails cfg w e a hs ha hc hk hh]
        simp [handshakes]
    · rw [if_neg hk]
      rw [worker_step_process_transfer cfg w e a hs ha (fun _ h => absurd h hk)]
      obtain ⟨rest, h1, h2⟩ := worker_transfer_trace cfg
        { w with dev := before_transfer cfg w e } a e
      rw [h1]
      have h3 : handshakes (drv_op.send_apdu (a.tx_buf.take a.tx_len) :: rest) = 0 := by
        simpa [handshakes] using h2
      simp only [handshakes_append, h3]
      simp [before_transfer, handshake_due, hk]
  · intro hk hh
    refine ⟨hok hk hh, ?_⟩
    rw [hok hk hh]
    obtain ⟨rest, h1, _⟩ := worker_transfer_trace cfg { w with dev := { w.dev with
        dl := e.handshake.dl, shield_state := OPTIGA_PRES_ENABLED,
        trace := w.dev.trace ++ [drv_op.pres_do_handshake] } } a e
    exact ⟨rest, by rw [h1]; simp⟩
  · intro hk hh
    rw [worker_step_process_handshake_fails cfg w e a hs ha hc hk hh]
    simp [sent_apdus]

theorem handshake_gate_witness :
    handshakes (optiga_worker_step ⟨true, 4⟩ (processing 0 OPTIGA_PRES_KEY_LOADED)
        sample_env).dev.trace
      = handshakes (processing 0 OPTIGA_PRES_KEY_LOADED).dev.trace
        + (if (processing 0 OPTIGA_PRES_KEY_LOADED).dev.shield_state = OPTIGA_PRES_KEY_LOADED
            then 1 else 0) :=
  (handshake_gate ⟨true, 4⟩ (processing 0 OPTIGA_PRES_KEY_LOADED) sample_env (sample_apdu 1)
    rfl rfl rfl).1

/-! ## `WORKER_RESET` and the reset counter -/

theorem optiga_reset_keeps (cfg : optiga_kconfig) (dev : optiga_dev)
    (phy nettran pres : ext_call) :
    (optiga_reset cfg dev phy nettran pres).2.reset_counter = dev.reset_counter ∧
    (optiga_reset cfg dev phy nettran pres).2.apdu_queue = dev.apdu_queue ∧
    queue_ops (optiga_reset cfg dev phy nettran pres).2.trace = queue_ops dev.trace := by
  simp only [optiga_reset, ext_invoke, drv_data_init, optiga_data_init]
  split_ifs <;> simp [queue_ops, is_queue_op]

theorem optiga_open_application_keeps (dev : optiga_dev) (handle : Bool) (snd : ext_call)
    (rcv : apdu_recv) :
    (optiga_open_application dev handle snd rcv).2.reset_counter = dev.reset_counter ∧
    (optiga_open_application dev handle snd rcv).2.apdu_queue = dev.apdu_queue ∧
    queue_ops (optiga_open_application dev handle snd rcv).2.trace = queue_ops dev.trace := by
  simp only [optiga_open_application, optiga_send_apdu, optiga_recv_apdu]
  split_ifs <;> simp [queue_ops, is_queue_op]

theorem optiga_close_application_keeps (dev : optiga_dev) (handle : Bool) (snd : ext_call)
    (rcv : apdu_recv) :
    (optiga_close_application dev handle snd rcv).2.reset_counter = dev.reset_counter ∧
    (optiga_close_application dev handle snd rcv).2.apdu_queue = dev.apdu_queue := by
  cases handle <;>
    simp only [optiga_close_application, optiga_send_apdu, optiga_recv_apdu, Bool.false_eq_true,
      if_false, if_true] <;>
    split_ifs <;> simp

theorem optiga_hibernate_keeps (cfg : optiga_kconfig) (dev : optiga_dev) (e : hibernate_env) :
    (optiga_hibernate cfg dev e).reset_counter = dev.reset_counter := by
  by_cases hb : wake_locks cfg dev.session_reservations ≠ 0
  · rw [optiga_hibernate_blocked cfg dev e hb]
  · have hc := (optiga_close_application_keeps dev
      ((dev.session_reservations &&& OPTIGA_IGNORE_HIBERNATE_MASK cfg) != 0)
      e.close_snd e.close_rcv).1
    simp only [optiga_hibernate, optiga_power_snd, ext_invoke, hb, if_false]
    generalize optiga_close_application dev
      ((dev.session_reservations &&& OPTIGA_IGNORE_HIBERNATE_MASK cfg) != 0)
      e.close_snd e.close_rcv = c at hc ⊢
    obtain ⟨res, d⟩ := c
    simp only at hc ⊢
    rw [← hc]
    split_ifs <;> rfl

theorem optiga_wakup_keeps (cfg : optiga_kconfig) (dev : optiga_dev) (e : wakup_env) :
    (optiga_wakup cfg dev e).2.reset_counter = dev.reset_counter := by
  simp only [optiga_wakup, optiga_power_snd, ext_invoke, drv_data_init, optiga_data_init]
  split_ifs <;> simp [(optiga_open_application_keeps _ _ _ _).1]

theorem queue_ops_lock_trace (ids : List Nat) : queue_ops (lock_trace ids) = lock_trace ids := by
  induction ids with
  | nil => rfl
  | cons a ids ih =>
    simp only [queue_ops] at ih
    simp [lock_trace, queue_ops, is_queue_op, ih]

theorem drain_loop_eq (q : List optiga_apdu) : ∀ t : List drv_op,
    drain_loop q t = t ++ lock_trace (q.map (fun a => a.id)) ++ [drv_op.fifo_get none] := by
  induction q with
  | nil => intro t; simp [drain_loop, lock_trace]
  | cons a q ih =>
    intro t
    simp only [drain_loop, ih, List.map_cons, lock_trace]
    simp

/-- The `WORKER_RESET` iteration below the reset bound, in terms of its two calls. -/
theorem worker_step_reset_eq (cfg : optiga_kconfig) (w : worker) (e : worker_env)
    (hs : w.state = WORKER_STATE.WORKER_RESET)
    (hne : w.dev.reset_counter + 1 ≠ OPTIGA_MAX_RESET) :
    ((reset_result cfg w e).1 ≠ 0 →
      optiga_worker_step cfg w e
        = { w with state := WORKER_STATE.WORKER_RESET, err := (reset_result cfg w e).1,
                   dev := (reset_result cfg w e).2 }) ∧
    ((reset_result cfg w e).1 = 0 → (reopen_result cfg w e).1 ≠ 0 →
      optiga_worker_step cfg w e
        = { w with state := WORKER_STATE.WORKER_RESET, err := (reopen_result cfg w e).1,
                   dev := (reopen_result cfg w e).2 }) ∧
    ((reset_result cfg w e).1 = 0 → (reopen_result cfg w e).1 = 0 →
      (optiga_worker_step cfg w e).state = WORKER_STATE.WORKER_IDLE ∧
      (optiga_worker_step cfg w e).dev.apdu_queue = [] ∧
      (optiga_worker_step cfg w e).dev.reset_counter = (reopen_result cfg w e).2.reset_counter ∧
      (optiga_worker_step cfg w e).dev.trace
        = drain_loop (reopen_result cfg w e).2.apdu_queue (reopen_result cfg w e).2.trace) := by
  simp only [optiga_worker_step, hs, hne, if_false, reopen_result, reset_result]
  generalize optiga_reset cfg { w.dev with reset_counter := w.dev.reset_counter + 1 }
    e.reset_phy e.reset_nettran e.reset_pres = r
  obtain ⟨err, d⟩ := r
  simp only
  by_cases herr : err = 0
  · simp only [herr, ne_eq, not_true_eq_false, if_false, false_implies, true_implies, true_and]
    generalize optiga_open_application d false e.open_snd e.open_rcv = o
    obtain ⟨err2, d2⟩ := o
    simp only
    by_cases herr2 : err2 = 0
    · simp only [herr2, ne_eq, not_true_eq_false, if_false, false_implies, true_implies, true_and]
      split_ifs <;> simp
    · simp [herr2]
  · simp [herr]

/-- C24 (reset drains the queue): in `WORKER_RESET` with the incremented reset counter
below `OPTIGA_MAX_RESET`, if `optiga_reset` and OpenApplication succeed, every APDU
waiting in the queue is taken and signalled with `-EIO`, in queue order, until
`k_fifo_get` finds the queue empty; no other APDU is taken or signalled, the queue is
empty afterwards and the next state is `WORKER_IDLE`. If `optiga_reset` or
OpenApplication fails, no APDU is taken or signalled, the queue is as before and the
next state is `WORKER_RESET`. -/
theorem reset_drains_queue (cfg : optiga_kconfig) (w : worker) (e : worker_env)
    (hs : w.state = WORKER_STATE.WORKER_RESET)
    (hlt : w.dev.reset_counter + 1 < OPTIGA_MAX_RESET) :
    ((reset_result cfg w e).1 = 0 → (reopen_result cfg w e).1 = 0 →
      queue_ops (optiga_worker_step cfg w e).dev.trace
        = queue_ops w.dev.trace ++ lock_trace (w.dev.apdu_queue.map (fun a => a.id))
            ++ [drv_op.fifo_get none] ∧
      (optiga_worker_step cfg w e).dev.apdu_queue = [] ∧
      (optiga_worker_step cfg w e).state = WORKER_STATE.WORKER_IDLE) ∧
    (((reset_result cfg w e).1 ≠ 0 ∨
        ((reset_result cfg w e).1 = 0 ∧ (reopen_result cfg w e).1 ≠ 0)) →
      queue_ops (optiga_worker_step cfg w e).dev.trace = queue_ops w.dev.trace ∧
      (optiga_worker_step cfg w e).dev.apdu_queue = w.dev.apdu_queue ∧
      (optiga_worker_step cfg w e).state = WORKER_STATE.WORKER_RESET) := by
  have hne : w.dev.reset_counter + 1 ≠ OPTIGA_MAX_RESET := ne_of_lt hlt
  obtain ⟨s1, s2, s3⟩ := worker_step_reset_eq cfg w e hs hne
  obtain ⟨_, r2, r3⟩ := optiga_reset_keeps cfg
    { w.dev with reset_counter := w.dev.reset_counter + 1 }
    e.reset_phy e.reset_nettran e.reset_pres
  obtain ⟨_, o2, o3⟩ := optiga_open_application_keeps (reset_result cfg w e).2 false
    e.open_snd e.open_rcv
  have q1 : (reset_result cfg w e).2.apdu_queue = w.dev.apdu_queue := r2
  have q2 : queue_ops (reset_result cfg w e).2.trace = queue_ops w.dev.trace := r3
  have q3 : (reopen_result cfg w e).2.apdu_queue = w.dev.apdu_queue := o2.trans q1
  have q4 : queue_ops (reopen_result cfg w e).2.trace = queue_ops w.dev.trace := o3.trans q2
  constructor
  · intro h1 h2
    obtain ⟨t1, t2, _, t4⟩ := s3 h1 h2
    refine ⟨?_, t2, t1⟩
    rw [t4, drain_loop_eq, queue_ops_append, queue_ops_append, q4, q3, queue_ops_lock_trace]
    rfl
  · intro h
    rcases h with h | ⟨h1, h2⟩
    · rw [s1 h]
      exact ⟨q2, q1, rfl⟩
    · rw [s2 h1 h2]
      exact ⟨q4, q3, rfl⟩

theorem reset_drains_queue_witness :
    queue_ops (optiga_worker_step ⟨false, 4⟩ resetting sample_env).dev.trace
      = queue_ops resetting.dev.trace
          ++ lock_trace (resetting.dev.apdu_queue.map (fun a => a.id))
          ++ [drv_op.fifo_get none] ∧
    (optiga_worker_step ⟨false, 4⟩ resetting sample_env).dev.apdu_queue = [] ∧
    (optiga_worker_step ⟨false, 4⟩ resetting sample_env).state = WORKER_STATE.WORKER_IDLE :=
  (reset_drains_queue ⟨false, 4⟩ resetting sample_env rfl (by decide)).1
    (by decide) (by decide)

/-- C25 fails on the code. First: with reset counter 2, the transfer succeeds with a
non-zero status byte, which clears the counter, and then the send of the diagnostic
command fails: the APDU is signalled with the transport error `-EIO` and the worker
goes to `WORKER_RESET` with the counter at 0. Second: with reset counter 2 a wake-up
from hibernate succeeds, which clears the counter, and the transfer of the APDU that
caused the wake-up then fails at the send. -/
theorem counter_cleared_before_transport_error :
    (processing 2 OPTIGA_PRES_DISABLED).dev.reset_counter = 2 ∧
    (optiga_worker_step ⟨false, 4⟩ (processing 2 OPTIGA_PRES_DISABLED)
        unreadable_env).dev.reset_counter = 0 ∧
    (optiga_worker_step ⟨false, 4⟩ (processing 2 OPTIGA_PRES_DISABLED)
        unreadable_env).dev.trace
      = [drv_op.fifo_get (some 1),
          drv_op.send_apdu [0x81, 0x00, 0x00, 0x02, 0xE0, 0xC2], drv_op.recv_apdu,
          drv_op.send_apdu [0x01, 0x00, 0x00, 0x06, 0xF1, 0xC2, 0x00, 0x00, 0x00, 0x01],
          drv_op.signal 1 (-EIO_ERRNO)] ∧
    (optiga_worker_step ⟨false, 4⟩ (processing 2 OPTIGA_PRES_DISABLED)
        unreadable_env).state = WORKER_STATE.WORKER_RESET ∧
    (optiga_worker_step ⟨false, 4⟩
        ⟨WORKER_STATE.WORKER_HIBERNATE, none, 0, { sample_dev 0 with reset_counter := 2 }⟩
        sample_env).dev.reset_counter = 0 ∧
    queue_ops (worker_iterate ⟨false, 4⟩
        ⟨WORKER_STATE.WORKER_HIBERNATE, none, 0, { sample_dev 0 with reset_counter := 2 }⟩
        [sample_env, failing_env]).dev.trace
      = [drv_op.fifo_get (some 1), drv_op.signal 1 (-EIO_ERRNO)] ∧
    (worker_iterate ⟨false, 4⟩
        ⟨WORKER_STATE.WORKER_HIBERNATE, none, 0, { sample_dev 0 with reset_counter := 2 }⟩
        [sample_env, failing_env]).dev.reset_counter = 0 := by
  decide

theorem worker_transfer_counter (cfg : optiga_kconfig) (w : worker) (a : optiga_apdu)
    (e : worker_env) :
    ((optiga_transfer_apdu w.dev a e.transfer_snd e.transfer_rcv).1 = 0 →
      (worker_transfer cfg w a e).dev.reset_counter = 0) ∧
    ((optiga_transfer_apdu w.dev a e.transfer_snd e.transfer_rcv).1 ≠ 0 →
      (worker_transfer cfg w a e).dev.reset_counter = w.dev.reset_counter) := by
  rw [optiga_transfer_apdu_err]
  by_cases h1 : e.transfer_snd.err = 0
  · simp only [h1, ne_eq, not_true_eq_false, if_false]
    constructor
    · intro h2
      cases h3 : optiga_apdu_is_error e.transfer_rcv.buf with
      | false => exact (worker_transfer_accepted cfg w a e h1 h2 h3).2.2.1
      | true =>
        obtain ⟨d, _, _, _, hrc, _⟩ := worker_transfer_rejected cfg w a e h1 h2 h3
        exact hrc
    · intro h2
      rw [worker_transfer_recv_fails cfg w a e h1 h2]
  · simp only [h1, ne_eq, not_false_eq_true, if_true]
    constructor
    · intro h2; exact h2.elim
    · intro _
      rw [worker_transfer_send_fails cfg w a e h1]

/-- The `WORKER_HIBERNATE` iteration after a hibernate that closed the application, in
terms of the call of `optiga_wakup`. -/
theorem worker_step_hibernate_counter (cfg : optiga_kconfig) (w : worker) (e : worker_env)
    (hs : w.state = WORKER_STATE.WORKER_HIBERNATE) :
    ((optiga_hibernate cfg w.dev e.hib).open_ = true →
      (optiga_worker_step cfg w e).dev.reset_counter = w.dev.reset_counter) ∧
    ((optiga_hibernate cfg w.dev e.hib).open_ = false →
      ((wake_result cfg w e).2.open_ = true ∧ (wake_result cfg w e).1 = 0 →
        (optiga_worker_step cfg w e).dev.reset_counter = 0) ∧
      (¬ ((wake_result cfg w e).2.open_ = true ∧ (wake_result cfg w e).1 = 0) →
        (optiga_worker_step cfg w e).dev.reset_counter = w.dev.reset_counter)) := by
  have hk := optiga_hibernate_keeps cfg w.dev e.hib
  constructor
  · intro hopen
    simp only [optiga_worker_step, hs, hopen, if_true]
    exact hk
  · intro hopen
    have hw := optiga_wakup_keeps cfg (asleep_dev cfg w e) e.wake
    simp only [optiga_worker_step, hs, hopen, Bool.false_eq_true, if_false, wake_result] at hw ⊢
    simp only [asleep_dev] at hw ⊢
    obtain ⟨a, q, hg⟩ := k_fifo_get_forever (optiga_hibernate cfg w.dev e.hib) e.timed e.forever
    rw [hg] at hw ⊢
    simp only at hw ⊢
    generalize optiga_wakup cfg
      { optiga_hibernate cfg w.dev e.hib with
        apdu_queue := q,
        trace := (optiga_hibernate cfg w.dev e.hib).trace ++ [drv_op.fifo_get (some a.id)],
        session_reservations := e.asleep_reservations,
        shield_state := e.asleep_shield } e.wake = r at hw ⊢
    obtain ⟨err, d⟩ := r
    simp only at hw ⊢
    by_cases ho : d.open_ = true
    · by_cases hz : err = 0
      · simp [ho, hz]
      · simp [ho, hz, k_poll_signal_raise, hw, hk]
    · simp [ho, k_poll_signal_raise, hw, hk]

/-- C25, amended: the reset counter is cleared by exactly two events: in
`WORKER_PROCESS_APDU` when `optiga_transfer_apdu` has returned 0 (whatever status the
response has and whatever the diagnostic read then gives), and in `WORKER_HIBERNATE`
when `optiga_wakup` has returned 0 with the application open. Every other iteration
(a failing `optiga_transfer_apdu`, a failing handshake, a failing wake-up, `WORKER_IDLE`,
`WORKER_RESET_LOCK`) leaves the counter as it is, and `WORKER_RESET` increments it. -/
theorem reset_counter_cleared_only (cfg : optiga_kconfig) (w : worker) (e : worker_env) :
    ((w.state = WORKER_STATE.WORKER_PROCESS_APDU ∧ ∃ a, w.apdu = some a ∧
        reaches_transfer cfg w e ∧
        (optiga_transfer_apdu (before_transfer cfg w e) a
          e.transfer_snd e.transfer_rcv).1 = 0) →
      (optiga_worker_step cfg w e).dev.reset_counter = 0) ∧
    ((w.state = WORKER_STATE.WORKER_HIBERNATE ∧
        (optiga_hibernate cfg w.dev e.hib).open_ = false ∧
        (wake_result cfg w e).2.open_ = true ∧ (wake_result cfg w e).1 = 0) →
      (optiga_worker_step cfg w e).dev.reset_counter = 0) ∧
    (¬ (w.state = WORKER_STATE.WORKER_PROCESS_APDU ∧ ∃ a, w.apdu = some a ∧
        reaches_transfer cfg w e ∧
        (optiga_transfer_apdu (before_transfer cfg w e) a
          e.transfer_snd e.transfer_rcv).1 = 0) →
      ¬ (w.state = WORKER_STATE.WORKER_HIBERNATE ∧
        (optiga_hibernate cfg w.dev e.hib).open_ = false ∧
        (wake_result cfg w e).2.open_ = true ∧ (wake_result cfg w e).1 = 0) →
      (optiga_worker_step cfg w e).dev.reset_counter
        = if w.state = WORKER_STATE.WORKER_RESET then w.dev.reset_counter + 1
          else w.dev.reset_counter) := by
  refine ⟨?_, ?_, ?_⟩
  · rintro ⟨hs, a, ha, hr, ht⟩
    rw [worker_step_process_transfer cfg w e a hs ha hr]
    exact (worker_transfer_counter cfg { w with dev := before_transfer cfg w e } a e).1 ht
  · rintro ⟨hs, ho, hw⟩
    exact ((worker_step_hibernate_counter cfg w e hs).2 ho).1 hw
  · intro hp hh
    cases hs : w.state with
    | WORKER_IDLE =>
      rw [if_neg (by decide)]
      simp only [optiga_worker_step, hs]
      cases hg : (k_fifo_get w.dev (if w.dev.gpio then k_timeout.K_MSEC else k_timeout.K_FOREVER)
          e.timed e.forever).1 with
      | none => simp only [k_fifo_get] at hg ⊢
      | some a => simp only [k_fifo_get] at hg ⊢
    | WORKER_HIBERNATE =>
      rw [if_neg (by decide)]
      obtain ⟨k1, k2⟩ := worker_step_hibernate_counter cfg w e hs
      cases ho : (optiga_hibernate cfg w.dev e.hib).open_ with
      | true => exact k1 ho
      | false => exact (k2 ho).2 (fun hw => hh ⟨hs, ho, hw⟩)
    | WORKER_PROCESS_APDU =>
      rw [if_neg (by decide)]
      cases ha : w.apdu with
      | none => simp only [optiga_worker_step, hs, ha]
      | some a =>
        by_cases hr : reaches_transfer cfg w e
        · rw [worker_step_process_transfer cfg w e a hs ha hr]
          have ht : (optiga_transfer_apdu (before_transfer cfg w e) a
              e.transfer_snd e.transfer_rcv).1 ≠ 0 := fun h => hp ⟨hs, a, ha, hr, h⟩
          rw [(worker_transfer_counter cfg { w with dev := before_transfer cfg w e } a e).2 ht]
          exact (before_transfer_fields cfg w e).2.1
        · unfold reaches_transfer at hr
          push_neg at hr
          obtain ⟨hc, hk, hne⟩ := hr
          rw [worker_step_process_handshake_fails cfg w e a hs ha hc hk hne]
    | WORKER_RESET =>
      rw [if_pos rfl]
      by_cases hmax : w.dev.reset_counter + 1 = OPTIGA_MAX_RESET
      · simp only [optiga_worker_step, hs, hmax, if_true]
        split_ifs
        · rw [optiga_power_snd]
        · rfl
      · obtain ⟨s1, s2, s3⟩ := worker_step_reset_eq cfg w e hs hmax
        have r1 : (reset_result cfg w e).2.reset_counter = w.dev.reset_counter + 1 :=
          (optiga_reset_keeps cfg { w.dev with reset_counter := w.dev.reset_counter + 1 }
            e.reset_phy e.reset_nettran e.reset_pres).1
        have o1 : (reopen_result cfg w e).2.reset_counter = w.dev.reset_counter + 1 :=
          ((optiga_open_application_keeps (reset_result cfg w e).2 false
            e.open_snd e.open_rcv).1).trans r1
        by_cases h1 : (reset_result cfg w e).1 = 0
        · by_cases h2 : (reopen_result cfg w e).1 = 0
          · rw [(s3 h1 h2).2.2.1, o1]
          · rw [s2 h1 h2]; exact o1
        · rw [s1 h1]; exact r1
    | WORKER_RESET_LOCK =>
      rw [if_neg (by decide)]
      obtain ⟨a, q, hstep⟩ := worker_step_reset_lock cfg w e hs
      rw [hstep]

theorem reset_counter_cleared_only_witness :
    (optiga_worker_step ⟨false, 4⟩ (processing 2 OPTIGA_PRES_DISABLED)
        unreadable_env).dev.reset_counter = 0 ∧
    (optiga_worker_step ⟨false, 4⟩ (processing 2 OPTIGA_PRES_DISABLED)
        failing_env).dev.reset_counter
      = if (processing 2 OPTIGA_PRES_DISABLED).state = WORKER_STATE.WORKER_RESET
        then (processing 2 OPTIGA_PRES_DISABLED).dev.reset_counter + 1
        else (processing 2 OPTIGA_PRES_DISABLED).dev.reset_counter :=
  ⟨(reset_counter_cleared_only ⟨false, 4⟩ (processing 2 OPTIGA_PRES_DISABLED)
      unreadable_env).1 ⟨rfl, sample_apdu 1, rfl, by decide, by decide⟩,
    (reset_counter_cleared_only ⟨false, 4⟩ (processing 2 OPTIGA_PRES_DISABLED)
      failing_env).2.2 (by decide) (by decide)⟩

/-! ## The checksum as a CRC -/

theorem shiftLeft_xor (a b k : Nat) : (a ^^^ b) <<< k = (a <<< k) ^^^ (b <<< k) := by
  apply Nat.eq_of_testBit_eq
  intro i
  simp only [Nat.testBit_shiftLeft, Nat.testBit_xor]
  cases decide (i ≥ k) <;> simp

theorem xor_mod_65536 (a b : Nat) : (a ^^^ b) % 65536 = (a % 65536) ^^^ (b % 65536) := by
  apply Nat.eq_of_testBit_eq
  intro i
  have h : (65536 : Nat) = 2 ^ 16 := by norm_num
  simp only [h, Nat.testBit_mod_two_pow, Nat.testBit_xor]
  cases decide (i < 16) <;> simp

theorem fcs_mix_xor (a b : Nat) : fcs_mix (a ^^^ b) = fcs_mix a ^^^ fcs_mix b := by
  simp only [fcs_mix, Nat.and_xor_distrib_right, shiftLeft_xor, shiftRight_xor]
  ac_rfl

theorem optiga_data_calc_fcs_core_mix (seed c : Nat) :
    optiga_data_calc_fcs_core seed c
      = (fcs_mix ((seed ^^^ c) &&& 0xFF) ^^^ (seed >>> 8)) % 65536 := rfl

/-- C31 fails on the code: no seeds and bytes exist at which the FCS step deviates from
linearity. -/
theorem fcs_core_no_nonlinear_input :
    ¬ ∃ s1 s2 b1 b2 : Nat, s1 < 65536 ∧ s2 < 65536 ∧ b1 < 256 ∧ b2 < 256 ∧
      optiga_data_calc_fcs_core (s1 ^^^ s2) (b1 ^^^ b2)
        ≠ optiga_data_calc_fcs_core s1 b1 ^^^ optiga_data_calc_fcs_core s2 b2 := by
  rintro ⟨s1, s2, b1, b2, _, _, _, _, h⟩
  apply h
  have hx : (s1 ^^^ s2) ^^^ (b1 ^^^ b2) = (s1 ^^^ b1) ^^^ (s2 ^^^ b2) := by ac_rfl
  simp only [optiga_data_calc_fcs_core_mix, hx, Nat.and_xor_distrib_right, fcs_mix_xor,
    shiftRight_xor, xor_mod_65536]
  ac_rfl

/-- C31, amended: the checksum feedback function is linear over GF(2): for all seeds
`s1`, `s2` and bytes `b1`, `b2`, `optiga_data_calc_fcs_core (s1 xor s2) (b1 xor b2)` equals
`optiga_data_calc_fcs_core s1 b1 xor optiga_data_calc_fcs_core s2 b2`; in particular the
step maps seed 0 and byte 0 to 0. -/
theorem fcs_core_linear (s1 s2 b1 b2 : Nat) :
    optiga_data_calc_fcs_core (s1 ^^^ s2) (b1 ^^^ b2)
      = optiga_data_calc_fcs_core s1 b1 ^^^ optiga_data_calc_fcs_core s2 b2 ∧
    optiga_data_calc_fcs_core 0 0 = 0 := by
  constructor
  · have hx : (s1 ^^^ s2) ^^^ (b1 ^^^ b2) = (s1 ^^^ b1) ^^^ (s2 ^^^ b2) := by ac_rfl
    simp only [optiga_data_calc_fcs_core_mix, hx, Nat.and_xor_distrib_right, fcs_mix_xor,
      shiftRight_xor, xor_mod_65536]
    ac_rfl
  · decide

theorem and_one_cases (x : Nat) : x &&& 1 = 0 ∨ x &&& 1 = 1 := by
  rw [Nat.and_one_is_mod]
  omega

theorem crc16_step_xor (x y : Nat) :
    crc16_step (x ^^^ y) = crc16_step x ^^^ crc16_step y := by
  have hxy : (x ^^^ y) &&& 1 = (x &&& 1) ^^^ (y &&& 1) := Nat.and_xor_distrib_right
  simp only [crc16_step, hxy, shiftRight_xor]
  have hc : ∀ a b c : Nat, a ^^^ c ^^^ (b ^^^ c) = a ^^^ b := by
    intro a b c
    have h : a ^^^ c ^^^ (b ^^^ c) = (a ^^^ b) ^^^ (c ^^^ c) := by ac_rfl
    rw [h, Nat.xor_self, Nat.xor_zero]
  rcases and_one_cases x with hx | hx
  · rcases and_one_cases y with hy | hy
    · simp [hx, hy]
    · simp only [hx, hy]
      simp only [Nat.zero_xor, if_true, Nat.zero_ne_one, if_false]
      ac_rfl
  · rcases and_one_cases y with hy | hy
    · simp only [hx, hy]
      simp only [Nat.xor_zero, if_true, Nat.zero_ne_one, if_false]
      ac_rfl
    · simp only [hx, hy]
      simp only [Nat.xor_self, Nat.zero_ne_one, if_false, if_true]
      exact (hc _ _ _).symm

theorem crc16_iterate_xor (n : Nat) : ∀ x y : Nat,
    Nat.iterate crc16_step n (x ^^^ y)
      = Nat.iterate crc16_step n x ^^^ Nat.iterate crc16_step n y := by
  induction n with
  | zero => intro x y; rfl
  | succ n ih =>
    intro x y
    simp only [Function.iterate_succ_apply, crc16_step_xor, ih]

theorem crc16_step_shift (z k : Nat) : crc16_step (z <<< (k + 1)) = z <<< k := by
  have h : z <<< (k + 1) = 2 * (z <<< k) := Nat.shiftLeft_succ z k
  have h1 : (2 * (z <<< k)) &&& 1 = 0 := by
    rw [Nat.and_one_is_mod]
    omega
  have h2 : (2 * (z <<< k)) >>> 1 = z <<< k := by
    rw [Nat.shiftRight_eq_div_pow]
    omega
  simp [crc16_step, h, h1, h2]

theorem crc16_iterate_shift (k : Nat) : ∀ z : Nat,
    Nat.iterate crc16_step k (z <<< k) = z := by
  induction k with
  | zero => intro z; simp
  | succ k ih =>
    intro z
    rw [Function.iterate_succ_apply, crc16_step_shift, ih]

theorem split_low_byte (x : Nat) : x = (x &&& 0xFF) ^^^ ((x >>> 8) <<< 8) := by
  apply Nat.eq_of_testBit_eq
  intro i
  have h : (0xFF : Nat) = 2 ^ 8 - 1 := by norm_num
  simp only [h, Nat.testBit_xor, Nat.testBit_and, Nat.testBit_two_pow_sub_one,
    Nat.testBit_shiftLeft, Nat.testBit_shiftRight]
  by_cases hi : i < 8
  · have : ¬ i ≥ 8 := by omega
    simp [hi, this]
  · have h8 : i ≥ 8 := by omega
    have : 8 + (i - 8) = i := by omega
    simp [hi, h8, this]

set_option maxRecDepth 100000 in
theorem crc16_table : ∀ v, v < 256 → Nat.iterate crc16_step 8 v = fcs_mix v := by decide

theorem crc16_byte_mix (seed b : Nat) :
    crc16_byte seed b = fcs_mix ((seed ^^^ b) &&& 0xFF) ^^^ ((seed ^^^ b) >>> 8) := by
  have hb : (seed ^^^ b) &&& 0xFF < 256 := by
    have := @Nat.and_le_right (seed ^^^ b) 0xFF
    omega
  unfold crc16_byte
  conv_lhs => rw [split_low_byte (seed ^^^ b)]
  rw [crc16_iterate_xor, crc16_iterate_shift, crc16_table _ hb]

/-- On 16-bit seeds and bytes the FCS step is the byte step of the bitwise CRC. -/
theorem optiga_data_calc_fcs_core_crc (seed b : Nat) (hs : seed < 65536) (hb : b < 256) :
    optiga_data_calc_fcs_core seed b = crc16_byte seed b := by
  have hz : b >>> 8 = 0 := by
    rw [Nat.shiftRight_eq_div_pow]
    have : (2:Nat) ^ 8 = 256 := by norm_num
    rw [this]
    omega
  rw [optiga_data_calc_fcs_core_eq seed b hs, crc16_byte_mix, shiftRight_xor, hz, Nat.xor_zero]

theorem frame_bytes_succ (f : List Nat) (n : Nat) :
    frame_bytes f (n + 1) = frame_bytes f n ++ [f.getD n 0] := by
  simp [frame_bytes, List.range_succ]

theorem optiga_data_frame_calc_fcs_crc (f : List Nat) (n : Nat)
    (h : ∀ i, i < n → f.getD i 0 < 256) :
    optiga_data_frame_calc_fcs f n = crc16_kermit (frame_bytes f n) := by
  induction n with
  | zero => simp [optiga_data_frame_calc_fcs_zero, crc16_kermit, frame_bytes]
  | succ n ih =>
    have ih2 := ih (fun i hi => h i (by omega))
    rw [optiga_data_frame_calc_fcs_succ, frame_bytes_succ]
    unfold crc16_kermit at ih2 ⊢
    rw [List.foldl_append, ← ih2]
    simp only [List.foldl_cons, List.foldl_nil]
    exact optiga_data_calc_fcs_core_crc _ _ (optiga_data_frame_calc_fcs_lt f n) (h n (by omega))

/-- C34 (the checksum is CRC-16/KERMIT): for every 16-bit seed and byte `b`,
`optiga_data_calc_fcs_core seed b` is the value obtained by XORing `b` into the low byte of
the seed and applying eight times the step `x -> (x >> 1) xor 0x8408` if the low bit is
set, else `x >> 1`; and `optiga_data_frame_calc_fcs` over `len` bytes is that bitwise CRC,
with initial value 0, over the byte sequence. -/
theorem fcs_is_crc16_kermit (seed b : Nat) (frame : List Nat) (len : Nat)
    (hs : seed < 65536) (hb : b < 256) (hbytes : ∀ i, i < len → frame.getD i 0 < 256) :
    optiga_data_calc_fcs_core seed b = Nat.iterate crc16_step 8 (seed ^^^ b) ∧
    optiga_data_frame_calc_fcs frame len = crc16_kermit (frame_bytes frame len) :=
  ⟨optiga_data_calc_fcs_core_crc seed b hs hb, optiga_data_frame_calc_fcs_crc frame len hbytes⟩

set_option maxRecDepth 100000 in
theorem fcs_is_crc16_kermit_witness :
    optiga_data_calc_fcs_core 0x1234 0x56 = Nat.iterate crc16_step 8 (0x1234 ^^^ 0x56) ∧
    optiga_data_frame_calc_fcs [0x31, 0x32, 0x33, 0x34, 0x35, 0x36, 0x37, 0x38, 0x39] 9
      = crc16_kermit (frame_bytes [0x31, 0x32, 0x33, 0x34, 0x35, 0x36, 0x37, 0x38, 0x39] 9) :=
  fcs_is_crc16_kermit 0x1234 0x56 [0x31, 0x32, 0x33, 0x34, 0x35, 0x36, 0x37, 0x38, 0x39] 9
    (by decide) (by decide) (by decide)

/-! ## The acknowledgement frame and the shared frame buffer -/

theorem memcpy_eq (dst src : List Nat) (n : Nat) : memcpy dst src n = memcpy_at dst 0 src 0 n := by
  simp [memcpy, memcpy_at]

theorem getD_of_length_le (l : List Nat) (j : Nat) (h : l.length ≤ j) : l.getD j 0 = 0 := by
  simp [List.getD_eq_getElem?_getD, List.getElem?_eq_none h]

/-- Writing a control byte, a length field and an FCS behind a 3-byte header keeps the
length of the buffer and its bytes from offset 5 on. -/
theorem ack_frame_tail (f : List Nat) (flags nr ack v j : Nat) (hj : 5 ≤ j) :
    (optiga_data_frame_set_fcs (optiga_data_frame_set_len
      (optiga_data_frame_set_fctr f flags nr ack) v) OPTIGA_DATA_PAYLOAD_OFFSET).getD j 0
      = f.getD j 0 := by
  have h0 : OPTIGA_DATA_FCTR_OFFSET ≠ j := by show 0 ≠ j; omega
  have h1 : OPTIGA_DATA_LEN_OFFSET ≠ j := by show 0 + 1 ≠ j; omega
  have h2 : OPTIGA_DATA_LEN_OFFSET + 1 ≠ j := by show 0 + 1 + 1 ≠ j; omega
  have h3 : OPTIGA_DATA_PAYLOAD_OFFSET ≠ j := by show 0 + 1 + 2 ≠ j; omega
  have h4 : OPTIGA_DATA_PAYLOAD_OFFSET + 1 ≠ j := by show 0 + 1 + 2 + 1 ≠ j; omega
  simp only [optiga_data_frame_set_fcs, optiga_data_frame_set_len, optiga_data_frame_set_fctr,
    sys_put_be16]
  rw [getD_set_ne _ _ h4, getD_set_ne _ _ h3, getD_set_ne _ _ h2, getD_set_ne _ _ h1,
    getD_set_ne _ _ h0]

theorem optiga_send_ack_frame_frame (dev : optiga_data) (wr : Int) :
    (optiga_send_ack_frame dev wr).2.frame = dev.frame := by
  simp only [optiga_send_ack_frame, optiga_phy_frame_buf, optiga_phy_write_frame, memcpy_eq]
  apply list_ext_getD
  · rw [memcpy_at_length, optiga_data_frame_set_fcs_length, optiga_data_frame_set_len_length,
      optiga_data_frame_set_fctr_length]
  · intro j hj
    rw [memcpy_at_length, optiga_data_frame_set_fcs_length, optiga_data_frame_set_len_length,
      optiga_data_frame_set_fctr_length] at hj
    rw [memcpy_at_getD, optiga_data_frame_set_fcs_length, optiga_data_frame_set_len_length,
      optiga_data_frame_set_fctr_length]
    by_cases h5 : j < 5
    · have hj0 : 0 + (j - 0) = j := by omega
      have hl : j < (List.replicate OPTIGA_DATA_CRTL_FRAME_LEN 0).length := by
        rw [List.length_replicate]; exact h5
      rw [if_pos ⟨Nat.zero_le _, by simpa using h5, hj⟩, hj0, memcpy_at_getD,
        if_pos ⟨Nat.zero_le _, by simpa using h5, hl⟩, hj0]
    · rw [if_neg (by simp; intro h; exact absurd h h5)]
      exact ack_frame_tail dev.frame _ _ _ _ j (by omega)

/-- C32 (sending the acknowledgement preserves the received frame): for every content of
the frame buffer, every counter state and every outcome of the bus write, the frame
buffer after `optiga_send_ack_frame` equals the frame buffer before the call; hence the
frame buffer after `optiga_data_recv_packet` holds the bytes that the bus read delivered,
with the payload at offset 3. -/
theorem send_ack_frame_preserves_frame (dev : optiga_data) (rd : phy_read) (wr : Int) :
    (optiga_send_ack_frame dev wr).2.frame = dev.frame ∧
    (optiga_send_ack_frame dev wr).1 = wr ∧
    (optiga_data_recv_packet dev rd wr).2.2.frame = rd.buf ∧
    ∀ n, ((optiga_data_recv_packet dev rd wr).2.2.frame.drop OPTIGA_DATA_PAYLOAD_OFFSET).take n
      = (rd.buf.drop OPTIGA_DATA_PAYLOAD_OFFSET).take n := by
  have hf : (optiga_data_recv_packet dev rd wr).2.2.frame = rd.buf := by
    have hc := optiga_data_recv_common_frame dev rd
    simp only [optiga_data_recv_packet]
    split_ifs
    · exact hc
    · exact hc
    · exact hc
    · simp only [optiga_send_ack_frame_frame]
      exact hc
  refine ⟨optiga_send_ack_frame_frame dev wr, ?_, hf, fun n => by rw [hf]⟩
  simp [optiga_send_ack_frame, optiga_phy_write_frame]

/-! ## A failing `optiga_data_recv_packet` after an accepted frame -/

/-- C38 (`optiga_data_recv_packet` is not atomic on error): for a well-formed frame whose
ack-number equals `frame_tx_nr` and which is a CONTROL frame, or a DATA frame whose
length field plus 5 differs from the number of bytes read, `optiga_data_recv_packet`
returns `-EIO` without storing a length, the bus sees the read and no write (no
acknowledgement is sent), `frame_rx_nr` is unchanged, and yet `frame_tx_nr` has advanced
by one modulo 4 and `frame_tx_ack` is the ack-number of the frame. -/
theorem recv_packet_error_not_atomic (dev : optiga_data) (rd : phy_read) (wr : Int)
    (hwf : well_formed rd) (hack : optiga_data_get_ack_nr rd.buf = dev.data.frame_tx_nr)
    (hbad : optiga_data_is_ctrl_frame rd.buf = true ∨
      optiga_data_frame_get_len rd.buf + DATA_LINK_OVERHEAD ≠ rd.len) :
    (optiga_data_recv_common dev rd).1 = 0 ∧
    (optiga_data_recv_packet dev rd wr).1 = -EIO_ERRNO ∧
    (optiga_data_recv_packet dev rd wr).2.1 = none ∧
    (optiga_data_recv_packet dev rd wr).2.2.bus = dev.bus ++ [phy_op.read_frame] ∧
    (optiga_data_recv_packet dev rd wr).2.2.data.frame_rx_nr = dev.data.frame_rx_nr ∧
    (optiga_data_recv_packet dev rd wr).2.2.data.frame_tx_nr
      = (dev.data.frame_tx_nr + 1) % 4 ∧
    (optiga_data_recv_packet dev rd wr).2.2.data.frame_tx_ack
      = optiga_data_get_ack_nr rd.buf := by
  have hc := optiga_data_recv_common_well_formed dev rd hwf
  rw [if_pos hack.symm] at hc
  refine ⟨by rw [hc], ?_⟩
  simp only [optiga_data_recv_packet, hc, ne_eq, not_true_eq_false, if_false]
  rcases hbad with h | h
  · simp [h]
  · by_cases hctrl : optiga_data_is_ctrl_frame rd.buf = true
    · simp [hctrl]
    · simp [hctrl, h]

theorem recv_packet_error_not_atomic_witness :
    (optiga_data_recv_packet ⟨[], ⟨1, 0, 2⟩, []⟩ ⟨0, [0x81, 0, 0, 0x56, 0x30], 5⟩ 0).1
      = -EIO_ERRNO ∧
    (optiga_data_recv_packet ⟨[], ⟨1, 0, 2⟩, []⟩
      ⟨0, [0x81, 0, 0, 0x56, 0x30], 5⟩ 0).2.2.data.frame_tx_nr = (1 + 1) % 4 :=
  ⟨(recv_packet_error_not_atomic ⟨[], ⟨1, 0, 2⟩, []⟩ ⟨0, [0x81, 0, 0, 0x56, 0x30], 5⟩ 0
      (by decide) (by decide) (Or.inl (by decide))).2.1,
    (recv_packet_error_not_atomic ⟨[], ⟨1, 0, 2⟩, []⟩ ⟨0, [0x81, 0, 0, 0x56, 0x30], 5⟩ 0
      (by decide) (by decide) (Or.inl (by decide))).2.2.2.2.2.1⟩

/-! ## The sequence counters over sequences of calls -/

theorem dl_step_counters (dev : optiga_data) (c : dl_call) (h : counters_in_range dev.data) :
    counters_in_range (dl_step dev c).data := by
  cases c with
  | init => exact optiga_data_init_counters dev
  | recv_common rd => exact optiga_data_recv_common_counters dev rd h
  | recv_ctrl_frame rd => exact optiga_data_recv_ctrl_frame_counters dev rd h
  | recv_packet rd wr => exact optiga_data_recv_packet_counters dev rd wr h
  | send_packet sb len wr st rd => exact optiga_data_send_packet_counters sb dev len wr st rd h

theorem foldl_dl_step_counters (calls : List dl_call) : ∀ dev : optiga_data,
    counters_in_range dev.data → counters_in_range (calls.foldl dl_step dev).data := by
  induction calls with
  | nil => intro dev h; exact h
  | cons c calls ih =>
    intro dev h
    exact ih _ (dl_step_counters dev c h)

set_option maxRecDepth 100000 in
theorem fctr_asserts_of_lt : ∀ nr, nr < 4 → ∀ ack, ack < 4 →
    fctr_asserts (OPTIGA_DATA_FCTR_FTYPE_DATA ||| OPTIGA_DATA_FCTR_SEQCTR_ACK) nr ack = true ∧
    fctr_asserts (OPTIGA_DATA_FCTR_FTYPE_CTRL ||| OPTIGA_DATA_FCTR_SEQCTR_ACK) 0 ack = true := by
  decide

/-- C33 (the sequence counters stay in range): after `optiga_data_init` and any sequence
of calls of `optiga_data_init`, `optiga_data_recv_common`, `optiga_data_recv_ctrl_frame`,
`optiga_data_recv_packet` and `optiga_data_send_packet`, on any received bytes and with
any outcome, the three counters are in 0..3. Hence the arguments with which
`optiga_data_send_packet` calls `optiga_data_frame_set_fctr` in such a state pass its
three assertions, and so do those of `optiga_send_ack_frame`, both in such a state and
in the state in which `optiga_data_recv_packet` calls it, with `frame_rx_nr` just set
from the received frame. -/
theorem counters_stay_in_range (dev : optiga_data) (calls : List dl_call) (f : List Nat) :
    counters_in_range (optiga_data_init dev).2.data ∧
    counters_in_range (dl_run dev calls).data ∧
    (∀ c, counters_in_range (dl_step (dl_run dev calls) c).data) ∧
    fctr_asserts (OPTIGA_DATA_FCTR_FTYPE_DATA ||| OPTIGA_DATA_FCTR_SEQCTR_ACK)
      (dl_run dev calls).data.frame_tx_nr (dl_run dev calls).data.frame_rx_nr = true ∧
    fctr_asserts (OPTIGA_DATA_FCTR_FTYPE_CTRL ||| OPTIGA_DATA_FCTR_SEQCTR_ACK) 0
      (dl_run dev calls).data.frame_rx_nr = true ∧
    fctr_asserts (OPTIGA_DATA_FCTR_FTYPE_CTRL ||| OPTIGA_DATA_FCTR_SEQCTR_ACK) 0
      (optiga_data_get_frame_nr f) = true := by
  have h0 := optiga_data_init_counters dev
  have hr : counters_in_range (dl_run dev calls).data :=
    foldl_dl_step_counters calls _ h0
  refine ⟨h0, hr, fun c => dl_step_counters _ c hr, ?_, ?_, ?_⟩
  · exact (fctr_asserts_of_lt _ hr.1 _ hr.2.2).1
  · exact (fctr_asserts_of_lt _ hr.1 _ hr.2.2).2
  · exact (fctr_asserts_of_lt 0 (by decide) _ (optiga_data_get_frame_nr_lt f)).2

/-! ## Acknowledgement bookkeeping -/

/-- What `optiga_data_recv_common` does to the counters: nothing (and then, when it
accepts the frame, as a duplicate, `frame_tx_nr` and `frame_tx_ack` differ), or the
matching-ACK update. `frame_rx_nr` is never written. -/
theorem optiga_data_recv_common_data (dev : optiga_data) (rd : phy_read) :
    ((optiga_data_recv_common dev rd).2.2.data = dev.data ∧
      ((optiga_data_recv_common dev rd).1 = 0 →
        dev.data.frame_tx_nr ≠ dev.data.frame_tx_ack)) ∨
    (optiga_data_recv_common dev rd).2.2.data
      = { dev.data with frame_tx_nr := (dev.data.frame_tx_nr + 1) % 4
                        frame_tx_ack := dev.data.frame_tx_nr } := by
  simp only [optiga_data_recv_common, optiga_phy_read_frame, optiga_phy_frame_buf]
  split_ifs with h1 h2 h3 h4 h5 h6
  · exact Or.inl ⟨rfl, fun h => absurd h h1⟩
  · exact Or.inl ⟨rfl, fun h => absurd h (by simp)⟩
  · exact Or.inl ⟨rfl, fun h => absurd h (by simp)⟩
  · exact Or.inl ⟨rfl, fun h => absurd h (by simp)⟩
  · right
    simp only
    rw [← h5]
  · exact Or.inl ⟨rfl, fun _ h => h5 (h.trans h6)⟩
  · exact Or.inl ⟨rfl, fun h => absurd h (by simp)⟩

theorem optiga_data_recv_ctrl_frame_data (dev : optiga_data) (rd : phy_read) :
    (optiga_data_recv_ctrl_frame dev rd).2.data = (optiga_data_recv_common dev rd).2.2.data := by
  simp only [optiga_data_recv_ctrl_frame]
  split_ifs <;> rfl

theorem optiga_data_send_packet_data (sb : Nat) (dev : optiga_data) (len : Nat) (wr : Int)
    (st : phy_state) (rd : phy_read) :
    (optiga_data_send_packet sb dev len wr st rd).2.data = dev.data ∨
    ∃ d : optiga_data, d.data = dev.data ∧
      (optiga_data_send_packet sb dev len wr st rd).2.data
        = (optiga_data_recv_common d rd).2.2.data := by
  simp only [optiga_data_send_packet, optiga_phy_frame_buf, optiga_phy_write_frame,
    optiga_data_is_ctrl_frame_available, optiga_phy_get_i2c_state]
  split_ifs
  all_goals first
    | exact Or.inl rfl
    | (refine Or.inr ⟨_, ?_, optiga_data_recv_ctrl_frame_data _ rd⟩; rfl)

theorem optiga_data_recv_packet_data (dev : optiga_data) (rd : phy_read) (wr : Int) :
    (optiga_data_recv_packet dev rd wr).2.2.data = (optiga_data_recv_common dev rd).2.2.data ∨
    ((optiga_data_recv_common dev rd).1 = 0 ∧
      (optiga_data_recv_packet dev rd wr).2.2.data
        = { (optiga_data_recv_common dev rd).2.2.data with
            frame_rx_nr := optiga_data_get_frame_nr (optiga_data_recv_common dev rd).2.2.frame }) := by
  simp only [optiga_data_recv_packet]
  split_ifs with h1 h2 h3
  · exact Or.inl rfl
  · exact Or.inl rfl
  · exact Or.inl rfl
  · right
    refine ⟨by simpa using h1, ?_⟩
    simp [optiga_send_ack_frame, optiga_phy_write_frame, optiga_phy_frame_buf]

/-- Every call other than `optiga_data_init` leaves `frame_tx_nr` and `frame_tx_ack` as
they are, changing `frame_rx_nr` at most when they differ, or makes the matching-ACK
update. -/
theorem dl_step_data (dev : optiga_data) (c : dl_call) (hc : c ≠ dl_call.init) :
    ((dl_step dev c).data.frame_tx_nr = dev.data.frame_tx_nr ∧
      (dl_step dev c).data.frame_tx_ack = dev.data.frame_tx_ack ∧
      ((dl_step dev c).data.frame_rx_nr ≠ dev.data.frame_rx_nr →
        dev.data.frame_tx_nr ≠ dev.data.frame_tx_ack)) ∨
    ((dl_step dev c).data.frame_tx_nr = (dev.data.frame_tx_nr + 1) % 4 ∧
      (dl_step dev c).data.frame_tx_ack = dev.data.frame_tx_nr) := by
  have hcommon : ∀ (d : optiga_data) (rd : phy_read), d.data = dev.data →
      (((optiga_data_recv_common d rd).2.2.data.frame_tx_nr = dev.data.frame_tx_nr ∧
        (optiga_data_recv_common d rd).2.2.data.frame_tx_ack = dev.data.frame_tx_ack ∧
        ((optiga_data_recv_common d rd).2.2.data.frame_rx_nr ≠ dev.data.frame_rx_nr →
          dev.data.frame_tx_nr ≠ dev.data.frame_tx_ack)) ∨
      ((optiga_data_recv_common d rd).2.2.data.frame_tx_nr = (dev.data.frame_tx_nr + 1) % 4 ∧
        (optiga_data_recv_common d rd).2.2.data.frame_tx_ack = dev.data.frame_tx_nr)) := by
    intro d rd hd
    rcases optiga_data_recv_common_data d rd with ⟨h, _⟩ | h
    · left
      rw [h, hd]
      exact ⟨rfl, rfl, fun hne => absurd rfl hne⟩
    · right
      rw [h, hd]
      exact ⟨rfl, rfl⟩
  cases c with
  | init => exact absurd rfl hc
  | recv_common rd => exact hcommon dev rd rfl
  | recv_ctrl_frame rd =>
    simp only [dl_step, optiga_data_recv_ctrl_frame_data]
    exact hcommon dev rd rfl
  | send_packet sb len wr st rd =>
    simp only [dl_step]
    rcases optiga_data_send_packet_data sb dev len wr st rd with h | ⟨d, hd, h⟩
    · left
      rw [h]
      exact ⟨rfl, rfl, fun hne => absurd rfl hne⟩
    · rw [h]
      exact hcommon d rd hd
  | recv_packet rd wr =>
    simp only [dl_step]
    rcases optiga_data_recv_packet_data dev rd wr with h | ⟨h0, h⟩
    · rw [h]
      exact hcommon dev rd rfl
    · rw [h]
      rcases optiga_data_recv_common_data dev rd with ⟨hd, hne⟩ | hd
      · left
        rw [hd]
        exact ⟨rfl, rfl, fun _ => hne h0⟩
      · right
        rw [hd]
        exact ⟨rfl, rfl⟩

theorem ack_bookkeeping_step (s : optiga_data × Bool) (c : dl_call) (h : ack_bookkeeping s) :
    ack_bookkeeping (dl_flag_step s c) := by
  by_cases hc : c = dl_call.init
  · subst hc
    left
    exact ⟨rfl, rfl⟩
  · have hstep : dl_flag_step s c
        = (dl_step s.1 c, s.2 || ((dl_step s.1 c).data.frame_tx_nr != s.1.data.frame_tx_nr)) := by
      cases c with
      | init => exact absurd rfl hc
      | recv_common rd => rfl
      | recv_ctrl_frame rd => rfl
      | recv_packet rd wr => rfl
      | send_packet sb len wr st rd => rfl
    have hd := dl_step_data s.1 c hc
    rw [hstep]
    generalize dl_step s.1 c = d' at hd ⊢
    obtain ⟨d, flag⟩ := s
    obtain ⟨frame', data', bus'⟩ := d'
    obtain ⟨tx', ack', rx'⟩ := data'
    obtain ⟨frame, data, bus⟩ := d
    obtain ⟨tx, ack, rx⟩ := data
    simp only [ack_bookkeeping] at h ⊢
    simp only at hd
    rcases h with ⟨hf, hfresh⟩ | ⟨hf, htx, hack⟩
    · simp only [data_link_layer.mk.injEq] at hfresh
      obtain ⟨e1, e2, e3⟩ := hfresh
      subst e1 e2 e3 hf
      rcases hd with ⟨a1, a2, a3⟩ | ⟨a1, a2⟩
      · left
        subst a1 a2
        have hrx : rx' = 0 := by
          by_contra hne
          exact a3 hne rfl
        subst hrx
        simp
      · right
        subst a1 a2
        simp
    · subst hf
      rcases hd with ⟨a1, a2, _⟩ | ⟨a1, a2⟩
      · right
        subst a1 a2
        exact ⟨by simp, htx, hack⟩
      · right
        subst a1 a2
        refine ⟨by simp, Nat.mod_lt _ (by decide), ?_⟩
        omega

theorem ack_bookkeeping_foldl (calls : List dl_call) : ∀ s : optiga_data × Bool,
    ack_bookkeeping s → ack_bookkeeping (calls.foldl dl_flag_step s) := by
  induction calls with
  | nil => intro s h; exact h
  | cons c calls ih =>
    intro s h
    exact ih _ (ack_bookkeeping_step s c h)

theorem dl_flag_step_fst (s : optiga_data × Bool) (c : dl_call) :
    (dl_flag_step s c).1 = dl_step s.1 c := by
  cases c <;> rfl

theorem foldl_dl_flag_step_fst (calls : List dl_call) : ∀ s : optiga_data × Bool,
    (calls.foldl dl_flag_step s).1 = calls.foldl dl_step s.1 := by
  induction calls with
  | nil => intro s; rfl
  | cons c calls ih =>
    intro s
    simp only [List.foldl_cons]
    rw [ih, dl_flag_step_fst]

/-- C35 (acknowledgement bookkeeping): in every data-link state reached from
`optiga_data_init` by calls of the data-link functions (a further `optiga_data_init`
among them starts afresh), once an ACK has advanced `frame_tx_nr` since the last init,
`frame_tx_ack = (frame_tx_nr + 3) mod 4`; so the two counters differ and no ack-number
matches both, that is the matching and the duplicate case of `optiga_data_recv_common`
exclude each other. A state with `frame_tx_nr = frame_tx_ack` has seen no advancing ACK
since the init and has all three counters 0. -/
theorem ack_bookkeeping_invariant (dev : optiga_data) (calls : List dl_call) :
    (dl_history dev calls).1 = dl_run dev calls ∧
    ((dl_history dev calls).2 = true →
      (dl_run dev calls).data.frame_tx_ack = ((dl_run dev calls).data.frame_tx_nr + 3) % 4 ∧
      (dl_run dev calls).data.frame_tx_nr ≠ (dl_run dev calls).data.frame_tx_ack ∧
      ∀ ack_nr, ¬ ((dl_run dev calls).data.frame_tx_nr = ack_nr ∧
        (dl_run dev calls).data.frame_tx_ack = ack_nr)) ∧
    ((dl_run dev calls).data.frame_tx_nr = (dl_run dev calls).data.frame_tx_ack →
      (dl_history dev calls).2 = false ∧ (dl_run dev calls).data = ⟨0, 0, 0⟩) := by
  have hrun : (dl_history dev calls).1 = dl_run dev calls :=
    foldl_dl_flag_step_fst calls _
  have hinv : ack_bookkeeping (dl_history dev calls) :=
    ack_bookkeeping_foldl calls _ (Or.inl ⟨rfl, rfl⟩)
  unfold ack_bookkeeping at hinv
  rw [hrun] at hinv
  have hdiff : (dl_run dev calls).data.frame_tx_nr < 4 →
      (dl_run dev calls).data.frame_tx_ack = ((dl_run dev calls).data.frame_tx_nr + 3) % 4 →
      (dl_run dev calls).data.frame_tx_nr ≠ (dl_run dev calls).data.frame_tx_ack := by
    intro h1 h2
    omega
  refine ⟨hrun, ?_, ?_⟩
  · intro hflag
    rcases hinv with ⟨hf, _⟩ | ⟨_, htx, hack⟩
    · rw [hf] at hflag
      exact absurd hflag (by decide)
    · exact ⟨hack, hdiff htx hack, fun ack_nr h => hdiff htx hack (h.1.trans h.2.symm)⟩
  · intro heq
    rcases hinv with ⟨hf, hfresh⟩ | ⟨_, htx, hack⟩
    · exact ⟨hf, hfresh⟩
    · exact absurd heq (hdiff htx hack)

/-! ## Invariants of the worker -/

theorem optiga_open_application_open_iff (dev : optiga_dev) (handle : Bool) (snd : ext_call)
    (rcv : apdu_recv) :
    (optiga_open_application dev handle snd rcv).1 = 0 ↔
      (optiga_open_application dev handle snd rcv).2.open_ = true := by
  simp only [optiga_open_application, optiga_send_apdu, optiga_recv_apdu]
  split_ifs <;> simp_all

theorem optiga_reset_open (cfg : optiga_kconfig) (dev : optiga_dev)
    (phy nettran pres : ext_call) :
    (optiga_reset cfg dev phy nettran pres).2.open_ = dev.open_ := by
  simp only [optiga_reset, ext_invoke, drv_data_init, optiga_data_init]
  split_ifs <;> rfl

theorem optiga_init_ok (cfg : optiga_kconfig) (dev : optiga_dev) (e : init_env)
    (h : (optiga_init cfg dev e).1 = 0) :
    (optiga_init cfg dev e).2.open_ = true ∧ (optiga_init cfg dev e).2.reset_counter = 0 := by
  simp only [optiga_init] at h ⊢
  by_cases h1 : (e.power_label && !e.gpio_binding) = true
  · simp [h1] at h
  · simp only [h1, Bool.false_eq_true, if_false] at h ⊢
    by_cases h2 : (!e.i2c_binding) = true
    · simp [h2] at h
    · simp only [h2, Bool.false_eq_true, if_false] at h ⊢
      have hr := (optiga_reset_keeps cfg
        { (if (!e.power_label) = true then { dev with gpio := false }
            else (optiga_power { dev with gpio := true } true e.power_ret).2) with
          reset_counter := 0 } e.phy e.nettran e.pres).1
      generalize optiga_reset cfg
        { (if (!e.power_label) = true then { dev with gpio := false }
            else (optiga_power { dev with gpio := true } true e.power_ret).2) with
          reset_counter := 0 } e.phy e.nettran e.pres = r at h hr ⊢
      obtain ⟨err, d⟩ := r
      simp only at h hr ⊢
      by_cases h3 : err = 0
      · simp only [h3, ne_eq, not_true_eq_false, if_false] at h ⊢
        have ho := (optiga_open_application_keeps d false e.open_snd e.open_rcv).1
        have hi := optiga_open_application_open_iff d false e.open_snd e.open_rcv
        generalize optiga_open_application d false e.open_snd e.open_rcv = o at h ho hi ⊢
        obtain ⟨err2, d2⟩ := o
        simp only at h ho hi ⊢
        by_cases h4 : err2 = 0
        · simp only [h4, ne_eq, not_true_eq_false, if_false] at h ⊢
          refine ⟨?_, ?_⟩
          · split_ifs <;> exact hi.mp h4
          · split_ifs <;> simp [ho, hr]
        · simp [h4] at h
      · simp [h3] at h

theorem optiga_get_error_code_open (dev : optiga_dev) (snd : ext_call) (rcv : apdu_recv) :
    (optiga_get_error_code dev snd rcv).2.2.open_ = dev.open_ := by
  simp only [optiga_get_error_code, optiga_send_apdu, optiga_recv_apdu]
  split_ifs <;> rfl

theorem worker_transfer_open (cfg : optiga_kconfig) (w : worker) (a : optiga_apdu)
    (e : worker_env) :
    (worker_transfer cfg w a e).dev.open_ = w.dev.open_ := by
  by_cases h1 : e.transfer_snd.err = 0
  · by_cases h2 : e.transfer_rcv.err = 0
    · simp only [worker_transfer]
      rw [optiga_transfer_apdu_received w.dev a e.transfer_snd e.transfer_rcv h1]
      simp only [h2, ne_eq, not_true_eq_false, if_false]
      have hD : (rehandshake_check cfg
          { w.dev with dl := e.transfer_rcv.dl, reset_counter := 0,
                       trace := w.dev.trace ++ [drv_op.send_apdu (a.tx_buf.take a.tx_len),
                         drv_op.recv_apdu] } e.presence e.need_rehandshake).open_
          = w.dev.open_ := by
        rw [rehandshake_check_eq]
      generalize rehandshake_check cfg
          { w.dev with dl := e.transfer_rcv.dl, reset_counter := 0,
                       trace := w.dev.trace ++ [drv_op.send_apdu (a.tx_buf.take a.tx_len),
                         drv_op.recv_apdu] } e.presence e.need_rehandshake = D at hD ⊢
      by_cases h3 : optiga_apdu_is_error e.transfer_rcv.buf = true
      · simp only [h3, if_true]
        have hg := optiga_get_error_code_open D e.code_snd e.code_rcv
        generalize optiga_get_error_code D e.code_snd e.code_rcv = g at hg ⊢
        obtain ⟨gerr, code, d2⟩ := g
        simp only at hg ⊢
        by_cases hz : gerr = 0
        · simp only [hz, not_true_eq_false, if_false]
          rw [rehandshake_check_eq]
          simp [k_poll_signal_raise, hg, hD]
        · simp only [hz, not_false_eq_true, if_true]
          simp [k_poll_signal_raise, hg, hD]
      · simp only [h3, Bool.false_eq_true, if_false]
        simp [k_poll_signal_raise, hD]
    · rw [worker_transfer_recv_fails cfg w a e h1 h2]
  · rw [worker_transfer_send_fails cfg w a e h1]

/-- What the part from `optiga_transfer_apdu` on leaves behind. -/
theorem worker_transfer_shape (cfg : optiga_kconfig) (w : worker) (a : optiga_apdu)
    (e : worker_env) :
    ((worker_transfer cfg w a e).state = WORKER_STATE.WORKER_IDLE ∨
      (worker_transfer cfg w a e).state = WORKER_STATE.WORKER_RESET) ∧
    (worker_transfer cfg w a e).apdu = none ∧
    (worker_transfer cfg w a e).dev.open_ = w.dev.open_ ∧
    ((worker_transfer cfg w a e).dev.reset_counter = 0 ∨
      (worker_transfer cfg w a e).dev.reset_counter = w.dev.reset_counter) := by
  refine ⟨?_, ?_, worker_transfer_open cfg w a e, ?_⟩
  · by_cases h1 : e.transfer_snd.err = 0
    · by_cases h2 : e.transfer_rcv.err = 0
      · cases h3 : optiga_apdu_is_error e.transfer_rcv.buf with
        | false => exact Or.inl (worker_transfer_accepted cfg w a e h1 h2 h3).1
        | true =>
          obtain ⟨d, _, _, _, _, _, _, hf, hk⟩ := worker_transfer_rejected cfg w a e h1 h2 h3
          by_cases hz : (optiga_get_error_code d e.code_snd e.code_rcv).1 = 0
          · exact Or.inl (hk hz).1
          · exact Or.inr (hf hz).1
      · rw [worker_transfer_recv_fails cfg w a e h1 h2]
        exact Or.inr rfl
    · rw [worker_transfer_send_fails cfg w a e h1]
      exact Or.inr rfl
  · by_cases h1 : e.transfer_snd.err = 0
    · by_cases h2 : e.transfer_rcv.err = 0
      · cases h3 : optiga_apdu_is_error e.transfer_rcv.buf with
        | false => exact (worker_transfer_accepted cfg w a e h1 h2 h3).2.1
        | true =>
          obtain ⟨d, _, _, _, _, _, hap, _, _⟩ := worker_transfer_rejected cfg w a e h1 h2 h3
          exact hap
      · rw [worker_transfer_recv_fails cfg w a e h1 h2]
    · rw [worker_transfer_send_fails cfg w a e h1]
  · by_cases ht : (optiga_transfer_apdu w.dev a e.transfer_snd e.transfer_rcv).1 = 0
    · exact Or.inl ((worker_transfer_counter cfg w a e).1 ht)
    · exact Or.inr ((worker_transfer_counter cfg w a e).2 ht)

theorem before_transfer_open (cfg : optiga_kconfig) (w : worker) (e : worker_env) :
    (before_transfer cfg w e).open_ = w.dev.open_ := by
  simp only [before_transfer]
  split_ifs <;> rfl

/-- `WORKER_IDLE`: the next state is `WORKER_HIBERNATE`, or `WORKER_PROCESS_APDU` with an
APDU; open flag and reset counter are kept. -/
theorem worker_step_idle_shape (cfg : optiga_kconfig) (w : worker) (e : worker_env)
    (hs : w.state = WORKER_STATE.WORKER_IDLE) :
    ((optiga_worker_step cfg w e).state = WORKER_STATE.WORKER_HIBERNATE ∨
      ((optiga_worker_step cfg w e).state = WORKER_STATE.WORKER_PROCESS_APDU ∧
        (optiga_worker_step cfg w e).apdu ≠ none)) ∧
    (optiga_worker_step cfg w e).dev.open_ = w.dev.open_ ∧
    (optiga_worker_step cfg w e).dev.reset_counter = w.dev.reset_counter := by
  simp only [optiga_worker_step, hs]
  cases hg : (k_fifo_get w.dev (if w.dev.gpio then k_timeout.K_MSEC else k_timeout.K_FOREVER)
      e.timed e.forever).1 with
  | none => exact ⟨Or.inl rfl, rfl, rfl⟩
  | some a => exact ⟨Or.inr ⟨rfl, by simp⟩, rfl, rfl⟩

/-- `WORKER_HIBERNATE`: the three ways out. -/
theorem worker_step_hibernate_shape (cfg : optiga_kconfig) (w : worker) (e : worker_env)
    (hs : w.state = WORKER_STATE.WORKER_HIBERNATE) :
    ((optiga_worker_step cfg w e).state = WORKER_STATE.WORKER_IDLE ∧
      (optiga_worker_step cfg w e).dev.open_ = true ∧
      (optiga_worker_step cfg w e).dev.reset_counter = w.dev.reset_counter) ∨
    ((optiga_worker_step cfg w e).state = WORKER_STATE.WORKER_RESET ∧
      (optiga_worker_step cfg w e).apdu = none ∧
      (optiga_worker_step cfg w e).dev.reset_counter = w.dev.reset_counter) ∨
    ((optiga_worker_step cfg w e).state = WORKER_STATE.WORKER_PROCESS_APDU ∧
      (optiga_worker_step cfg w e).apdu ≠ none ∧
      (optiga_worker_step cfg w e).dev.open_ = true ∧
      (optiga_worker_step cfg w e).dev.reset_counter = 0) := by
  have hk := optiga_hibernate_keeps cfg w.dev e.hib
  by_cases hopen : (optiga_hibernate cfg w.dev e.hib).open_ = true
  · left
    simp only [optiga_worker_step, hs, hopen, if_true]
    exact ⟨trivial, trivial, hk⟩
  · right
    have hw := optiga_wakup_keeps cfg (asleep_dev cfg w e) e.wake
    simp only [optiga_worker_step, hs, hopen, Bool.false_eq_true, if_false] at hw ⊢
    simp only [asleep_dev] at hw ⊢
    obtain ⟨a, q, hg⟩ := k_fifo_get_forever (optiga_hibernate cfg w.dev e.hib) e.timed e.forever
    rw [hg] at hw ⊢
    simp only at hw ⊢
    generalize optiga_wakup cfg
      { optiga_hibernate cfg w.dev e.hib with
        apdu_queue := q,
        trace := (optiga_hibernate cfg w.dev e.hib).trace ++ [drv_op.fifo_get (some a.id)],
        session_reservations := e.asleep_reservations,
        shield_state := e.asleep_shield } e.wake = r at hw ⊢
    obtain ⟨err, d⟩ := r
    simp only at hw ⊢
    by_cases ho : d.open_ = true
    · by_cases hz : err = 0
      · right
        simp [ho, hz]
      · left
        simp [ho, hz, k_poll_signal_raise, hw, hk]
    · left
      simp [ho, k_poll_signal_raise, hw, hk]

/-- `WORKER_PROCESS_APDU` with an APDU: the next state is `WORKER_IDLE` or `WORKER_RESET`,
no APDU is held, the open flag is kept and the reset counter is kept or cleared. -/
theorem worker_step_process_shape (cfg : optiga_kconfig) (w : worker) (e : worker_env)
    (a : optiga_apdu) (hs : w.state = WORKER_STATE.WORKER_PROCESS_APDU)
    (ha : w.apdu = some a) :
    ((optiga_worker_step cfg w e).state = WORKER_STATE.WORKER_IDLE ∨
      (optiga_worker_step cfg w e).state = WORKER_STATE.WORKER_RESET) ∧
    (optiga_worker_step cfg w e).apdu = none ∧
    (optiga_worker_step cfg w e).dev.open_ = w.dev.open_ ∧
    ((optiga_worker_step cfg w e).dev.reset_counter = 0 ∨
      (optiga_worker_step cfg w e).dev.reset_counter = w.dev.reset_counter) := by
  by_cases hr : reaches_transfer cfg w e
  · rw [worker_step_process_transfer cfg w e a hs ha hr]
    obtain ⟨t1, t2, t3, t4⟩ :=
      worker_transfer_shape cfg { w with dev := before_transfer cfg w e } a e
    refine ⟨t1, t2, t3.trans (before_transfer_open cfg w e), ?_⟩
    rcases t4 with t4 | t4
    · exact Or.inl t4
    · exact Or.inr (t4.trans (before_transfer_fields cfg w e).2.1)
  · unfold reaches_transfer at hr
    push_neg at hr
    obtain ⟨hc, hk, hne⟩ := hr
    rw [worker_step_process_handshake_fails cfg w e a hs ha hc hk hne]
    exact ⟨Or.inr rfl, rfl, rfl, Or.inr rfl⟩

theorem worker_step_reset_open (cfg : optiga_kconfig) (w : worker) (e : worker_env)
    (hs : w.state = WORKER_STATE.WORKER_RESET)
    (hne : w.dev.reset_counter + 1 ≠ OPTIGA_MAX_RESET)
    (h1 : (reset_result cfg w e).1 = 0) (h2 : (reopen_result cfg w e).1 = 0) :
    (optiga_worker_step cfg w e).dev.open_ = true := by
  have hi := optiga_open_application_open_iff (reset_result cfg w e).2 false
    e.open_snd e.open_rcv
  simp only [optiga_worker_step, hs, hne, if_false, reopen_result, reset_result] at h1 h2 hi ⊢
  generalize optiga_reset cfg { w.dev with reset_counter := w.dev.reset_counter + 1 }
    e.reset_phy e.reset_nettran e.reset_pres = r at h1 h2 hi ⊢
  obtain ⟨err, d⟩ := r
  simp only at h1 h2 hi ⊢
  subst h1
  simp only [ne_eq, not_true_eq_false, if_false]
  generalize optiga_open_application d false e.open_snd e.open_rcv = o at h2 hi ⊢
  obtain ⟨err2, d2⟩ := o
  simp only at h2 hi ⊢
  subst h2
  simp only [ne_eq, not_true_eq_false, if_false]
  have hopen : d2.open_ = true := hi.mp rfl
  split_ifs <;> simpa using hopen

/-- `WORKER_RESET`: at the bound the worker locks; below it the counter is incremented
and the worker stays in `WORKER_RESET` without an APDU or returns to `WORKER_IDLE` with
the application open. -/
theorem worker_step_reset_shape (cfg : optiga_kconfig) (w : worker) (e : worker_env)
    (hs : w.state = WORKER_STATE.WORKER_RESET) :
    (w.dev.reset_counter + 1 = OPTIGA_MAX_RESET →
      (optiga_worker_step cfg w e).state = WORKER_STATE.WORKER_RESET_LOCK ∧
      (optiga_worker_step cfg w e).dev.reset_counter = OPTIGA_MAX_RESET) ∧
    (w.dev.reset_counter + 1 ≠ OPTIGA_MAX_RESET →
      (optiga_worker_step cfg w e).dev.reset_counter = w.dev.reset_counter + 1 ∧
      (recovery_fails cfg w e →
        (optiga_worker_step cfg w e).state = WORKER_STATE.WORKER_RESET ∧
        (optiga_worker_step cfg w e).apdu = w.apdu) ∧
      (¬ recovery_fails cfg w e →
        (optiga_worker_step cfg w e).state = WORKER_STATE.WORKER_IDLE ∧
        (optiga_worker_step cfg w e).dev.open_ = true)) := by
  constructor
  · intro hmax
    simp only [optiga_worker_step, hs, hmax, if_true]
    refine ⟨trivial, ?_⟩
    split_ifs
    · rw [optiga_power_snd]
    · rfl
  · intro hmax
    obtain ⟨s1, s2, s3⟩ := worker_step_reset_eq cfg w e hs hmax
    have r1 : (reset_result cfg w e).2.reset_counter = w.dev.reset_counter + 1 :=
      (optiga_reset_keeps cfg { w.dev with reset_counter := w.dev.reset_counter + 1 }
        e.reset_phy e.reset_nettran e.reset_pres).1
    have o1 : (reopen_result cfg w e).2.reset_counter = w.dev.reset_counter + 1 :=
      ((optiga_open_application_keeps (reset_result cfg w e).2 false
        e.open_snd e.open_rcv).1).trans r1
    by_cases h1 : (reset_result cfg w e).1 = 0
    · by_cases h2 : (reopen_result cfg w e).1 = 0
      · have hnf : ¬ recovery_fails cfg w e := by
          unfold recovery_fails
          push_neg
          exact ⟨h1, h2⟩
        refine ⟨by rw [(s3 h1 h2).2.2.1, o1], fun hf => absurd hf hnf, fun _ => ?_⟩
        exact ⟨(s3 h1 h2).1, worker_step_reset_open cfg w e hs hmax h1 h2⟩
      · have hf : recovery_fails cfg w e := Or.inr h2
        rw [s2 h1 h2]
        exact ⟨o1, fun _ => ⟨rfl, rfl⟩, fun hnf => absurd hf hnf⟩
    · have hf : recovery_fails cfg w e := Or.inl h1
      rw [s1 h1]
      exact ⟨r1, fun _ => ⟨rfl, rfl⟩, fun hnf => absurd hf hnf⟩

theorem worker_asserts_step (cfg : optiga_kconfig) (w : worker) (e : worker_env)
    (h : worker_asserts w) : worker_asserts (optiga_worker_step cfg w e) := by
  obtain ⟨hp, hr, hi⟩ := h
  cases hs : w.state with
  | WORKER_IDLE =>
    obtain ⟨h1, h2, _⟩ := worker_step_idle_shape cfg w e hs
    rcases h1 with h1 | ⟨h1, h3⟩
    · simp [worker_asserts, h1]
    · simp only [worker_asserts, h1]
      exact ⟨fun _ => ⟨h3, h2.trans (hi hs)⟩, fun h => absurd h (by decide),
        fun h => absurd h (by decide)⟩
  | WORKER_HIBERNATE =>
    rcases worker_step_hibernate_shape cfg w e hs with ⟨h1, h2, _⟩ | ⟨h1, h2, _⟩ | ⟨h1, h2, h3, _⟩
    · simp only [worker_asserts, h1]
      exact ⟨fun h => absurd h (by decide), fun h => absurd h (by decide), fun _ => h2⟩
    · simp only [worker_asserts, h1]
      exact ⟨fun h => absurd h (by decide), fun _ => h2, fun h => absurd h (by decide)⟩
    · simp only [worker_asserts, h1]
      exact ⟨fun _ => ⟨h2, h3⟩, fun h => absurd h (by decide), fun h => absurd h (by decide)⟩
  | WORKER_PROCESS_APDU =>
    cases ha : w.apdu with
    | none => exact absurd ha (hp hs).1
    | some a =>
      obtain ⟨h1, h2, h3, _⟩ := worker_step_process_shape cfg w e a hs ha
      rcases h1 with h1 | h1
      · simp only [worker_asserts, h1]
        exact ⟨fun h => absurd h (by decide), fun h => absurd h (by decide),
          fun _ => h3.trans (hp hs).2⟩
      · simp only [worker_asserts, h1]
        exact ⟨fun h => absurd h (by decide), fun _ => h2, fun h => absurd h (by decide)⟩
  | WORKER_RESET =>
    obtain ⟨k1, k2⟩ := worker_step_reset_shape cfg w e hs
    by_cases hmax : w.dev.reset_counter + 1 = OPTIGA_MAX_RESET
    · simp [worker_asserts, (k1 hmax).1]
    · obtain ⟨_, kf, ks⟩ := k2 hmax
      by_cases hf : recovery_fails cfg w e
      · simp only [worker_asserts, (kf hf).1]
        exact ⟨fun h => absurd h (by decide), fun _ => (kf hf).2.trans (hr hs),
          fun h => absurd h (by decide)⟩
      · simp only [worker_asserts, (ks hf).1]
        exact ⟨fun h => absurd h (by decide), fun h => absurd h (by decide),
          fun _ => (ks hf).2⟩
  | WORKER_RESET_LOCK =>
    obtain ⟨a, q, hstep⟩ := worker_step_reset_lock cfg w e hs
    rw [hstep]
    simp [worker_asserts, hs]

theorem counter_bound_step (cfg : optiga_kconfig) (w : worker) (e : worker_env)
    (h : counter_bound w) : counter_bound (optiga_worker_step cfg w e) := by
  obtain ⟨h0, hle, hiff⟩ := h
  have h3 : OPTIGA_MAX_RESET = 3 := rfl
  have hkeep : ∀ w2 : worker, w2.state ≠ WORKER_STATE.WORKER_RESET_LOCK →
      w.state ≠ WORKER_STATE.WORKER_RESET_LOCK →
      (w2.dev.reset_counter = 0 ∨ w2.dev.reset_counter = w.dev.reset_counter) →
      counter_bound w2 := by
    intro w2 hst hw hc
    have hne : w.dev.reset_counter ≠ OPTIGA_MAX_RESET := fun hh => hw (hiff.mpr hh)
    refine ⟨?_, ?_, ?_⟩
    · rcases hc with hc | hc <;> omega
    · rcases hc with hc | hc <;> omega
    · constructor
      · intro hh; exact absurd hh hst
      · intro hh
        rcases hc with hc | hc <;> omega
  cases hs : w.state with
  | WORKER_IDLE =>
    obtain ⟨h1, _, h2⟩ := worker_step_idle_shape cfg w e hs
    apply hkeep _ _ (by rw [hs]; decide) (Or.inr h2)
    rcases h1 with h1 | ⟨h1, _⟩ <;> rw [h1] <;> decide
  | WORKER_HIBERNATE =>
    rcases worker_step_hibernate_shape cfg w e hs with ⟨h1, _, h2⟩ | ⟨h1, _, h2⟩ | ⟨h1, _, _, h2⟩
    · exact hkeep _ (by rw [h1]; decide) (by rw [hs]; decide) (Or.inr h2)
    · exact hkeep _ (by rw [h1]; decide) (by rw [hs]; decide) (Or.inr h2)
    · exact hkeep _ (by rw [h1]; decide) (by rw [hs]; decide) (Or.inl h2)
  | WORKER_PROCESS_APDU =>
    cases ha : w.apdu with
    | none =>
      have hw : optiga_worker_step cfg w e = w := by
        simp only [optiga_worker_step, hs, ha]
      rw [hw]
      exact ⟨h0, hle, hiff⟩
    | some a =>
      obtain ⟨h1, _, _, h2⟩ := worker_step_process_shape cfg w e a hs ha
      apply hkeep _ _ (by rw [hs]; decide) h2
      rcases h1 with h1 | h1 <;> rw [h1] <;> decide
  | WORKER_RESET =>
    have hne : w.dev.reset_counter ≠ OPTIGA_MAX_RESET := fun hh => by
      have := hiff.mpr hh
      rw [hs] at this
      exact absurd this (by decide)
    obtain ⟨k1, k2⟩ := worker_step_reset_shape cfg w e hs
    by_cases hmax : w.dev.reset_counter + 1 = OPTIGA_MAX_RESET
    · obtain ⟨s1, s2⟩ := k1 hmax
      exact ⟨by rw [s2]; decide, by rw [s2], by rw [s1, s2]; simp⟩
    · obtain ⟨c1, kf, ks⟩ := k2 hmax
      have hst : (optiga_worker_step cfg w e).state ≠ WORKER_STATE.WORKER_RESET_LOCK := by
        by_cases hf : recovery_fails cfg w e
        · rw [(kf hf).1]; decide
        · rw [(ks hf).1]; decide
      refine ⟨by omega, by omega, ?_⟩
      constructor
      · intro hh; exact absurd hh hst
      · intro hh; omega
  | WORKER_RESET_LOCK =>
    obtain ⟨a, q, hstep⟩ := worker_step_reset_lock cfg w e hs
    rw [hstep]
    have := hiff.mp hs
    exact ⟨h0, hle, by simp [hs, this]⟩

theorem worker_invariants_run (cfg : optiga_kconfig) (s : List sched_item) :
    ∀ w : worker, worker_asserts w → counter_bound w →
      worker_asserts (worker_run cfg w s) ∧ counter_bound (worker_run cfg w s) := by
  induction s with
  | nil => intro w h1 h2; exact ⟨h1, h2⟩
  | cons item s ih =>
    intro w h1 h2
    have hstep : worker_asserts (sched_step cfg w item) ∧ counter_bound (sched_step cfg w item) := by
      cases item with
      | iteration e => exact ⟨worker_asserts_step cfg w e h1, counter_bound_step cfg w e h2⟩
      | enqueue a => exact ⟨h1, h2⟩
      | acquire idx => exact ⟨h1, h2⟩
      | release idx => exact ⟨h1, h2⟩
      | callers st => exact ⟨h1, h2⟩
    exact ih _ hstep.1 hstep.2

theorem worker_start_invariants (cfg : optiga_kconfig) (dev : optiga_dev) (ie : init_env)
    (hinit : (optiga_init cfg dev ie).1 = 0) :
    worker_asserts (worker_start cfg dev ie) ∧ counter_bound (worker_start cfg dev ie) := by
  obtain ⟨h1, h2⟩ := optiga_init_ok cfg dev ie hinit
  constructor
  · exact ⟨fun h => by simp [worker_start] at h, fun _ => rfl, fun _ => h1⟩
  · refine ⟨?_, ?_, ?_⟩
    · show 0 ≤ (optiga_init cfg dev ie).2.reset_counter
      rw [h2]
    · show (optiga_init cfg dev ie).2.reset_counter ≤ OPTIGA_MAX_RESET
      rw [h2]; decide
    · show WORKER_STATE.WORKER_IDLE = WORKER_STATE.WORKER_RESET_LOCK ↔
        (optiga_init cfg dev ie).2.reset_counter = OPTIGA_MAX_RESET
      rw [h2]
      constructor
      · intro h; exact absurd h (by decide)
      · intro h; exact absurd h (by decide)

/-- A failing recovery in `WORKER_RESET` under the counter bound: the worker locks, or
stays in `WORKER_RESET` with the counter incremented. -/
theorem failing_reset_step (cfg : optiga_kconfig) (w : worker) (e : worker_env)
    (hf : recovery_fails cfg w e) :
    (w.state = WORKER_STATE.WORKER_RESET_LOCK ∨ w.state = WORKER_STATE.WORKER_RESET) →
    ((optiga_worker_step cfg w e).state = WORKER_STATE.WORKER_RESET_LOCK ∨
      ((optiga_worker_step cfg w e).state = WORKER_STATE.WORKER_RESET ∧
        w.state = WORKER_STATE.WORKER_RESET ∧
        (optiga_worker_step cfg w e).dev.reset_counter = w.dev.reset_counter + 1)) := by
  intro hst
  rcases hst with hs | hs
  · obtain ⟨a, q, hstep⟩ := worker_step_reset_lock cfg w e hs
    left
    rw [hstep]
    exact hs
  · obtain ⟨k1, k2⟩ := worker_step_reset_shape cfg w e hs
    by_cases hmax : w.dev.reset_counter + 1 = OPTIGA_MAX_RESET
    · exact Or.inl (k1 hmax).1
    · obtain ⟨c1, kf, _⟩ := k2 hmax
      exact Or.inr ⟨(kf hf).1, hs, c1⟩

/-- C36 (the worker assertions hold in every reachable state): after a successful
`optiga_init`, in every execution of the worker with caller threads in between, whenever
the worker is in `WORKER_PROCESS_APDU` it holds a current APDU and the open flag is
true, and whenever it is in `WORKER_RESET` it holds no current APDU;
`optiga_open_application` returns 0 exactly when it leaves the open flag true. -/
theorem worker_assertions_hold (cfg : optiga_kconfig) (dev : optiga_dev) (ie : init_env)
    (s : List sched_item) (hinit : (optiga_init cfg dev ie).1 = 0) :
    ((worker_run cfg (worker_start cfg dev ie) s).state = WORKER_STATE.WORKER_PROCESS_APDU →
      (worker_run cfg (worker_start cfg dev ie) s).apdu ≠ none ∧
      (worker_run cfg (worker_start cfg dev ie) s).dev.open_ = true) ∧
    ((worker_run cfg (worker_start cfg dev ie) s).state = WORKER_STATE.WORKER_RESET →
      (worker_run cfg (worker_start cfg dev ie) s).apdu = none) ∧
    (∀ (d : optiga_dev) (handle : Bool) (snd : ext_call) (rcv : apdu_recv),
      (optiga_open_application d handle snd rcv).1 = 0 ↔
        (optiga_open_application d handle snd rcv).2.open_ = true) := by
  obtain ⟨h1, h2⟩ := worker_start_invariants cfg dev ie hinit
  obtain ⟨⟨a1, a2, _⟩, _⟩ := worker_invariants_run cfg s _ h1 h2
  exact ⟨a1, a2, optiga_open_application_open_iff⟩

theorem worker_assertions_hold_witness :
    (worker_run ⟨true, 4⟩ (worker_start ⟨true, 4⟩ (sample_dev 0) sample_init)
        [sched_item.enqueue (sample_apdu 7), sched_item.iteration sample_env]).apdu ≠ none ∧
    (worker_run ⟨true, 4⟩ (worker_start ⟨true, 4⟩ (sample_dev 0) sample_init)
        [sched_item.enqueue (sample_apdu 7), sched_item.iteration sample_env]).dev.open_ = true :=
  (worker_assertions_hold ⟨true, 4⟩ (sample_dev 0) sample_init
    [sched_item.enqueue (sample_apdu 7), sched_item.iteration sample_env] (by decide)).1
    (by decide)

/-- C37 (reset counter bound): after a successful `optiga_init`, in every execution of the
worker with caller threads in between, the reset counter is in `0..OPTIGA_MAX_RESET` and
equals `OPTIGA_MAX_RESET` exactly when the worker is in `WORKER_RESET_LOCK`; and from
`WORKER_RESET`, three iterations whose stack reset or OpenApplication fails end in
`WORKER_RESET_LOCK`, the counter growing by one with every visit of `WORKER_RESET`. -/
theorem reset_counter_bound (cfg : optiga_kconfig) (dev : optiga_dev) (ie : init_env)
    (s : List sched_item) (e1 e2 e3 : worker_env)
    (hinit : (optiga_init cfg dev ie).1 = 0) :
    let w := worker_run cfg (worker_start cfg dev ie) s
    let w1 := optiga_worker_step cfg w e1
    let w2 := optiga_worker_step cfg w1 e2
    let w3 := optiga_worker_step cfg w2 e3
    0 ≤ w.dev.reset_counter ∧ w.dev.reset_counter ≤ OPTIGA_MAX_RESET ∧
    (w.state = WORKER_STATE.WORKER_RESET_LOCK ↔ w.dev.reset_counter = OPTIGA_MAX_RESET) ∧
    (w.state = WORKER_STATE.WORKER_RESET →
      recovery_fails cfg w e1 → recovery_fails cfg w1 e2 → recovery_fails cfg w2 e3 →
      w3.state = WORKER_STATE.WORKER_RESET_LOCK) := by
  intro w w1 w2 w3
  obtain ⟨h1, h2⟩ := worker_start_invariants cfg dev ie hinit
  obtain ⟨_, hb⟩ := worker_invariants_run cfg s _ h1 h2
  have hb0 : counter_bound w := hb
  have hb3 : counter_bound w3 :=
    counter_bound_step cfg w2 e3 (counter_bound_step cfg w1 e2 (counter_bound_step cfg w e1 hb0))
  refine ⟨hb0.1, hb0.2.1, hb0.2.2, ?_⟩
  intro hs f1 f2 f3
  have h3 : OPTIGA_MAX_RESET = 3 := rfl
  have c0 : 0 ≤ w.dev.reset_counter := hb0.1
  rcases failing_reset_step cfg w e1 f1 (Or.inr hs) with l1 | ⟨r1, _, c1⟩
  · rcases failing_reset_step cfg w1 e2 f2 (Or.inl l1) with l2 | ⟨r2, x2, _⟩
    · rcases failing_reset_step cfg w2 e3 f3 (Or.inl l2) with l3 | ⟨_, x3, _⟩
      · exact l3
      · rw [l2] at x3; exact absurd x3 (by decide)
    · rw [l1] at x2; exact absurd x2 (by decide)
  · rcases failing_reset_step cfg w1 e2 f2 (Or.inr r1) with l2 | ⟨r2, _, c2⟩
    · rcases failing_reset_step cfg w2 e3 f3 (Or.inl l2) with l3 | ⟨_, x3, _⟩
      · exact l3
      · rw [l2] at x3; exact absurd x3 (by decide)
    · rcases failing_reset_step cfg w2 e3 f3 (Or.inr r2) with l3 | ⟨r3, _, c3⟩
      · exact l3
      · exfalso
        have c1x : w1.dev.reset_counter = w.dev.reset_counter + 1 := c1
        have c2x : w2.dev.reset_counter = w1.dev.reset_counter + 1 := c2
        have c3x : w3.dev.reset_counter = w2.dev.reset_counter + 1 := c3
        have hle : w3.dev.reset_counter ≤ OPTIGA_MAX_RESET := hb3.2.1
        have hne : w3.dev.reset_counter ≠ OPTIGA_MAX_RESET := fun hh => by
          have := hb3.2.2.mpr hh
          rw [r3] at this
          exact absurd this (by decide)
        omega

theorem reset_counter_bound_witness :
    (optiga_worker_step ⟨false, 4⟩ (optiga_worker_step ⟨false, 4⟩ (optiga_worker_step ⟨false, 4⟩
      (worker_run ⟨false, 4⟩ (worker_start ⟨false, 4⟩ (sample_dev 0) sample_init)
        [sched_item.enqueue (sample_apdu 7), sched_item.iteration sample_env,
          sched_item.iteration failing_env])
      stuck_env) stuck_env) stuck_env).state = WORKER_STATE.WORKER_RESET_LOCK :=
  (reset_counter_bound ⟨false, 4⟩ (sample_dev 0) sample_init
    [sched_item.enqueue (sample_apdu 7), sched_item.iteration sample_env,
      sched_item.iteration failing_env] stuck_env stuck_env stuck_env (by decide)).2.2.2
    (by decide) (by decide) (by decide) (by decide)
